import Mathlib

/-!
# thrift-utils: protocol tracer, logging middleware and retrying client

A shallow embedding of `proto.go`, `middleware.go`, `logging.go` and `retry.go`.

* Go strings are Lean strings, `int`/`intN` values are integers, `[]byte` is a list of
  naturals below 256.
* A failed Go type assertion (`x.(T)` on a value of another dynamic type) panics; the
  functions that can reach one return `Option`, with `none` for the panic.
* Interface values held by the code (`thrift.TProtocol`, `thrift.TClient`, the callbacks of the
  retrying client) are modelled by a state of an arbitrary type together with a record of
  state-passing functions, so that every behaviour of the collaborator is covered.
-/

namespace ThriftUtils

/-! ## proto.go -/

/-- The constants of `thriftType` (proto.go, lines 14-32). -/
inductive thriftType where
  | MESSAGE | MAP | LIST | SET | STRUCT | FIELD | STRING | I16 | I32 | I64
  | DOUBLE | UUID | BINARY | BYTE | BOOL
  deriving DecidableEq, Repr

/-- A `float64`, kept as its IEEE-754 bit pattern. -/
structure Float64 where
  bits : Nat
  deriving DecidableEq, Repr

/-- A `thrift.Tuuid`, an array of 16 bytes. -/
structure Tuuid where
  bytes : List Nat
  deriving DecidableEq, Repr

/-- The dynamic values that reach `thriftItem.value` (an `interface{}`): each constructor is one
Go dynamic type. `nil` is the zero value of the field, `uint8` is Go's `byte`. -/
inductive Value where
  | nil
  | string (v : String)
  | int8 (v : Int)
  | int16 (v : Int)
  | int32 (v : Int)
  | int64 (v : Int)
  | uint8 (v : Nat)
  | float64 (v : Float64)
  | bytes (v : List Nat)
  | tuuid (v : Tuuid)
  | bool (v : Bool)
  deriving DecidableEq, Repr

/-- The struct `thriftItem` (proto.go, lines 34-38). -/
structure thriftItem where
  thriftType : thriftType
  name : String := ""
  value : Value := Value.nil
  deriving DecidableEq, Repr

/-- Library formatting that the tracer calls and that lives outside the repository:
`%.2f` of a `float64` and `thrift.Tuuid.String`. -/
structure Fmt where
  float2f : Float64 → String
  uuidString : Tuuid → String

/-- The struct `LoggingProtocol` (proto.go, lines 40-46). `next` is the state of the wrapped
protocol, `w` the contents of the `bytes.Buffer`. -/
structure LoggingProtocol (P : Type) where
  next : P
  w : String
  indent : Bool
  stack : List thriftType

/-- Go's `NewLoggingProtocol` (proto.go, lines 48-54): empty buffer, `indent` set, nil stack. -/
def NewLoggingProtocol {P : Type} (wraps : P) : LoggingProtocol P :=
  { next := wraps, w := "", indent := true, stack := [] }

/-- The loop of `indentWriter`: two spaces per stack entry. -/
def tabs : Nat → String
  | 0 => ""
  | n + 1 => tabs n ++ "  "

/-- Go's `indentWriter` (proto.go, lines 56-64). -/
def LoggingProtocol.indentWriter {P : Type} (l : LoggingProtocol P) : LoggingProtocol P :=
  if l.indent then { l with w := l.w ++ tabs l.stack.length } else l

/-- Go's `write` (proto.go, lines 66-69); `msg` is the text `fmt.Fprintf` produces. -/
def LoggingProtocol.write {P : Type} (l : LoggingProtocol P) (msg : String) : LoggingProtocol P :=
  let l1 := l.indentWriter
  { l1 with w := l1.w ++ msg }

/-- Go's `writeLn` (proto.go, lines 71-73). -/
def LoggingProtocol.writeLn {P : Type} (l : LoggingProtocol P) (msg : String) :
    LoggingProtocol P :=
  l.write (msg ++ "\n")

/-- The call `strings.ReplaceAll(s, "\"", "\\\"")`: every double quote becomes backslash, double quote. -/
def escapeQuotes (s : String) : String :=
  String.mk (s.data.flatMap fun c => if c = '"' then ['\\', '"'] else [c])

/-- The verb `%d` on an integer. -/
def fmtD (v : Int) : String := toString v

/-- Lower-case hexadecimal digits of a natural number, as `%x` prints an unsigned integer. -/
def fmtX (v : Nat) : String := String.mk (Nat.toDigits 16 v)

/-- The verb `%x` on a `[]byte`: two lower-case hexadecimal digits per byte. -/
def fmtXBytes (bs : List Nat) : String :=
  String.mk (bs.flatMap fun b => [Nat.digitChar (b / 16 % 16), Nat.digitChar (b % 16)])

/-- The verb `%t` on a `bool`. -/
def fmtT (b : Bool) : String := if b then "true" else "false"

/-- The text that the first `switch` of `push` (proto.go, lines 76-117) hands to `write`, with
the flag saying whether `writeLn` is used; `none` when the branch's type assertion fails.
The `default` branch is not reachable from a `thriftType` constant. -/
def renderItem (fmt : Fmt) (item : thriftItem) : Option (String × Bool) :=
  match item.thriftType with
  | .MESSAGE =>
    if item.name = "" then some ("message \x7b", true)
    else some ("message (name='" ++ item.name ++ "') \x7b", true)
  | .STRUCT =>
    if item.name = "" then some ("struct \x7b", true)
    else some ("struct (name='" ++ item.name ++ "') \x7b", true)
  | .FIELD => some ("\"" ++ item.name ++ "\" = ", false)
  | .MAP => some ("map \x7b", true)
  | .LIST => some ("list [", true)
  | .SET => some ("set [", true)
  | .STRING =>
    match item.value with
    | .string s => some ("\"" ++ escapeQuotes s ++ "\"", true)
    | _ => none
  | .I16 =>
    match item.value with
    | .int16 v => some (fmtD v, true)
    | _ => none
  | .I32 =>
    match item.value with
    | .int32 v => some (fmtD v, true)
    | _ => none
  | .I64 =>
    match item.value with
    | .int64 v => some (fmtD v, true)
    | _ => none
  | .DOUBLE =>
    match item.value with
    | .float64 v => some (fmt.float2f v, true)
    | _ => none
  | .UUID =>
    match item.value with
    | .tuuid v => some ("\"" ++ fmt.uuidString v ++ "\"", true)
    | _ => none
  | .BINARY =>
    match item.value with
    | .bytes v => some ("\"" ++ fmtXBytes v ++ "\"", true)
    | _ => none
  | .BYTE =>
    match item.value with
    | .uint8 v => some ("\"" ++ fmtX v ++ "\"", true)
    | _ => none
  | .BOOL =>
    match item.value with
    | .bool v => some (fmtT v, true)
    | _ => none

/-- The kinds of the second `switch` of `push` (proto.go, lines 120-123). -/
def thriftType.isParent : thriftType → Bool
  | .MESSAGE | .MAP | .LIST | .SET | .STRUCT | .FIELD => true
  | _ => false

/-- Go's `push` (proto.go, lines 75-124). -/
def LoggingProtocol.push {P : Type} (fmt : Fmt) (l : LoggingProtocol P) (item : thriftItem) :
    Option (LoggingProtocol P) :=
  match renderItem fmt item with
  | none => none
  | some (msg, ln) =>
    let l1 := if ln then l.writeLn msg else l.write msg
    some (if item.thriftType.isParent then { l1 with stack := l1.stack ++ [item.thriftType] }
      else l1)

/-- Go's `pop` (proto.go, lines 132-143). -/
def LoggingProtocol.pop {P : Type} (l : LoggingProtocol P) : LoggingProtocol P :=
  if 0 < l.stack.length then
    match l.stack.getLast? with
    | none => l
    | some head =>
      let l1 := { l with stack := l.stack.dropLast }
      match head with
      | .MESSAGE | .MAP | .STRUCT => l1.writeLn "\x7d"
      | .LIST | .SET => l1.writeLn "]"
      | _ => l1
  else l

/-- A `context.Context`, identified by a token. -/
structure Context where
  id : Nat
  deriving DecidableEq, Repr

/-- The behaviour of a wrapped `thrift.TProtocol` whose state has type `P`: one state-passing
function per method of the interface. `E` is the type of errors (`none` is Go's `nil` error),
`T` the type of transports; `thrift.TType` and `thrift.TMessageType` values are integers.
Results that come with an error are the pair of the values and the error. -/
structure TProtocol (P E T : Type) where
  WriteMessageBegin : Context → String → Int → Int → P → Option E × P
  WriteMessageEnd : Context → P → Option E × P
  WriteStructBegin : Context → String → P → Option E × P
  WriteStructEnd : Context → P → Option E × P
  WriteFieldBegin : Context → String → Int → Int → P → Option E × P
  WriteFieldEnd : Context → P → Option E × P
  WriteFieldStop : Context → P → Option E × P
  WriteMapBegin : Context → Int → Int → Int → P → Option E × P
  WriteMapEnd : Context → P → Option E × P
  WriteListBegin : Context → Int → Int → P → Option E × P
  WriteListEnd : Context → P → Option E × P
  WriteSetBegin : Context → Int → Int → P → Option E × P
  WriteSetEnd : Context → P → Option E × P
  WriteBool : Context → Bool → P → Option E × P
  WriteByte : Context → Int → P → Option E × P
  WriteI16 : Context → Int → P → Option E × P
  WriteI32 : Context → Int → P → Option E × P
  WriteI64 : Context → Int → P → Option E × P
  WriteDouble : Context → Float64 → P → Option E × P
  WriteString : Context → String → P → Option E × P
  WriteBinary : Context → List Nat → P → Option E × P
  WriteUUID : Context → Tuuid → P → Option E × P
  ReadMessageBegin : Context → P → ((String × Int × Int) × Option E) × P
  ReadMessageEnd : Context → P → Option E × P
  ReadStructBegin : Context → P → ((String) × Option E) × P
  ReadStructEnd : Context → P → Option E × P
  ReadFieldBegin : Context → P → ((String × Int × Int) × Option E) × P
  ReadFieldEnd : Context → P → Option E × P
  ReadMapBegin : Context → P → ((Int × Int × Int) × Option E) × P
  ReadMapEnd : Context → P → Option E × P
  ReadListBegin : Context → P → ((Int × Int) × Option E) × P
  ReadListEnd : Context → P → Option E × P
  ReadSetBegin : Context → P → ((Int × Int) × Option E) × P
  ReadSetEnd : Context → P → Option E × P
  ReadBool : Context → P → ((Bool) × Option E) × P
  ReadByte : Context → P → ((Int) × Option E) × P
  ReadI16 : Context → P → ((Int) × Option E) × P
  ReadI32 : Context → P → ((Int) × Option E) × P
  ReadI64 : Context → P → ((Int) × Option E) × P
  ReadDouble : Context → P → ((Float64) × Option E) × P
  ReadString : Context → P → ((String) × Option E) × P
  ReadBinary : Context → P → ((List Nat) × Option E) × P
  ReadUUID : Context → P → ((Tuuid) × Option E) × P
  Skip : Context → Int → P → Option E × P
  Flush : Context → P → Option E × P
  Transport : P → T

/-- Go's `WriteMessageBegin` (proto.go, lines 145-148): render, then forward. -/
def LoggingProtocol.WriteMessageBegin {P E T : Type} (p : TProtocol P E T) (fmt : Fmt)
    (l : LoggingProtocol P) (ctx : Context) (name : String) (typeId : Int) (seqid : Int) :
    Option (Option E × LoggingProtocol P) :=
  (l.push fmt { thriftType := .MESSAGE, name := name }).map fun l1 =>
    let r := p.WriteMessageBegin ctx name typeId seqid l1.next
    (r.1, { l1 with next := r.2 })

/-- Go's `WriteMessageEnd` (proto.go, lines 150-153): pop, then forward. -/
def LoggingProtocol.WriteMessageEnd {P E T : Type} (p : TProtocol P E T)
    (l : LoggingProtocol P) (ctx : Context) : Option E × LoggingProtocol P :=
  let l1 := l.pop
  let r := p.WriteMessageEnd ctx l1.next
  (r.1, { l1 with next := r.2 })

/-- Go's `WriteStructBegin` (proto.go, lines 155-158): render, then forward. -/
def LoggingProtocol.WriteStructBegin {P E T : Type} (p : TProtocol P E T) (fmt : Fmt)
    (l : LoggingProtocol P) (ctx : Context) (name : String) :
    Option (Option E × LoggingProtocol P) :=
  (l.push fmt { thriftType := .STRUCT, name := name }).map fun l1 =>
    let r := p.WriteStructBegin ctx name l1.next
    (r.1, { l1 with next := r.2 })

/-- Go's `WriteStructEnd` (proto.go, lines 160-163): pop, then forward. -/
def LoggingProtocol.WriteStructEnd {P E T : Type} (p : TProtocol P E T)
    (l : LoggingProtocol P) (ctx : Context) : Option E × LoggingProtocol P :=
  let l1 := l.pop
  let r := p.WriteStructEnd ctx l1.next
  (r.1, { l1 with next := r.2 })

/-- Go's `WriteFieldBegin` (proto.go, lines 165-168): render, then forward. -/
def LoggingProtocol.WriteFieldBegin {P E T : Type} (p : TProtocol P E T) (fmt : Fmt)
    (l : LoggingProtocol P) (ctx : Context) (name : String) (typeId : Int) (id : Int) :
    Option (Option E × LoggingProtocol P) :=
  (l.push fmt { thriftType := .FIELD, name := name }).map fun l1 =>
    let r := p.WriteFieldBegin ctx name typeId id l1.next
    (r.1, { l1 with next := r.2 })

/-- Go's `WriteFieldEnd` (proto.go, lines 170-173): pop, then forward. -/
def LoggingProtocol.WriteFieldEnd {P E T : Type} (p : TProtocol P E T)
    (l : LoggingProtocol P) (ctx : Context) : Option E × LoggingProtocol P :=
  let l1 := l.pop
  let r := p.WriteFieldEnd ctx l1.next
  (r.1, { l1 with next := r.2 })

/-- Go's `WriteFieldStop` (proto.go, lines 175-177): forward only. -/
def LoggingProtocol.WriteFieldStop {P E T : Type} (p : TProtocol P E T)
    (l : LoggingProtocol P) (ctx : Context) : Option E × LoggingProtocol P :=
  let r := p.WriteFieldStop ctx l.next
  (r.1, { l with next := r.2 })

/-- Go's `WriteMapBegin` (proto.go, lines 179-182): render, then forward. -/
def LoggingProtocol.WriteMapBegin {P E T : Type} (p : TProtocol P E T) (fmt : Fmt)
    (l : LoggingProtocol P) (ctx : Context) (keyType : Int) (valueType : Int) (size : Int) :
    Option (Option E × LoggingProtocol P) :=
  (l.push fmt { thriftType := .MAP }).map fun l1 =>
    let r := p.WriteMapBegin ctx keyType valueType size l1.next
    (r.1, { l1 with next := r.2 })

/-- Go's `WriteMapEnd` (proto.go, lines 184-187): pop, then forward. -/
def LoggingProtocol.WriteMapEnd {P E T : Type} (p : TProtocol P E T)
    (l : LoggingProtocol P) (ctx : Context) : Option E × LoggingProtocol P :=
  let l1 := l.pop
  let r := p.WriteMapEnd ctx l1.next
  (r.1, { l1 with next := r.2 })

/-- Go's `WriteListBegin` (proto.go, lines 189-192): render, then forward. -/
def LoggingProtocol.WriteListBegin {P E T : Type} (p : TProtocol P E T) (fmt : Fmt)
    (l : LoggingProtocol P) (ctx : Context) (elemType : Int) (size : Int) :
    Option (Option E × LoggingProtocol P) :=
  (l.push fmt { thriftType := .LIST }).map fun l1 =>
    let r := p.WriteListBegin ctx elemType size l1.next
    (r.1, { l1 with next := r.2 })

/-- Go's `WriteListEnd` (proto.go, lines 194-197): pop, then forward. -/
def LoggingProtocol.WriteListEnd {P E T : Type} (p : TProtocol P E T)
    (l : LoggingProtocol P) (ctx : Context) : Option E × LoggingProtocol P :=
  let l1 := l.pop
  let r := p.WriteListEnd ctx l1.next
  (r.1, { l1 with next := r.2 })

/-- Go's `WriteSetBegin` (proto.go, lines 199-202): render, then forward. -/
def LoggingProtocol.WriteSetBegin {P E T : Type} (p : TProtocol P E T) (fmt : Fmt)
    (l : LoggingProtocol P) (ctx : Context) (elemType : Int) (size : Int) :
    Option (Option E × LoggingProtocol P) :=
  (l.push fmt { thriftType := .SET }).map fun l1 =>
    let r := p.WriteSetBegin ctx elemType size l1.next
    (r.1, { l1 with next := r.2 })

/-- Go's `WriteSetEnd` (proto.go, lines 204-207): pop, then forward. -/
def LoggingProtocol.WriteSetEnd {P E T : Type} (p : TProtocol P E T)
    (l : LoggingProtocol P) (ctx : Context) : Option E × LoggingProtocol P :=
  let l1 := l.pop
  let r := p.WriteSetEnd ctx l1.next
  (r.1, { l1 with next := r.2 })

/-- Go's `WriteBool` (proto.go, lines 209-212): render, then forward. -/
def LoggingProtocol.WriteBool {P E T : Type} (p : TProtocol P E T) (fmt : Fmt)
    (l : LoggingProtocol P) (ctx : Context) (value : Bool) :
    Option (Option E × LoggingProtocol P) :=
  (l.push fmt { thriftType := .BOOL, value := .bool value }).map fun l1 =>
    let r := p.WriteBool ctx value l1.next
    (r.1, { l1 with next := r.2 })

/-- Go's `WriteByte` (proto.go, lines 214-217): render, then forward. -/
def LoggingProtocol.WriteByte {P E T : Type} (p : TProtocol P E T) (fmt : Fmt)
    (l : LoggingProtocol P) (ctx : Context) (value : Int) :
    Option (Option E × LoggingProtocol P) :=
  (l.push fmt { thriftType := .BYTE, value := .int8 value }).map fun l1 =>
    let r := p.WriteByte ctx value l1.next
    (r.1, { l1 with next := r.2 })

/-- Go's `WriteI16` (proto.go, lines 219-222): render, then forward. -/
def LoggingProtocol.WriteI16 {P E T : Type} (p : TProtocol P E T) (fmt : Fmt)
    (l : LoggingProtocol P) (ctx : Context) (value : Int) :
    Option (Option E × LoggingProtocol P) :=
  (l.push fmt { thriftType := .I16, value := .int16 value }).map fun l1 =>
    let r := p.WriteI16 ctx value l1.next
    (r.1, { l1 with next := r.2 })

/-- Go's `WriteI32` (proto.go, lines 224-227): render, then forward. -/
def LoggingProtocol.WriteI32 {P E T : Type} (p : TProtocol P E T) (fmt : Fmt)
    (l : LoggingProtocol P) (ctx : Context) (value : Int) :
    Option (Option E × LoggingProtocol P) :=
  (l.push fmt { thriftType := .I32, value := .int32 value }).map fun l1 =>
    let r := p.WriteI32 ctx value l1.next
    (r.1, { l1 with next := r.2 })

/-- Go's `WriteI64` (proto.go, lines 229-232): render, then forward. -/
def LoggingProtocol.WriteI64 {P E T : Type} (p : TProtocol P E T) (fmt : Fmt)
    (l : LoggingProtocol P) (ctx : Context) (value : Int) :
    Option (Option E × LoggingProtocol P) :=
  (l.push fmt { thriftType := .I64, value := .int64 value }).map fun l1 =>
    let r := p.WriteI64 ctx value l1.next
    (r.1, { l1 with next := r.2 })

/-- Go's `WriteDouble` (proto.go, lines 234-237): render, then forward. -/
def LoggingProtocol.WriteDouble {P E T : Type} (p : TProtocol P E T) (fmt : Fmt)
    (l : LoggingProtocol P) (ctx : Context) (value : Float64) :
    Option (Option E × LoggingProtocol P) :=
  (l.push fmt { thriftType := .DOUBLE, value := .float64 value }).map fun l1 =>
    let r := p.WriteDouble ctx value l1.next
    (r.1, { l1 with next := r.2 })

/-- Go's `WriteString` (proto.go, lines 239-242): render, then forward. -/
def LoggingProtocol.WriteString {P E T : Type} (p : TProtocol P E T) (fmt : Fmt)
    (l : LoggingProtocol P) (ctx : Context) (value : String) :
    Option (Option E × LoggingProtocol P) :=
  (l.push fmt { thriftType := .STRING, value := .string value }).map fun l1 =>
    let r := p.WriteString ctx value l1.next
    (r.1, { l1 with next := r.2 })

/-- Go's `WriteBinary` (proto.go, lines 244-247): render, then forward. -/
def LoggingProtocol.WriteBinary {P E T : Type} (p : TProtocol P E T) (fmt : Fmt)
    (l : LoggingProtocol P) (ctx : Context) (value : List Nat) :
    Option (Option E × LoggingProtocol P) :=
  (l.push fmt { thriftType := .BINARY, value := .bytes value }).map fun l1 =>
    let r := p.WriteBinary ctx value l1.next
    (r.1, { l1 with next := r.2 })

/-- Go's `WriteUUID` (proto.go, lines 249-252): render, then forward. -/
def LoggingProtocol.WriteUUID {P E T : Type} (p : TProtocol P E T) (fmt : Fmt)
    (l : LoggingProtocol P) (ctx : Context) (value : Tuuid) :
    Option (Option E × LoggingProtocol P) :=
  (l.push fmt { thriftType := .UUID, value := .tuuid value }).map fun l1 =>
    let r := p.WriteUUID ctx value l1.next
    (r.1, { l1 with next := r.2 })

/-- Go's `ReadMessageBegin` (proto.go, lines 255-259): forward, then render what was returned. -/
def LoggingProtocol.ReadMessageBegin {P E T : Type} (p : TProtocol P E T) (fmt : Fmt)
    (l : LoggingProtocol P) (ctx : Context) :
    Option (((String × Int × Int) × Option E) × LoggingProtocol P) :=
  let r := p.ReadMessageBegin ctx l.next
  ({ l with next := r.2 }.push fmt { thriftType := .MESSAGE, name := r.1.1.1 }).map fun l1 => (r.1, l1)

/-- Go's `ReadMessageEnd` (proto.go, lines 261-264): pop, then forward. -/
def LoggingProtocol.ReadMessageEnd {P E T : Type} (p : TProtocol P E T)
    (l : LoggingProtocol P) (ctx : Context) : Option E × LoggingProtocol P :=
  let l1 := l.pop
  let r := p.ReadMessageEnd ctx l1.next
  (r.1, { l1 with next := r.2 })

/-- Go's `ReadStructBegin` (proto.go, lines 266-270): forward, then render what was returned. -/
def LoggingProtocol.ReadStructBegin {P E T : Type} (p : TProtocol P E T) (fmt : Fmt)
    (l : LoggingProtocol P) (ctx : Context) :
    Option (((String) × Option E) × LoggingProtocol P) :=
  let r := p.ReadStructBegin ctx l.next
  ({ l with next := r.2 }.push fmt { thriftType := .STRUCT, name := r.1.1 }).map fun l1 => (r.1, l1)

/-- Go's `ReadStructEnd` (proto.go, lines 272-275): pop, then forward. -/
def LoggingProtocol.ReadStructEnd {P E T : Type} (p : TProtocol P E T)
    (l : LoggingProtocol P) (ctx : Context) : Option E × LoggingProtocol P :=
  let l1 := l.pop
  let r := p.ReadStructEnd ctx l1.next
  (r.1, { l1 with next := r.2 })

/-- Go's `ReadFieldBegin` (proto.go, lines 277-280): forward only. -/
def LoggingProtocol.ReadFieldBegin {P E T : Type} (p : TProtocol P E T)
    (l : LoggingProtocol P) (ctx : Context) :
    ((String × Int × Int) × Option E) × LoggingProtocol P :=
  let r := p.ReadFieldBegin ctx l.next
  (r.1, { l with next := r.2 })

/-- Go's `ReadFieldEnd` (proto.go, lines 282-284): forward only. -/
def LoggingProtocol.ReadFieldEnd {P E T : Type} (p : TProtocol P E T)
    (l : LoggingProtocol P) (ctx : Context) : Option E × LoggingProtocol P :=
  let r := p.ReadFieldEnd ctx l.next
  (r.1, { l with next := r.2 })

/-- Go's `ReadMapBegin` (proto.go, lines 286-290): forward, then render what was returned. -/
def LoggingProtocol.ReadMapBegin {P E T : Type} (p : TProtocol P E T) (fmt : Fmt)
    (l : LoggingProtocol P) (ctx : Context) :
    Option (((Int × Int × Int) × Option E) × LoggingProtocol P) :=
  let r := p.ReadMapBegin ctx l.next
  ({ l with next := r.2 }.push fmt { thriftType := .MAP }).map fun l1 => (r.1, l1)

/-- Go's `ReadMapEnd` (proto.go, lines 292-295): pop, then forward. -/
def LoggingProtocol.ReadMapEnd {P E T : Type} (p : TProtocol P E T)
    (l : LoggingProtocol P) (ctx : Context) : Option E × LoggingProtocol P :=
  let l1 := l.pop
  let r := p.ReadMapEnd ctx l1.next
  (r.1, { l1 with next := r.2 })

/-- Go's `ReadListBegin` (proto.go, lines 297-301): forward, then render what was returned. -/
def LoggingProtocol.ReadListBegin {P E T : Type} (p : TProtocol P E T) (fmt : Fmt)
    (l : LoggingProtocol P) (ctx : Context) :
    Option (((Int × Int) × Option E) × LoggingProtocol P) :=
  let r := p.ReadListBegin ctx l.next
  ({ l with next := r.2 }.push fmt { thriftType := .LIST }).map fun l1 => (r.1, l1)

/-- Go's `ReadListEnd` (proto.go, lines 303-306): pop, then forward. -/
def LoggingProtocol.ReadListEnd {P E T : Type} (p : TProtocol P E T)
    (l : LoggingProtocol P) (ctx : Context) : Option E × LoggingProtocol P :=
  let l1 := l.pop
  let r := p.ReadListEnd ctx l1.next
  (r.1, { l1 with next := r.2 })

/-- Go's `ReadSetBegin` (proto.go, lines 308-312): forward, then render what was returned. -/
def LoggingProtocol.ReadSetBegin {P E T : Type} (p : TProtocol P E T) (fmt : Fmt)
    (l : LoggingProtocol P) (ctx : Context) :
    Option (((Int × Int) × Option E) × LoggingProtocol P) :=
  let r := p.ReadSetBegin ctx l.next
  ({ l with next := r.2 }.push fmt { thriftType := .SET }).map fun l1 => (r.1, l1)

/-- Go's `ReadSetEnd` (proto.go, lines 314-317): pop, then forward. -/
def LoggingProtocol.ReadSetEnd {P E T : Type} (p : TProtocol P E T)
    (l : LoggingProtocol P) (ctx : Context) : Option E × LoggingProtocol P :=
  let l1 := l.pop
  let r := p.ReadSetEnd ctx l1.next
  (r.1, { l1 with next := r.2 })

/-- Go's `ReadBool` (proto.go, lines 319-323): forward, then render what was returned. -/
def LoggingProtocol.ReadBool {P E T : Type} (p : TProtocol P E T) (fmt : Fmt)
    (l : LoggingProtocol P) (ctx : Context) :
    Option (((Bool) × Option E) × LoggingProtocol P) :=
  let r := p.ReadBool ctx l.next
  ({ l with next := r.2 }.push fmt { thriftType := .BOOL, value := .bool r.1.1 }).map fun l1 => (r.1, l1)

/-- Go's `ReadByte` (proto.go, lines 325-329): forward, then render what was returned. -/
def LoggingProtocol.ReadByte {P E T : Type} (p : TProtocol P E T) (fmt : Fmt)
    (l : LoggingProtocol P) (ctx : Context) :
    Option (((Int) × Option E) × LoggingProtocol P) :=
  let r := p.ReadByte ctx l.next
  ({ l with next := r.2 }.push fmt { thriftType := .BYTE, value := .int8 r.1.1 }).map fun l1 => (r.1, l1)

/-- Go's `ReadI16` (proto.go, lines 331-335): forward, then render what was returned. -/
def LoggingProtocol.ReadI16 {P E T : Type} (p : TProtocol P E T) (fmt : Fmt)
    (l : LoggingProtocol P) (ctx : Context) :
    Option (((Int) × Option E) × LoggingProtocol P) :=
  let r := p.ReadI16 ctx l.next
  ({ l with next := r.2 }.push fmt { thriftType := .I16, value := .int16 r.1.1 }).map fun l1 => (r.1, l1)

/-- Go's `ReadI32` (proto.go, lines 337-341): forward, then render what was returned. -/
def LoggingProtocol.ReadI32 {P E T : Type} (p : TProtocol P E T) (fmt : Fmt)
    (l : LoggingProtocol P) (ctx : Context) :
    Option (((Int) × Option E) × LoggingProtocol P) :=
  let r := p.ReadI32 ctx l.next
  ({ l with next := r.2 }.push fmt { thriftType := .I32, value := .int32 r.1.1 }).map fun l1 => (r.1, l1)

/-- Go's `ReadI64` (proto.go, lines 343-347): forward, then render what was returned. -/
def LoggingProtocol.ReadI64 {P E T : Type} (p : TProtocol P E T) (fmt : Fmt)
    (l : LoggingProtocol P) (ctx : Context) :
    Option (((Int) × Option E) × LoggingProtocol P) :=
  let r := p.ReadI64 ctx l.next
  ({ l with next := r.2 }.push fmt { thriftType := .I64, value := .int64 r.1.1 }).map fun l1 => (r.1, l1)

/-- Go's `ReadDouble` (proto.go, lines 349-353): forward, then render what was returned. -/
def LoggingProtocol.ReadDouble {P E T : Type} (p : TProtocol P E T) (fmt : Fmt)
    (l : LoggingProtocol P) (ctx : Context) :
    Option (((Float64) × Option E) × LoggingProtocol P) :=
  let r := p.ReadDouble ctx l.next
  ({ l with next := r.2 }.push fmt { thriftType := .DOUBLE, value := .float64 r.1.1 }).map fun l1 => (r.1, l1)

/-- Go's `ReadString` (proto.go, lines 355-359): forward, then render what was returned. -/
def LoggingProtocol.ReadString {P E T : Type} (p : TProtocol P E T) (fmt : Fmt)
    (l : LoggingProtocol P) (ctx : Context) :
    Option (((String) × Option E) × LoggingProtocol P) :=
  let r := p.ReadString ctx l.next
  ({ l with next := r.2 }.push fmt { thriftType := .STRING, value := .string r.1.1 }).map fun l1 => (r.1, l1)

/-- Go's `ReadBinary` (proto.go, lines 361-365): forward, then render what was returned. -/
def LoggingProtocol.ReadBinary {P E T : Type} (p : TProtocol P E T) (fmt : Fmt)
    (l : LoggingProtocol P) (ctx : Context) :
    Option (((List Nat) × Option E) × LoggingProtocol P) :=
  let r := p.ReadBinary ctx l.next
  ({ l with next := r.2 }.push fmt { thriftType := .BINARY, value := .bytes r.1.1 }).map fun l1 => (r.1, l1)

/-- Go's `ReadUUID` (proto.go, lines 367-371): forward, then render what was returned. -/
def LoggingProtocol.ReadUUID {P E T : Type} (p : TProtocol P E T) (fmt : Fmt)
    (l : LoggingProtocol P) (ctx : Context) :
    Option (((Tuuid) × Option E) × LoggingProtocol P) :=
  let r := p.ReadUUID ctx l.next
  ({ l with next := r.2 }.push fmt { thriftType := .UUID, value := .tuuid r.1.1 }).map fun l1 => (r.1, l1)

/-- Go's `Skip` (proto.go, lines 373-375): forward only. -/
def LoggingProtocol.Skip {P E T : Type} (p : TProtocol P E T)
    (l : LoggingProtocol P) (ctx : Context) (fieldType : Int) : Option E × LoggingProtocol P :=
  let r := p.Skip ctx fieldType l.next
  (r.1, { l with next := r.2 })

/-- Go's `Flush` (proto.go, lines 377-380): empty the stack, then forward. -/
def LoggingProtocol.Flush {P E T : Type} (p : TProtocol P E T)
    (l : LoggingProtocol P) (ctx : Context) : Option E × LoggingProtocol P :=
  let l1 := { l with stack := [] }
  let r := p.Flush ctx l1.next
  (r.1, { l1 with next := r.2 })

/-- Go's `Transport` (proto.go, lines 382-384). -/
def LoggingProtocol.Transport {P E T : Type} (p : TProtocol P E T) (l : LoggingProtocol P) : T :=
  p.Transport l.next

/-- Go's `String` (proto.go, lines 126-130): the buffer's text, and the tracer after `w.Reset()`.
Declared after the other methods, which name the type `String` in their signatures. -/
def LoggingProtocol.String {P : Type} (l : LoggingProtocol P) : String × LoggingProtocol P :=
  (l.w, { l with w := "" })

/-- One call on the protocol surface of the tracer, with its arguments (the context apart). -/
inductive Op where
  | WriteMessageBegin (name : String) (typeId : Int) (seqid : Int)
  | WriteMessageEnd
  | WriteStructBegin (name : String)
  | WriteStructEnd
  | WriteFieldBegin (name : String) (typeId : Int) (id : Int)
  | WriteFieldEnd
  | WriteFieldStop
  | WriteMapBegin (keyType : Int) (valueType : Int) (size : Int)
  | WriteMapEnd
  | WriteListBegin (elemType : Int) (size : Int)
  | WriteListEnd
  | WriteSetBegin (elemType : Int) (size : Int)
  | WriteSetEnd
  | WriteBool (value : Bool)
  | WriteByte (value : Int)
  | WriteI16 (value : Int)
  | WriteI32 (value : Int)
  | WriteI64 (value : Int)
  | WriteDouble (value : Float64)
  | WriteString (value : String)
  | WriteBinary (value : List Nat)
  | WriteUUID (value : Tuuid)
  | ReadMessageBegin
  | ReadMessageEnd
  | ReadStructBegin
  | ReadStructEnd
  | ReadFieldBegin
  | ReadFieldEnd
  | ReadMapBegin
  | ReadMapEnd
  | ReadListBegin
  | ReadListEnd
  | ReadSetBegin
  | ReadSetEnd
  | ReadBool
  | ReadByte
  | ReadI16
  | ReadI32
  | ReadI64
  | ReadDouble
  | ReadString
  | ReadBinary
  | ReadUUID
  | Skip (fieldType : Int)
  | Flush

/-- The tracer after one call of its protocol surface, the call's results dropped; `none` when
the call panics. -/
def LoggingProtocol.step {P E T : Type} (p : TProtocol P E T) (fmt : Fmt) (ctx : Context)
    (l : LoggingProtocol P) : Op → Option (LoggingProtocol P)
  | .WriteMessageBegin name typeId seqid => (l.WriteMessageBegin p fmt ctx name typeId seqid).map Prod.snd
  | .WriteMessageEnd => some (l.WriteMessageEnd p ctx).2
  | .WriteStructBegin name => (l.WriteStructBegin p fmt ctx name).map Prod.snd
  | .WriteStructEnd => some (l.WriteStructEnd p ctx).2
  | .WriteFieldBegin name typeId id => (l.WriteFieldBegin p fmt ctx name typeId id).map Prod.snd
  | .WriteFieldEnd => some (l.WriteFieldEnd p ctx).2
  | .WriteFieldStop => some (l.WriteFieldStop p ctx).2
  | .WriteMapBegin keyType valueType size => (l.WriteMapBegin p fmt ctx keyType valueType size).map Prod.snd
  | .WriteMapEnd => some (l.WriteMapEnd p ctx).2
  | .WriteListBegin elemType size => (l.WriteListBegin p fmt ctx elemType size).map Prod.snd
  | .WriteListEnd => some (l.WriteListEnd p ctx).2
  | .WriteSetBegin elemType size => (l.WriteSetBegin p fmt ctx elemType size).map Prod.snd
  | .WriteSetEnd => some (l.WriteSetEnd p ctx).2
  | .WriteBool value => (l.WriteBool p fmt ctx value).map Prod.snd
  | .WriteByte value => (l.WriteByte p fmt ctx value).map Prod.snd
  | .WriteI16 value => (l.WriteI16 p fmt ctx value).map Prod.snd
  | .WriteI32 value => (l.WriteI32 p fmt ctx value).map Prod.snd
  | .WriteI64 value => (l.WriteI64 p fmt ctx value).map Prod.snd
  | .WriteDouble value => (l.WriteDouble p fmt ctx value).map Prod.snd
  | .WriteString value => (l.WriteString p fmt ctx value).map Prod.snd
  | .WriteBinary value => (l.WriteBinary p fmt ctx value).map Prod.snd
  | .WriteUUID value => (l.WriteUUID p fmt ctx value).map Prod.snd
  | .ReadMessageBegin => (l.ReadMessageBegin p fmt ctx).map Prod.snd
  | .ReadMessageEnd => some (l.ReadMessageEnd p ctx).2
  | .ReadStructBegin => (l.ReadStructBegin p fmt ctx).map Prod.snd
  | .ReadStructEnd => some (l.ReadStructEnd p ctx).2
  | .ReadFieldBegin => some (l.ReadFieldBegin p ctx).2
  | .ReadFieldEnd => some (l.ReadFieldEnd p ctx).2
  | .ReadMapBegin => (l.ReadMapBegin p fmt ctx).map Prod.snd
  | .ReadMapEnd => some (l.ReadMapEnd p ctx).2
  | .ReadListBegin => (l.ReadListBegin p fmt ctx).map Prod.snd
  | .ReadListEnd => some (l.ReadListEnd p ctx).2
  | .ReadSetBegin => (l.ReadSetBegin p fmt ctx).map Prod.snd
  | .ReadSetEnd => some (l.ReadSetEnd p ctx).2
  | .ReadBool => (l.ReadBool p fmt ctx).map Prod.snd
  | .ReadByte => (l.ReadByte p fmt ctx).map Prod.snd
  | .ReadI16 => (l.ReadI16 p fmt ctx).map Prod.snd
  | .ReadI32 => (l.ReadI32 p fmt ctx).map Prod.snd
  | .ReadI64 => (l.ReadI64 p fmt ctx).map Prod.snd
  | .ReadDouble => (l.ReadDouble p fmt ctx).map Prod.snd
  | .ReadString => (l.ReadString p fmt ctx).map Prod.snd
  | .ReadBinary => (l.ReadBinary p fmt ctx).map Prod.snd
  | .ReadUUID => (l.ReadUUID p fmt ctx).map Prod.snd
  | .Skip fieldType => some (l.Skip p ctx fieldType).2
  | .Flush => some (l.Flush p ctx).2

/-- The tracer after a sequence of calls, each with its context, `none` as soon as one of them
panics. -/
def LoggingProtocol.run {P E T : Type} (p : TProtocol P E T) (fmt : Fmt) :
    List (Context × Op) → LoggingProtocol P → Option (LoggingProtocol P)
  | [], l => some l
  | (ctx, op) :: ops, l =>
    match l.step p fmt ctx op with
    | none => none
    | some l1 => LoggingProtocol.run p fmt ops l1

/-- A stand-in for the library formatting, for evaluating the tracer on examples. -/
def testFmt : Fmt :=
  { float2f := fun _ => "0.00", uuidString := fun _ => "00000000-0000-0000-0000-000000000000" }

/-- A wrapped protocol for evaluating the tracer on examples: it has no state, every read
returns `name` where a name is due and zero values elsewhere, and every call returns `err`. -/
def testProtocol (name : String) (err : Option String) : TProtocol Unit String Unit :=
  { WriteMessageBegin := fun _ _ _ _ s => (err, s)
    WriteMessageEnd := fun _ s => (err, s)
    WriteStructBegin := fun _ _ s => (err, s)
    WriteStructEnd := fun _ s => (err, s)
    WriteFieldBegin := fun _ _ _ _ s => (err, s)
    WriteFieldEnd := fun _ s => (err, s)
    WriteFieldStop := fun _ s => (err, s)
    WriteMapBegin := fun _ _ _ _ s => (err, s)
    WriteMapEnd := fun _ s => (err, s)
    WriteListBegin := fun _ _ _ s => (err, s)
    WriteListEnd := fun _ s => (err, s)
    WriteSetBegin := fun _ _ _ s => (err, s)
    WriteSetEnd := fun _ s => (err, s)
    WriteBool := fun _ _ s => (err, s)
    WriteByte := fun _ _ s => (err, s)
    WriteI16 := fun _ _ s => (err, s)
    WriteI32 := fun _ _ s => (err, s)
    WriteI64 := fun _ _ s => (err, s)
    WriteDouble := fun _ _ s => (err, s)
    WriteString := fun _ _ s => (err, s)
    WriteBinary := fun _ _ s => (err, s)
    WriteUUID := fun _ _ s => (err, s)
    ReadMessageBegin := fun _ s => (((name, 0, 0), err), s)
    ReadMessageEnd := fun _ s => (err, s)
    ReadStructBegin := fun _ s => ((name, err), s)
    ReadStructEnd := fun _ s => (err, s)
    ReadFieldBegin := fun _ s => (((name, 0, 0), err), s)
    ReadFieldEnd := fun _ s => (err, s)
    ReadMapBegin := fun _ s => (((0, 0, 0), err), s)
    ReadMapEnd := fun _ s => (err, s)
    ReadListBegin := fun _ s => (((0, 0), err), s)
    ReadListEnd := fun _ s => (err, s)
    ReadSetBegin := fun _ s => (((0, 0), err), s)
    ReadSetEnd := fun _ s => (err, s)
    ReadBool := fun _ s => ((false, err), s)
    ReadByte := fun _ s => ((0, err), s)
    ReadI16 := fun _ s => ((0, err), s)
    ReadI32 := fun _ s => ((0, err), s)
    ReadI64 := fun _ s => ((0, err), s)
    ReadDouble := fun _ s => ((Float64.mk 0, err), s)
    ReadString := fun _ s => ((name, err), s)
    ReadBinary := fun _ s => (([], err), s)
    ReadUUID := fun _ s => ((Tuuid.mk (List.replicate 16 0), err), s)
    Skip := fun _ _ s => (err, s)
    Flush := fun _ s => (err, s)
    Transport := fun _ => () }

/-! ## logging.go, middleware.go -/

/-- The struct `Call` (logging.go, lines 10-16); `Err` is `none` for a nil `TException`. -/
structure Call (E : Type) where
  Name : String
  Input : String
  Output : String
  Duration : Int
  Err : Option E
  deriving DecidableEq, Repr

/-- The struct `loggingMiddleware` (middleware.go, lines 10-14). `W` is the state of the world
the handler and the emitter act on. `next` is the wrapped `TProcessorFunction`: it is handed
the two tracers and returns its results with the tracers as it left them, or `none` when it
panics. -/
structure loggingMiddleware (Pi Po E W : Type) where
  emit : Call E → W → W
  name : String
  next : Context → Int → LoggingProtocol Pi → LoggingProtocol Po → W →
    Option ((Bool × Option E) × LoggingProtocol Pi × LoggingProtocol Po × W)

/-- Go's `Process` (middleware.go, lines 16-33). `clock` reads `time.Now()` off the world. The
struct literal of line 24 names `Name`, `Input`, `Output` and `Duration`; `Err` keeps its zero
value. -/
def loggingMiddleware.Process {Pi Po E W : Type} (l : loggingMiddleware Pi Po E W)
    (clock : W → Int) (ctx : Context) (seqId : Int) (inp : Pi) (out : Po) (w : W) :
    Option ((Bool × Option E) × W) :=
  let inLogger := NewLoggingProtocol inp
  let outLogger := NewLoggingProtocol out
  let before := clock w
  match l.next ctx seqId inLogger outLogger w with
  | none => none
  | some ((outBool, outErr), inLogger1, outLogger1, w1) =>
    let took := clock w1 - before
    let call : Call E :=
      { Name := l.name
        Input := inLogger1.String.1
        Output := outLogger1.String.1
        Duration := took
        Err := none }
    some ((outBool, outErr), l.emit call w1)

/-! ## retry.go -/

/-- Go `error` values seen by the retrying client: the package variable `ErrRetriesExhausted`
(retry.go, line 18), or any other error, identified by a value of `X`. -/
inductive Error (X : Type) where
  | ErrRetriesExhausted
  | other (x : X)
  deriving DecidableEq, Repr

/-- A `thrift.TClient` value: its `Call` method, acting on a world of type `σ`. `A` stands for
the arguments `(ctx, method, args, result)`, `M` for `thrift.ResponseMeta`. -/
structure TClient (σ X M A : Type) where
  Call : A → σ → (M × Option (Error X)) × σ

/-- The interface `BackoffHandler` (retry.go, lines 23-25). -/
structure BackoffHandler (σ : Type) where
  BackOff : Int → σ → Bool × σ

/-- What `time.Sleep` and `fmt.Printf` leave behind: the text printed and the durations slept
(nanoseconds), oldest first. -/
structure Effects where
  stdout : String
  slept : List Int
  deriving DecidableEq, Repr

/-- The two `float64` operations of `BackOff`, which live outside the repository:
`powInt x k` is `math.Pow(x, float64(k))`, `toInt64 x` is the conversion `time.Duration(x)`. -/
structure FloatOps (F : Type) where
  powInt : F → Int → F
  toInt64 : F → Int

/-- The struct `ExponentialBackoff` (retry.go, lines 38-42); durations are nanoseconds. -/
structure ExponentialBackoff (F : Type) where
  startDuration : Int
  maxAttempts : Int
  base : F

/-- Go's `NewExponentialBackoff` (retry.go, lines 44-50). -/
def NewExponentialBackoff {F : Type} (startDuration : Int) (maxAttempts : Int) (base : F) :
    ExponentialBackoff F :=
  { startDuration := startDuration, maxAttempts := maxAttempts, base := base }

/-- Go's `DefaultExponentialBackoff` (retry.go, lines 52-54): 50ms, 16 attempts, base `two` (2.0). -/
def DefaultExponentialBackoff {F : Type} (two : F) : ExponentialBackoff F :=
  NewExponentialBackoff (1000000 * 50) 16 two

/-- An `int64` after overflow: the representative of `x` modulo `2^64` in `[-2^63, 2^63)`. -/
def wrapInt64 (x : Int) : Int := (x + 2 ^ 63) % 2 ^ 64 - 2 ^ 63

/-- The duration `d` of `BackOff` (retry.go, line 61) for the incremented attempt: the power is
converted to a `time.Duration` first, the product is an `int64` product. -/
def ExponentialBackoff.delay {F : Type} (ops : FloatOps F) (e : ExponentialBackoff F)
    (attempt : Int) : Int :=
  wrapInt64 (e.startDuration * ops.toInt64 (ops.powInt e.base attempt))

/-- Go's `BackOff` (retry.go, lines 56-65). `d.Milliseconds()` is the quotient by `10^6`, rounded
towards zero. -/
def ExponentialBackoff.BackOff {F : Type} (ops : FloatOps F) (e : ExponentialBackoff F)
    (attempt : Int) (w : Effects) : Bool × Effects :=
  if attempt > e.maxAttempts then (false, w)
  else
    let attempt := attempt + 1
    let d := e.delay ops attempt
    let w1 := { w with stdout := w.stdout ++ ("attempt = " ++ fmtD attempt ++ ", sleeping " ++
      fmtD (Int.tdiv d 1000000) ++ "ms\n") }
    (true, { w1 with slept := w1.slept ++ [d] })

/-- An `*ExponentialBackoff` as a `BackoffHandler`, acting on the `Effects` part of the world. -/
def ExponentialBackoff.handler {F σ : Type} (ops : FloatOps F) (e : ExponentialBackoff F) :
    BackoffHandler (σ × Effects) :=
  { BackOff := fun attempt w => ((e.BackOff ops attempt w.2).1, (w.1, (e.BackOff ops attempt w.2).2)) }

/-- The struct `RertryingClient` (retry.go, lines 67-73), without its lock: the model runs one
call at a time. -/
structure RertryingClient (σ X M A : Type) where
  retryFn : σ → (TClient σ X M A × Option (Error X)) × σ
  shouldRetryFn : Error X → σ → Bool × σ
  backoffHandler : BackoffHandler σ
  wrappedClient : TClient σ X M A

/-- The calls a `RertryingClient` makes to its collaborators, with what they returned. -/
inductive Event (X M : Type) where
  | invoke (mt : M) (err : Option (Error X))
  | shouldRetry (err : Error X) (result : Bool)
  | backOff (attempt : Int) (result : Bool)
  | factory (err : Option (Error X))
  deriving DecidableEq, Repr

/-- What `handle` returns and leaves behind: its two results, the client (whose `wrappedClient`
it may have replaced), the world, and the collaborator calls it made, in order. -/
structure HandleResult (σ X M A : Type) where
  shouldRetry : Bool
  err : Option (Error X)
  client : RertryingClient σ X M A
  world : σ
  trace : List (Event X M)

/-- Go's `handle` (retry.go, lines 75-89). -/
def RertryingClient.handle {σ X M A : Type} (c : RertryingClient σ X M A) (attempts : Int)
    (s : σ) : HandleResult σ X M A :=
  let b := c.backoffHandler.BackOff attempts s
  if !b.1 then
    { shouldRetry := false, err := some Error.ErrRetriesExhausted, client := c, world := b.2
      trace := [Event.backOff attempts false] }
  else
    let f := c.retryFn b.2
    match f.1.2 with
    | none =>
      { shouldRetry := true, err := none, client := { c with wrappedClient := f.1.1 }
        world := f.2, trace := [Event.backOff attempts true, Event.factory none] }
    | some err =>
      let q := c.shouldRetryFn err f.2
      { shouldRetry := q.1, err := some err, client := c, world := q.2
        trace := [Event.backOff attempts true, Event.factory (some err),
          Event.shouldRetry err q.1] }

/-- What `Call` returns and leaves behind: the response metadata and error it returns, the
client, the world, and the collaborator calls made, in order. -/
structure CallResult (σ X M A : Type) where
  mt : M
  err : Option (Error X)
  client : RertryingClient σ X M A
  world : σ
  trace : List (Event X M)

/-- The loop of `Call` (retry.go, lines 99-115), entered with `shouldRetry` true, and the
`return` of line 116. `attempts` is the counter before the iteration, `tr` the collaborator
calls made so far. Each iteration uses one unit of `fuel`; `none` when the fuel runs out. -/
def RertryingClient.loop {σ X M A : Type} (args : A) :
    Nat → RertryingClient σ X M A → Int → σ → List (Event X M) → Option (CallResult σ X M A)
  | 0, _, _, _, _ => none
  | fuel + 1, c, attempts, s, tr =>
    let r := c.wrappedClient.Call args s
    match r.1.2 with
    | some err =>
      let q := c.shouldRetryFn err r.2
      let tr1 := tr ++ [Event.invoke r.1.1 (some err), Event.shouldRetry err q.1]
      if q.1 then
        let attempts1 := attempts + 1
        let h := c.handle attempts1 q.2
        if h.shouldRetry then
          RertryingClient.loop args fuel h.client attempts1 h.world (tr1 ++ h.trace)
        else
          some { mt := r.1.1, err := h.err, client := h.client, world := h.world
                 trace := tr1 ++ h.trace }
      else
        some { mt := r.1.1, err := some err, client := c, world := q.2, trace := tr1 }
    | none =>
      some { mt := r.1.1, err := none, client := c, world := r.2
             trace := tr ++ [Event.invoke r.1.1 none] }

/-- Go's `Call` (retry.go, lines 92-117): `attempts` starts at zero, `shouldRetry` at true. -/
def RertryingClient.Call {σ X M A : Type} (c : RertryingClient σ X M A) (fuel : Nat) (args : A)
    (s : σ) : Option (CallResult σ X M A) :=
  RertryingClient.loop args fuel c 0 s []

/-- Go's `NewRertryingClient` (retry.go, lines 119-130): the factory is called once; its error, if
any, is returned without a client. -/
def NewRertryingClient {σ X M A : Type} (fn : σ → (TClient σ X M A × Option (Error X)) × σ)
    (shoudRetryFn : Error X → σ → Bool × σ) (backoffHandler : BackoffHandler σ) (s : σ) :
    (Option (RertryingClient σ X M A) × Option (Error X)) × σ :=
  let f := fn s
  match f.1.2 with
  | some err => ((none, some err), f.2)
  | none =>
    ((some { wrappedClient := f.1.1, retryFn := fn, backoffHandler := backoffHandler
             shouldRetryFn := shoudRetryFn }, none), f.2)

/-! ## Reading a trace of collaborator calls -/

/-- The consultations of the backoff handler in a trace: attempt and answer, in order. -/
def consultations {X M : Type} (tr : List (Event X M)) : List (Int × Bool) :=
  tr.filterMap fun ev =>
    match ev with
    | Event.backOff attempt result => some (attempt, result)
    | _ => none

/-- The number of consultations the backoff handler granted (each one a wait, for an
`ExponentialBackoff`). -/
def waits {X M : Type} (tr : List (Event X M)) : Nat :=
  (consultations tr).countP fun cb => cb.2

/-- The number of invocations of the underlying invoker in a trace. -/
def invocations {X M : Type} (tr : List (Event X M)) : Nat :=
  tr.countP fun ev =>
    match ev with
    | Event.invoke _ _ => true
    | _ => false

/-- The number of invocations of the factory in a trace. -/
def factoryCalls {X M : Type} (tr : List (Event X M)) : Nat :=
  tr.countP fun ev =>
    match ev with
    | Event.factory _ => true
    | _ => false

/-- The three ways `Call` can return, for a predicate that is the function `p` of the error:
success with the metadata of the last invocation; `ErrRetriesExhausted`; or an error on which
`p` is false, returned by the last invocation or by the factory. -/
def Outcome {σ X M A : Type} (p : Error X → Bool) (r : CallResult σ X M A) : Prop :=
  (r.err = none ∧ r.trace.getLast? = some (Event.invoke r.mt none)) ∨
  r.err = some Error.ErrRetriesExhausted ∨
  ∃ e, r.err = some e ∧ p e = false ∧
    (Event.invoke r.mt (some e) ∈ r.trace ∨ Event.factory (some e) ∈ r.trace)

/-! ## Examples used to evaluate the definitions -/

/-- A middleware for evaluating `Process`: the handler reads a string through the inbound
tracer, writes a bool through the outbound one and fails with the error `"boom"`; the emitter
appends the record it is given to the world, which is the list of emitted records. -/
def failingMiddleware : loggingMiddleware Unit Unit String (List (Call String)) :=
  { emit := fun c w => w ++ [c]
    name := "ping"
    next := fun ctx _ i o w =>
      match i.ReadString (testProtocol "x" none) testFmt ctx,
        o.WriteBool (testProtocol "x" none) testFmt ctx true with
      | some r1, some r2 => some ((false, some "boom"), r1.2, r2.2, w)
      | _, _ => none }

/-- A fraction `num / den`, for evaluating `BackOff` with exact arithmetic. -/
structure Frac where
  num : Int
  den : Nat
  deriving DecidableEq, Repr

/-- The operations of `FloatOps` in exact arithmetic on fractions: the power is exact, the
conversion to `int64` drops the fractional part (rounds towards zero). They agree with the
`float64` operations wherever those are exact, as on `1.5 ^ 2 = 2.25` and on `2.0 ^ 2 = 4.0`. -/
def exactOps : FloatOps Frac :=
  { powInt := fun x k =>
      match k with
      | Int.ofNat n => Frac.mk (x.num ^ n) (x.den ^ n)
      | Int.negSucc n => Frac.mk (Int.sign x.num ^ (n + 1) * (x.den : Int) ^ (n + 1))
          (x.num.natAbs ^ (n + 1))
    toInt64 := fun x => Int.tdiv x.num x.den }

/-- An invoker for evaluating `Call`: it answers metadata `mt` and the error `err`. -/
def constInvoker {σ : Type} (mt : Nat) (err : Option (Error String)) : TClient σ String Nat Unit :=
  { Call := fun _ s => ((mt, err), s) }

/-- A client for evaluating `Call`: every invoker fails with the error `reset`, the predicate
always retries, the factory always succeeds, and the handler is an `ExponentialBackoff` with
`maxAttempts = n` (start 50ms, base 2). -/
def alwaysFailingClient (n : Int) : RertryingClient (Unit × Effects) String Nat Unit :=
  { retryFn := fun s => ((constInvoker 1 (some (Error.other "reset")), none), s)
    shouldRetryFn := fun _ s => (true, s)
    backoffHandler := (NewExponentialBackoff (1000000 * 50) n (Frac.mk 2 1)).handler exactOps
    wrappedClient := constInvoker 0 (some (Error.other "reset")) }

/-- A client for evaluating `Call`: the invoker fails with `denied`, on which the predicate
(retry on `reset` only) answers false. -/
def deniedClient : RertryingClient (Unit × Effects) String Nat Unit :=
  { retryFn := fun s => ((constInvoker 1 none, none), s)
    shouldRetryFn := fun e s => (decide (e = Error.other "reset"), s)
    backoffHandler := (DefaultExponentialBackoff (Frac.mk 2 1)).handler exactOps
    wrappedClient := constInvoker 7 (some (Error.other "denied")) }

/-- A client for evaluating `Call`: the world counts the failures the factory has left; the
current invoker always fails with `reset`, the factory fails with `dial` while failures are
left and then returns an invoker that succeeds with metadata 9; the predicate always retries
and the handler grants the attempts up to `maxAttempts`. -/
def flakyFactoryClient (maxAttempts : Int) : RertryingClient Nat String Nat Unit :=
  { retryFn := fun s =>
      match s with
      | 0 => ((constInvoker 9 none, none), 0)
      | j + 1 => ((constInvoker 1 (some (Error.other "reset")), some (Error.other "dial")), j)
    shouldRetryFn := fun _ s => (true, s)
    backoffHandler := { BackOff := fun attempt s => (decide (attempt ≤ maxAttempts), s) }
    wrappedClient := constInvoker 0 (some (Error.other "reset")) }

/-! ## The protocol surface as one function of the call -/

/-- One call on the bare wrapped protocol: the values it returns (boxed, in the order of the Go
results, integers other than scalar reads as `int64`), its error, and the protocol's next
state. -/
def TProtocol.call {P E T : Type} (p : TProtocol P E T) (ctx : Context) :
    Op → P → (List Value × Option E) × P
  | .WriteMessageBegin name typeId seqid, s => (([], (p.WriteMessageBegin ctx name typeId seqid s).1), (p.WriteMessageBegin ctx name typeId seqid s).2)
  | .WriteMessageEnd, s => (([], (p.WriteMessageEnd ctx s).1), (p.WriteMessageEnd ctx s).2)
  | .WriteStructBegin name, s => (([], (p.WriteStructBegin ctx name s).1), (p.WriteStructBegin ctx name s).2)
  | .WriteStructEnd, s => (([], (p.WriteStructEnd ctx s).1), (p.WriteStructEnd ctx s).2)
  | .WriteFieldBegin name typeId id, s => (([], (p.WriteFieldBegin ctx name typeId id s).1), (p.WriteFieldBegin ctx name typeId id s).2)
  | .WriteFieldEnd, s => (([], (p.WriteFieldEnd ctx s).1), (p.WriteFieldEnd ctx s).2)
  | .WriteFieldStop, s => (([], (p.WriteFieldStop ctx s).1), (p.WriteFieldStop ctx s).2)
  | .WriteMapBegin keyType valueType size, s => (([], (p.WriteMapBegin ctx keyType valueType size s).1), (p.WriteMapBegin ctx keyType valueType size s).2)
  | .WriteMapEnd, s => (([], (p.WriteMapEnd ctx s).1), (p.WriteMapEnd ctx s).2)
  | .WriteListBegin elemType size, s => (([], (p.WriteListBegin ctx elemType size s).1), (p.WriteListBegin ctx elemType size s).2)
  | .WriteListEnd, s => (([], (p.WriteListEnd ctx s).1), (p.WriteListEnd ctx s).2)
  | .WriteSetBegin elemType size, s => (([], (p.WriteSetBegin ctx elemType size s).1), (p.WriteSetBegin ctx elemType size s).2)
  | .WriteSetEnd, s => (([], (p.WriteSetEnd ctx s).1), (p.WriteSetEnd ctx s).2)
  | .WriteBool value, s => (([], (p.WriteBool ctx value s).1), (p.WriteBool ctx value s).2)
  | .WriteByte value, s => (([], (p.WriteByte ctx value s).1), (p.WriteByte ctx value s).2)
  | .WriteI16 value, s => (([], (p.WriteI16 ctx value s).1), (p.WriteI16 ctx value s).2)
  | .WriteI32 value, s => (([], (p.WriteI32 ctx value s).1), (p.WriteI32 ctx value s).2)
  | .WriteI64 value, s => (([], (p.WriteI64 ctx value s).1), (p.WriteI64 ctx value s).2)
  | .WriteDouble value, s => (([], (p.WriteDouble ctx value s).1), (p.WriteDouble ctx value s).2)
  | .WriteString value, s => (([], (p.WriteString ctx value s).1), (p.WriteString ctx value s).2)
  | .WriteBinary value, s => (([], (p.WriteBinary ctx value s).1), (p.WriteBinary ctx value s).2)
  | .WriteUUID value, s => (([], (p.WriteUUID ctx value s).1), (p.WriteUUID ctx value s).2)
  | .ReadMessageBegin, s =>
    let r := p.ReadMessageBegin ctx s
    (([Value.string r.1.1.1, Value.int64 r.1.1.2.1, Value.int64 r.1.1.2.2], r.1.2), r.2)
  | .ReadMessageEnd, s => (([], (p.ReadMessageEnd ctx s).1), (p.ReadMessageEnd ctx s).2)
  | .ReadStructBegin, s =>
    let r := p.ReadStructBegin ctx s
    (([Value.string r.1.1], r.1.2), r.2)
  | .ReadStructEnd, s => (([], (p.ReadStructEnd ctx s).1), (p.ReadStructEnd ctx s).2)
  | .ReadFieldBegin, s =>
    let r := p.ReadFieldBegin ctx s
    (([Value.string r.1.1.1, Value.int64 r.1.1.2.1, Value.int64 r.1.1.2.2], r.1.2), r.2)
  | .ReadFieldEnd, s => (([], (p.ReadFieldEnd ctx s).1), (p.ReadFieldEnd ctx s).2)
  | .ReadMapBegin, s =>
    let r := p.ReadMapBegin ctx s
    (([Value.int64 r.1.1.1, Value.int64 r.1.1.2.1, Value.int64 r.1.1.2.2], r.1.2), r.2)
  | .ReadMapEnd, s => (([], (p.ReadMapEnd ctx s).1), (p.ReadMapEnd ctx s).2)
  | .ReadListBegin, s =>
    let r := p.ReadListBegin ctx s
    (([Value.int64 r.1.1.1, Value.int64 r.1.1.2], r.1.2), r.2)
  | .ReadListEnd, s => (([], (p.ReadListEnd ctx s).1), (p.ReadListEnd ctx s).2)
  | .ReadSetBegin, s =>
    let r := p.ReadSetBegin ctx s
    (([Value.int64 r.1.1.1, Value.int64 r.1.1.2], r.1.2), r.2)
  | .ReadSetEnd, s => (([], (p.ReadSetEnd ctx s).1), (p.ReadSetEnd ctx s).2)
  | .ReadBool, s =>
    let r := p.ReadBool ctx s
    (([Value.bool r.1.1], r.1.2), r.2)
  | .ReadByte, s =>
    let r := p.ReadByte ctx s
    (([Value.int8 r.1.1], r.1.2), r.2)
  | .ReadI16, s =>
    let r := p.ReadI16 ctx s
    (([Value.int16 r.1.1], r.1.2), r.2)
  | .ReadI32, s =>
    let r := p.ReadI32 ctx s
    (([Value.int32 r.1.1], r.1.2), r.2)
  | .ReadI64, s =>
    let r := p.ReadI64 ctx s
    (([Value.int64 r.1.1], r.1.2), r.2)
  | .ReadDouble, s =>
    let r := p.ReadDouble ctx s
    (([Value.float64 r.1.1], r.1.2), r.2)
  | .ReadString, s =>
    let r := p.ReadString ctx s
    (([Value.string r.1.1], r.1.2), r.2)
  | .ReadBinary, s =>
    let r := p.ReadBinary ctx s
    (([Value.bytes r.1.1], r.1.2), r.2)
  | .ReadUUID, s =>
    let r := p.ReadUUID ctx s
    (([Value.tuuid r.1.1], r.1.2), r.2)
  | .Skip fieldType, s => (([], (p.Skip ctx fieldType s).1), (p.Skip ctx fieldType s).2)
  | .Flush, s => (([], (p.Flush ctx s).1), (p.Flush ctx s).2)

/-- The same call made through the tracer: what the tracer returns to its caller, boxed as in
`TProtocol.call`, and the tracer afterwards; `none` when the call panics. -/
def LoggingProtocol.call {P E T : Type} (p : TProtocol P E T) (fmt : Fmt) (ctx : Context)
    (l : LoggingProtocol P) : Op → Option ((List Value × Option E) × LoggingProtocol P)
  | .WriteMessageBegin name typeId seqid => (l.WriteMessageBegin p fmt ctx name typeId seqid).map fun r => (([], r.1), r.2)
  | .WriteMessageEnd => some (([], (l.WriteMessageEnd p ctx).1), (l.WriteMessageEnd p ctx).2)
  | .WriteStructBegin name => (l.WriteStructBegin p fmt ctx name).map fun r => (([], r.1), r.2)
  | .WriteStructEnd => some (([], (l.WriteStructEnd p ctx).1), (l.WriteStructEnd p ctx).2)
  | .WriteFieldBegin name typeId id => (l.WriteFieldBegin p fmt ctx name typeId id).map fun r => (([], r.1), r.2)
  | .WriteFieldEnd => some (([], (l.WriteFieldEnd p ctx).1), (l.WriteFieldEnd p ctx).2)
  | .WriteFieldStop => some (([], (l.WriteFieldStop p ctx).1), (l.WriteFieldStop p ctx).2)
  | .WriteMapBegin keyType valueType size => (l.WriteMapBegin p fmt ctx keyType valueType size).map fun r => (([], r.1), r.2)
  | .WriteMapEnd => some (([], (l.WriteMapEnd p ctx).1), (l.WriteMapEnd p ctx).2)
  | .WriteListBegin elemType size => (l.WriteListBegin p fmt ctx elemType size).map fun r => (([], r.1), r.2)
  | .WriteListEnd => some (([], (l.WriteListEnd p ctx).1), (l.WriteListEnd p ctx).2)
  | .WriteSetBegin elemType size => (l.WriteSetBegin p fmt ctx elemType size).map fun r => (([], r.1), r.2)
  | .WriteSetEnd => some (([], (l.WriteSetEnd p ctx).1), (l.WriteSetEnd p ctx).2)
  | .WriteBool value => (l.WriteBool p fmt ctx value).map fun r => (([], r.1), r.2)
  | .WriteByte value => (l.WriteByte p fmt ctx value).map fun r => (([], r.1), r.2)
  | .WriteI16 value => (l.WriteI16 p fmt ctx value).map fun r => (([], r.1), r.2)
  | .WriteI32 value => (l.WriteI32 p fmt ctx value).map fun r => (([], r.1), r.2)
  | .WriteI64 value => (l.WriteI64 p fmt ctx value).map fun r => (([], r.1), r.2)
  | .WriteDouble value => (l.WriteDouble p fmt ctx value).map fun r => (([], r.1), r.2)
  | .WriteString value => (l.WriteString p fmt ctx value).map fun r => (([], r.1), r.2)
  | .WriteBinary value => (l.WriteBinary p fmt ctx value).map fun r => (([], r.1), r.2)
  | .WriteUUID value => (l.WriteUUID p fmt ctx value).map fun r => (([], r.1), r.2)
  | .ReadMessageBegin => (l.ReadMessageBegin p fmt ctx).map fun r => (([Value.string r.1.1.1, Value.int64 r.1.1.2.1, Value.int64 r.1.1.2.2], r.1.2), r.2)
  | .ReadMessageEnd => some (([], (l.ReadMessageEnd p ctx).1), (l.ReadMessageEnd p ctx).2)
  | .ReadStructBegin => (l.ReadStructBegin p fmt ctx).map fun r => (([Value.string r.1.1], r.1.2), r.2)
  | .ReadStructEnd => some (([], (l.ReadStructEnd p ctx).1), (l.ReadStructEnd p ctx).2)
  | .ReadFieldBegin =>
    let r := l.ReadFieldBegin p ctx
    some (([Value.string r.1.1.1, Value.int64 r.1.1.2.1, Value.int64 r.1.1.2.2], r.1.2), r.2)
  | .ReadFieldEnd => some (([], (l.ReadFieldEnd p ctx).1), (l.ReadFieldEnd p ctx).2)
  | .ReadMapBegin => (l.ReadMapBegin p fmt ctx).map fun r => (([Value.int64 r.1.1.1, Value.int64 r.1.1.2.1, Value.int64 r.1.1.2.2], r.1.2), r.2)
  | .ReadMapEnd => some (([], (l.ReadMapEnd p ctx).1), (l.ReadMapEnd p ctx).2)
  | .ReadListBegin => (l.ReadListBegin p fmt ctx).map fun r => (([Value.int64 r.1.1.1, Value.int64 r.1.1.2], r.1.2), r.2)
  | .ReadListEnd => some (([], (l.ReadListEnd p ctx).1), (l.ReadListEnd p ctx).2)
  | .ReadSetBegin => (l.ReadSetBegin p fmt ctx).map fun r => (([Value.int64 r.1.1.1, Value.int64 r.1.1.2], r.1.2), r.2)
  | .ReadSetEnd => some (([], (l.ReadSetEnd p ctx).1), (l.ReadSetEnd p ctx).2)
  | .ReadBool => (l.ReadBool p fmt ctx).map fun r => (([Value.bool r.1.1], r.1.2), r.2)
  | .ReadByte => (l.ReadByte p fmt ctx).map fun r => (([Value.int8 r.1.1], r.1.2), r.2)
  | .ReadI16 => (l.ReadI16 p fmt ctx).map fun r => (([Value.int16 r.1.1], r.1.2), r.2)
  | .ReadI32 => (l.ReadI32 p fmt ctx).map fun r => (([Value.int32 r.1.1], r.1.2), r.2)
  | .ReadI64 => (l.ReadI64 p fmt ctx).map fun r => (([Value.int64 r.1.1], r.1.2), r.2)
  | .ReadDouble => (l.ReadDouble p fmt ctx).map fun r => (([Value.float64 r.1.1], r.1.2), r.2)
  | .ReadString => (l.ReadString p fmt ctx).map fun r => (([Value.string r.1.1], r.1.2), r.2)
  | .ReadBinary => (l.ReadBinary p fmt ctx).map fun r => (([Value.bytes r.1.1], r.1.2), r.2)
  | .ReadUUID => (l.ReadUUID p fmt ctx).map fun r => (([Value.tuuid r.1.1], r.1.2), r.2)
  | .Skip fieldType => some (([], (l.Skip p ctx fieldType).1), (l.Skip p ctx fieldType).2)
  | .Flush => some (([], (l.Flush p ctx).1), (l.Flush p ctx).2)

/-- The two calls that hand an `int8` to the `BYTE` branch of `push`. -/
def Op.isByte : Op → Bool
  | .WriteByte _ => true
  | .ReadByte => true
  | _ => false

/-- A sequence of calls on the bare wrapped protocol: the results in order, and the
protocol's final state. -/
def TProtocol.callAll {P E T : Type} (p : TProtocol P E T) :
    List (Context × Op) → P → List (List Value × Option E) × P
  | [], s => ([], s)
  | (ctx, op) :: ops, s =>
    let r := p.call ctx op s
    let rest := TProtocol.callAll p ops r.2
    (r.1 :: rest.1, rest.2)

/-- The same sequence of calls made through the tracer: the results in order and the tracer
afterwards, `none` as soon as one call panics. -/
def LoggingProtocol.callAll {P E T : Type} (p : TProtocol P E T) (fmt : Fmt) :
    List (Context × Op) → LoggingProtocol P →
      Option (List (List Value × Option E) × LoggingProtocol P)
  | [], l => some ([], l)
  | (ctx, op) :: ops, l =>
    match l.call p fmt ctx op with
    | none => none
    | some r =>
      match LoggingProtocol.callAll p fmt ops r.2 with
      | none => none
      | some rest => some (r.1 :: rest.1, rest.2)

/-! ## The rendering rules of the specification -/

/-- The composite kinds: message, struct, map, list, set. -/
def thriftType.isComposite : thriftType → Bool
  | .MESSAGE | .MAP | .LIST | .SET | .STRUCT => true
  | _ => false

/-- Written from the specification's table of rendering rules: the opening render of a
composite kind, with the name of a message or struct (empty for an anonymous one). -/
def openText (k : thriftType) (name : String) : String :=
  match k with
  | .MESSAGE => if name = "" then "message \x7b" else "message (name='" ++ name ++ "') \x7b"
  | .STRUCT => if name = "" then "struct \x7b" else "struct (name='" ++ name ++ "') \x7b"
  | .MAP => "map \x7b"
  | .LIST => "list ["
  | .SET => "set ["
  | _ => ""

/-- Written from the specification's table of rendering rules: the closing render of a
composite kind. -/
def closeText (k : thriftType) : String :=
  match k with
  | .MESSAGE | .STRUCT | .MAP => "\x7d"
  | .LIST | .SET => "]"
  | _ => ""

/-- The composite kind a call begins, in either direction. -/
def Op.opens : Op → Option thriftType
  | .WriteMessageBegin _ _ _ | .ReadMessageBegin => some .MESSAGE
  | .WriteStructBegin _ | .ReadStructBegin => some .STRUCT
  | .WriteMapBegin _ _ _ | .ReadMapBegin => some .MAP
  | .WriteListBegin _ _ | .ReadListBegin => some .LIST
  | .WriteSetBegin _ _ | .ReadSetBegin => some .SET
  | _ => none

/-- The composite kind a call ends, in either direction. -/
def Op.closes : Op → Option thriftType
  | .WriteMessageEnd | .ReadMessageEnd => some .MESSAGE
  | .WriteStructEnd | .ReadStructEnd => some .STRUCT
  | .WriteMapEnd | .ReadMapEnd => some .MAP
  | .WriteListEnd | .ReadListEnd => some .LIST
  | .WriteSetEnd | .ReadSetEnd => some .SET
  | _ => none

/-- The name a composite begin is rendered with: the argument of a write, the name the wrapped
protocol returns for a read (`s` is the wrapped protocol's state before the call). -/
def Op.beginName {P E T : Type} (p : TProtocol P E T) (ctx : Context) (s : P) : Op → String
  | .WriteMessageBegin name _ _ => name
  | .WriteStructBegin name => name
  | .ReadMessageBegin => (p.ReadMessageBegin ctx s).1.1.1
  | .ReadStructBegin => (p.ReadStructBegin ctx s).1.1
  | _ => ""

/-- The concatenation of a list of lines. -/
def joinLines : List String → String
  | [] => ""
  | x :: xs => x ++ joinLines xs

/-- Written from the specification: a rendered line, from its nesting depth and its token:
two spaces per level of depth, the token, a newline. -/
def renderLine (dt : Nat × String) : String :=
  String.mk (List.replicate (2 * dt.1) ' ') ++ dt.2 ++ "\n"

/-- Written from the specification: for every call of a sequence of composite begin/end calls,
issued with the composites of `st` open (innermost last) and the wrapped protocol in state
`s`, the depth it is rendered at and its token, together with the composites left open. The
depth is the number of composites open when the call is made, the one being opened or closed
not counted; a begin's token is the opening render of its kind, an end's token the closing
render of the innermost open composite, which must be of the end's kind. `none` when the
sequence is not a well-nested sequence of composite begins and ends. -/
def nestedTokens {P E T : Type} (p : TProtocol P E T) :
    List (Context × Op) → List thriftType → P → Option (List (Nat × String) × List thriftType)
  | [], st, _ => some ([], st)
  | (ctx, op) :: ops, st, s =>
    match op.opens with
    | some k =>
      (nestedTokens p ops (st ++ [k]) (p.call ctx op s).2).map fun r =>
        ((st.length, openText k (op.beginName p ctx s)) :: r.1, r.2)
    | none =>
      match op.closes with
      | some k =>
        if st.getLast? = some k then
          (nestedTokens p ops st.dropLast (p.call ctx op s).2).map fun r =>
            ((st.length - 1, closeText k) :: r.1, r.2)
        else none
      | none => none

/-- The names the begins of a sequence of calls are rendered with, one entry per call (the
empty string for a call that renders no name), the wrapped protocol starting in state `s`. -/
def beginNames {P E T : Type} (p : TProtocol P E T) : List (Context × Op) → P → List String
  | [], _ => []
  | (ctx, op) :: ops, s => op.beginName p ctx s :: beginNames p ops (p.call ctx op s).2

/-- The item a scalar call hands to `push`: built from the argument of a write, and from the
value the wrapped protocol returns for a read (`s` is its state before the call), whatever
error comes with it. -/
def Op.scalarItem {P E T : Type} (p : TProtocol P E T) (ctx : Context) (s : P) :
    Op → Option thriftItem
  | .WriteBool value => some { thriftType := .BOOL, value := .bool value }
  | .WriteByte value => some { thriftType := .BYTE, value := .int8 value }
  | .WriteI16 value => some { thriftType := .I16, value := .int16 value }
  | .WriteI32 value => some { thriftType := .I32, value := .int32 value }
  | .WriteI64 value => some { thriftType := .I64, value := .int64 value }
  | .WriteDouble value => some { thriftType := .DOUBLE, value := .float64 value }
  | .WriteString value => some { thriftType := .STRING, value := .string value }
  | .WriteBinary value => some { thriftType := .BINARY, value := .bytes value }
  | .WriteUUID value => some { thriftType := .UUID, value := .tuuid value }
  | .ReadBool => some { thriftType := .BOOL, value := .bool (p.ReadBool ctx s).1.1 }
  | .ReadByte => some { thriftType := .BYTE, value := .int8 (p.ReadByte ctx s).1.1 }
  | .ReadI16 => some { thriftType := .I16, value := .int16 (p.ReadI16 ctx s).1.1 }
  | .ReadI32 => some { thriftType := .I32, value := .int32 (p.ReadI32 ctx s).1.1 }
  | .ReadI64 => some { thriftType := .I64, value := .int64 (p.ReadI64 ctx s).1.1 }
  | .ReadDouble => some { thriftType := .DOUBLE, value := .float64 (p.ReadDouble ctx s).1.1 }
  | .ReadString => some { thriftType := .STRING, value := .string (p.ReadString ctx s).1.1 }
  | .ReadBinary => some { thriftType := .BINARY, value := .bytes (p.ReadBinary ctx s).1.1 }
  | .ReadUUID => some { thriftType := .UUID, value := .tuuid (p.ReadUUID ctx s).1.1 }
  | _ => none

/-! ## logging.go and proxy.go: the default emitter and `Log` -/

/-- Go's `StdoutLogger` (logging.go, lines 20-28), acting on the text of standard output;
`errorText` is the `Error()` method of the errors, `Duration.Milliseconds()` the quotient by
`10^6` rounded towards zero. -/
def StdoutLogger {E : Type} (errorText : E → String) (c : Call E) (stdout : String) : String :=
  match c.Err with
  | some err =>
    stdout ++ ("[ERROR] calling: " ++ c.Name ++ "\nInput: " ++ c.Input ++ "\nOutput: " ++
      c.Output ++ "\nError: " ++ errorText err ++ "\n(took: " ++
      fmtD (Int.tdiv c.Duration 1000000) ++ "ms)\n\n\n")
  | none =>
    stdout ++ ("[INFO] calling: " ++ c.Name ++ "\nInput: " ++ c.Input ++ "\nOutput: " ++
      c.Output ++ "\n(took: " ++ fmtD (Int.tdiv c.Duration 1000000) ++ "ms)\n\n\n")

/-- Go's `Log` (proxy.go, lines 5-17). A processor is its map of handlers, a list of names with
their `TProcessorFunction`; `thrift.WrapProcessor`, from the library, replaces every handler
of the map by the middleware built from its name and the handler. A nil `emitter` is
`none`; `stdoutLogger` is `StdoutLogger` as it acts on the world. -/
def Log {Pi Po E W : Type} (stdoutLogger : Call E → W → W)
    (processor : List (String × (Context → Int → LoggingProtocol Pi → LoggingProtocol Po → W →
      Option ((Bool × Option E) × LoggingProtocol Pi × LoggingProtocol Po × W))))
    (emitter : Option (Call E → W → W)) : List (String × loggingMiddleware Pi Po E W) :=
  let emitter1 :=
    match emitter with
    | none => stdoutLogger
    | some f => f
  processor.map fun nf => (nf.1, { emit := emitter1, name := nf.1, next := nf.2 })

/-- The calls of the write direction. -/
def Op.isWrite : Op → Bool
  | .WriteMessageBegin _ _ _ | .WriteMessageEnd | .WriteStructBegin _ | .WriteStructEnd
  | .WriteFieldBegin _ _ _ | .WriteFieldEnd | .WriteFieldStop | .WriteMapBegin _ _ _
  | .WriteMapEnd | .WriteListBegin _ _ | .WriteListEnd | .WriteSetBegin _ _ | .WriteSetEnd
  | .WriteBool _ | .WriteByte _ | .WriteI16 _ | .WriteI32 _ | .WriteI64 _ | .WriteDouble _
  | .WriteString _ | .WriteBinary _ | .WriteUUID _ => true
  | _ => false

/-! ## Theorems: the tracer -/

theorem indentWriter_next {P : Type} (l : LoggingProtocol P) :
    l.indentWriter.next = l.next ∧ l.indentWriter.indent = l.indent ∧
      l.indentWriter.stack = l.stack := by
  unfold LoggingProtocol.indentWriter
  split <;> simp

theorem write_frame {P : Type} (l : LoggingProtocol P) (msg : String) :
    (l.write msg).next = l.next ∧ (l.write msg).indent = l.indent ∧
      (l.write msg).stack = l.stack := by
  simp [LoggingProtocol.write, indentWriter_next]

theorem write_w {P : Type} (l : LoggingProtocol P) (msg : String) (h : l.indent = true) :
    (l.write msg).w = l.w ++ tabs l.stack.length ++ msg := by
  simp [LoggingProtocol.write, LoggingProtocol.indentWriter, h]

theorem writeLn_frame {P : Type} (l : LoggingProtocol P) (msg : String) :
    (l.writeLn msg).next = l.next ∧ (l.writeLn msg).indent = l.indent ∧
      (l.writeLn msg).stack = l.stack := by
  simp [LoggingProtocol.writeLn, write_frame]

theorem push_frame {P : Type} (fmt : Fmt) (l l1 : LoggingProtocol P) (item : thriftItem)
    (h : l.push fmt item = some l1) : l1.next = l.next ∧ l1.indent = l.indent := by
  unfold LoggingProtocol.push at h
  split at h
  · simp at h
  · rename_i msg ln _
    simp only [Option.some.injEq] at h
    subst h
    cases ln <;> split <;> simp [write_frame, writeLn_frame]

theorem pop_frame {P : Type} (l : LoggingProtocol P) :
    l.pop.next = l.next ∧ l.pop.indent = l.indent := by
  unfold LoggingProtocol.pop
  split
  · split
    · simp
    · split <;> simp [writeLn_frame]
  · simp

theorem step_indent {P E T : Type} (p : TProtocol P E T) (fmt : Fmt) (ctx : Context)
    (l l1 : LoggingProtocol P) (op : Op) (h : l.step p fmt ctx op = some l1) :
    l1.indent = l.indent := by
  cases op <;>
    simp only [LoggingProtocol.step, LoggingProtocol.WriteMessageBegin,
      LoggingProtocol.WriteMessageEnd, LoggingProtocol.WriteStructBegin,
      LoggingProtocol.WriteStructEnd, LoggingProtocol.WriteFieldBegin,
      LoggingProtocol.WriteFieldEnd, LoggingProtocol.WriteFieldStop,
      LoggingProtocol.WriteMapBegin, LoggingProtocol.WriteMapEnd,
      LoggingProtocol.WriteListBegin, LoggingProtocol.WriteListEnd,
      LoggingProtocol.WriteSetBegin, LoggingProtocol.WriteSetEnd, LoggingProtocol.WriteBool,
      LoggingProtocol.WriteByte, LoggingProtocol.WriteI16, LoggingProtocol.WriteI32,
      LoggingProtocol.WriteI64, LoggingProtocol.WriteDouble, LoggingProtocol.WriteString,
      LoggingProtocol.WriteBinary, LoggingProtocol.WriteUUID, LoggingProtocol.ReadMessageBegin,
      LoggingProtocol.ReadMessageEnd, LoggingProtocol.ReadStructBegin,
      LoggingProtocol.ReadStructEnd, LoggingProtocol.ReadFieldBegin,
      LoggingProtocol.ReadFieldEnd, LoggingProtocol.ReadMapBegin, LoggingProtocol.ReadMapEnd,
      LoggingProtocol.ReadListBegin, LoggingProtocol.ReadListEnd, LoggingProtocol.ReadSetBegin,
      LoggingProtocol.ReadSetEnd, LoggingProtocol.ReadBool, LoggingProtocol.ReadByte,
      LoggingProtocol.ReadI16, LoggingProtocol.ReadI32, LoggingProtocol.ReadI64,
      LoggingProtocol.ReadDouble, LoggingProtocol.ReadString, LoggingProtocol.ReadBinary,
      LoggingProtocol.ReadUUID, LoggingProtocol.Skip, LoggingProtocol.Flush,
      Option.map_map, Option.map_eq_some', Function.comp, Option.some.injEq] at h
  all_goals first
    | (obtain ⟨a, ha, rfl⟩ := h; exact (push_frame _ _ _ _ ha).2)
    | (subst h; simp [pop_frame])

theorem run_indent {P E T : Type} (p : TProtocol P E T) (fmt : Fmt)
    (ops : List (Context × Op)) (l l1 : LoggingProtocol P)
    (h : LoggingProtocol.run p fmt ops l = some l1) : l1.indent = l.indent := by
  induction ops generalizing l with
  | nil =>
    simp only [LoggingProtocol.run, Option.some.injEq] at h
    rw [h]
  | cons op ops ih =>
    obtain ⟨ctx, op⟩ := op
    simp only [LoggingProtocol.run] at h
    split at h
    · simp at h
    · rename_i l2 h2
      rw [ih l2 h, step_indent p fmt ctx l l2 op h2]

/-- What `Process` does with the handler's results: it returns them as they are, and hands the
emitter a record built from the name, the two snapshots and the elapsed time, whose `Err` is
`none` whatever error the handler returned. -/
theorem Process_eq {Pi Po E W : Type} (l : loggingMiddleware Pi Po E W) (clock : W → Int)
    (ctx : Context) (seqId : Int) (inp : Pi) (out : Po) (w w1 : W) (outBool : Bool)
    (outErr : Option E) (i1 : LoggingProtocol Pi) (o1 : LoggingProtocol Po)
    (h : l.next ctx seqId (NewLoggingProtocol inp) (NewLoggingProtocol out) w =
      some ((outBool, outErr), i1, o1, w1)) :
    l.Process clock ctx seqId inp out w =
      some ((outBool, outErr), l.emit
        { Name := l.name, Input := i1.w, Output := o1.w, Duration := clock w1 - clock w
          Err := none } w1) := by
  simp [loggingMiddleware.Process, h, LoggingProtocol.String]

/-- C1: on a handler that fails with the error `"boom"` (after reading a string and writing a
bool through the tracers), `Process` returns that error, but the one record it hands to the
emitter has no error: `Err` is `none` although the handler failed. -/
theorem Process_record_drops_handler_error :
    failingMiddleware.Process (fun _ => 0) (Context.mk 0) 7 () () [] =
      some ((false, some "boom"),
        [{ Name := "ping", Input := "\"x\"\n", Output := "true\n", Duration := 0,
           Err := none }]) := by
  decide

/-- C2, the failing instance: after `WriteListBegin` on a fresh tracer, `String()` leaves the
`LIST` frame on the stack, and a following `WriteBool(true)` renders indented (`"  true\n"`),
while on a fresh tracer it renders as `"true\n"`. -/
theorem String_keeps_open_frames :
    (LoggingProtocol.run (testProtocol "" none) testFmt [(Context.mk 0, Op.WriteListBegin 0 0)]
        (NewLoggingProtocol ())).map (fun l => (l.String.1, l.String.2.w, l.String.2.stack)) =
      some ("list [\n", "", [thriftType.LIST]) ∧
    ((LoggingProtocol.run (testProtocol "" none) testFmt [(Context.mk 0, Op.WriteListBegin 0 0)]
        (NewLoggingProtocol ())).bind (fun l =>
          LoggingProtocol.run (testProtocol "" none) testFmt [(Context.mk 0, Op.WriteBool true)]
            l.String.2)).map (fun l => l.w) = some "  true\n" ∧
    (LoggingProtocol.run (testProtocol "" none) testFmt [(Context.mk 0, Op.WriteBool true)]
        (NewLoggingProtocol ())).map (fun l => l.w) = some "true\n" := by
  decide

/-- C2, amended: on every tracer reached from a fresh one by a sequence of read/write
operations, `String()` returns the text accumulated so far and empties the buffer, leaving the
nesting stack (and the wrapped protocol) as they were; when the stack is empty at that moment
the tracer is in the state of a newly constructed tracer, so every following sequence of
operations runs as on a fresh tracer. -/
theorem String_snapshot {P E T : Type} (p : TProtocol P E T) (fmt : Fmt) (wraps : P)
    (ops : List (Context × Op)) (l : LoggingProtocol P)
    (h : LoggingProtocol.run p fmt ops (NewLoggingProtocol wraps) = some l) :
    l.String.1 = l.w ∧
    l.String.2 = { next := l.next, w := "", indent := true, stack := l.stack } ∧
    (l.stack = [] → l.String.2 = NewLoggingProtocol l.next ∧
      ∀ ops1 : List (Context × Op), LoggingProtocol.run p fmt ops1 l.String.2 =
        LoggingProtocol.run p fmt ops1 (NewLoggingProtocol l.next)) := by
  have hi : l.indent = true := by
    rw [run_indent p fmt ops _ l h]
    rfl
  have h2 : l.String.2 = { next := l.next, w := "", indent := true, stack := l.stack } := by
    simp [LoggingProtocol.String, ← hi]
  refine ⟨rfl, h2, fun hs => ?_⟩
  have h3 : l.String.2 = NewLoggingProtocol l.next := by
    rw [h2, hs]
    rfl
  exact ⟨h3, fun ops1 => by rw [h3]⟩

/-- An instance of the amended C2: a list is opened and closed, which leaves the stack empty,
and the snapshot leaves a fresh tracer. -/
theorem String_snapshot_witness :
    LoggingProtocol.run (testProtocol "" none) testFmt
        [(Context.mk 0, Op.WriteListBegin 0 0), (Context.mk 1, Op.WriteListEnd)]
        (NewLoggingProtocol ()) =
      some { next := (), w := "list [\n]\n", indent := true, stack := [] } ∧
    (({ next := (), w := "list [\n]\n", indent := true, stack := [] } :
        LoggingProtocol Unit).String.1 = "list [\n]\n" ∧
      ({ next := (), w := "list [\n]\n", indent := true, stack := [] } :
        LoggingProtocol Unit).String.2 = NewLoggingProtocol ()) :=
  ⟨by rfl,
    (String_snapshot (testProtocol "" none) testFmt ()
      [(Context.mk 0, Op.WriteListBegin 0 0), (Context.mk 1, Op.WriteListEnd)]
      { next := (), w := "list [\n]\n", indent := true, stack := [] } (by rfl)).1,
    ((String_snapshot (testProtocol "" none) testFmt ()
      [(Context.mk 0, Op.WriteListBegin 0 0), (Context.mk 1, Op.WriteListEnd)]
      { next := (), w := "list [\n]\n", indent := true, stack := [] } (by rfl)).2.2 rfl).1⟩

/-- C3: `WriteByte` and `ReadByte` panic on every tracer state and every value: they hand an
`int8` to the `BYTE` branch of `push`, whose type assertion is to `byte` (`uint8`). -/
theorem WriteByte_ReadByte_panic {P E T : Type} (p : TProtocol P E T) (fmt : Fmt)
    (l : LoggingProtocol P) (ctx : Context) (value : Int) :
    l.WriteByte p fmt ctx value = none ∧ l.ReadByte p fmt ctx = none := by
  simp [LoggingProtocol.WriteByte, LoggingProtocol.ReadByte, LoggingProtocol.push, renderItem]

theorem push_field {P : Type} (fmt : Fmt) (l : LoggingProtocol P) (name : String) :
    l.push fmt { thriftType := thriftType.FIELD, name := name } =
      some { l.write ("\"" ++ name ++ "\" = ") with
        stack := (l.write ("\"" ++ name ++ "\" = ")).stack ++ [thriftType.FIELD] } := by
  simp [LoggingProtocol.push, renderItem, thriftType.isParent]

/-- C4, the failing instance: on a fresh tracer over a protocol whose `ReadFieldBegin` returns
the name `x`, `ReadFieldBegin` returns that name but appends nothing and pushes no frame; the
same call in the write direction appends the key prefix and pushes a `FIELD` frame. -/
theorem ReadFieldBegin_renders_nothing :
    ((NewLoggingProtocol ()).ReadFieldBegin (testProtocol "x" none) (Context.mk 0)).1.1.1 = "x" ∧
    ((NewLoggingProtocol ()).ReadFieldBegin (testProtocol "x" none) (Context.mk 0)).2.w = "" ∧
    ((NewLoggingProtocol ()).ReadFieldBegin (testProtocol "x" none) (Context.mk 0)).2.stack = [] ∧
    ((NewLoggingProtocol ()).WriteFieldBegin (testProtocol "x" none) testFmt (Context.mk 0)
        "x" 0 0).map (fun r => (r.2.w, r.2.stack)) = some ("\"x\" = ", [thriftType.FIELD]) := by
  decide

/-- C4, amended: in the write direction, `WriteFieldBegin` appends the indentation of the
current depth and the key prefix `"<name>" = ` and pushes a `FIELD` frame, so the depth grows
by one, and `WriteFieldEnd`, called with a `FIELD` frame on top of the stack, pops that frame
and appends nothing. In the read direction `ReadFieldBegin` and `ReadFieldEnd` only forward:
buffer and stack stay as they were. -/
theorem field_begin_end {P E T : Type} (p : TProtocol P E T) (fmt : Fmt)
    (l : LoggingProtocol P) (ctx : Context) (name : String) (typeId id : Int)
    (hi : l.indent = true) :
    (∃ r, l.WriteFieldBegin p fmt ctx name typeId id = some r ∧
      r.2.w = l.w ++ tabs l.stack.length ++ ("\"" ++ name ++ "\" = ") ∧
      r.2.stack = l.stack ++ [thriftType.FIELD] ∧
      r.2.stack.length = l.stack.length + 1 ∧
      (r.2.WriteFieldEnd p ctx).2.w = r.2.w ∧
      (r.2.WriteFieldEnd p ctx).2.stack = l.stack) ∧
    (∀ (l2 : LoggingProtocol P) (st : List thriftType), l2.stack = st ++ [thriftType.FIELD] →
      (l2.WriteFieldEnd p ctx).2.w = l2.w ∧ (l2.WriteFieldEnd p ctx).2.stack = st) ∧
    (l.ReadFieldBegin p ctx).2.w = l.w ∧ (l.ReadFieldBegin p ctx).2.stack = l.stack ∧
    (l.ReadFieldEnd p ctx).2.w = l.w ∧ (l.ReadFieldEnd p ctx).2.stack = l.stack := by
  have hend : ∀ (l2 : LoggingProtocol P) (st : List thriftType),
      l2.stack = st ++ [thriftType.FIELD] →
      (l2.WriteFieldEnd p ctx).2.w = l2.w ∧ (l2.WriteFieldEnd p ctx).2.stack = st := by
    intro l2 st h2
    simp [LoggingProtocol.WriteFieldEnd, LoggingProtocol.pop, h2]
  have hpush := push_field fmt l name
  refine ⟨?_, hend, ?_, ?_, ?_, ?_⟩
  · have hs : (l.write ("\"" ++ name ++ "\" = ")).stack = l.stack := (write_frame l _).2.2
    refine ⟨_, by rw [LoggingProtocol.WriteFieldBegin, hpush]; rfl, ?_, ?_, ?_, ?_, ?_⟩
    · simp [write_w l _ hi]
    · simp [hs]
    · simp [hs]
    · refine (hend _ l.stack ?_).1
      simp [hs]
    · refine (hend _ l.stack ?_).2
      simp [hs]
  · simp [LoggingProtocol.ReadFieldBegin]
  · simp [LoggingProtocol.ReadFieldBegin]
  · simp [LoggingProtocol.ReadFieldEnd]
  · simp [LoggingProtocol.ReadFieldEnd]

/-- An instance of the amended C4: inside an open struct, the field `id` is begun. -/
theorem field_begin_end_witness :
    ({ next := (), w := "struct \x7b\n", indent := true, stack := [thriftType.STRUCT] } :
        LoggingProtocol Unit).indent = true ∧
    (({ next := (), w := "struct \x7b\n", indent := true, stack := [thriftType.STRUCT] } :
        LoggingProtocol Unit).ReadFieldBegin (testProtocol "id" none) (Context.mk 0)).2.w =
      "struct \x7b\n" :=
  ⟨rfl, (field_begin_end (testProtocol "id" none) testFmt
    { next := (), w := "struct \x7b\n", indent := true, stack := [thriftType.STRUCT] }
    (Context.mk 0) "id" 8 1 rfl).2.2.1⟩

/-! ## Theorems: the retrying client -/

theorem handle_declined {σ X M A : Type} (c : RertryingClient σ X M A) (attempts : Int) (s : σ)
    (hb : (c.backoffHandler.BackOff attempts s).1 = false) :
    c.handle attempts s =
      { shouldRetry := false, err := some Error.ErrRetriesExhausted, client := c
        world := (c.backoffHandler.BackOff attempts s).2
        trace := [Event.backOff attempts false] } := by
  simp [RertryingClient.handle, hb]

theorem handle_swapped {σ X M A : Type} (c : RertryingClient σ X M A) (attempts : Int) (s : σ)
    (hb : (c.backoffHandler.BackOff attempts s).1 = true)
    (hf : (c.retryFn (c.backoffHandler.BackOff attempts s).2).1.2 = none) :
    c.handle attempts s =
      { shouldRetry := true, err := none
        client := { c with
          wrappedClient := (c.retryFn (c.backoffHandler.BackOff attempts s).2).1.1 }
        world := (c.retryFn (c.backoffHandler.BackOff attempts s).2).2
        trace := [Event.backOff attempts true, Event.factory none] } := by
  simp [RertryingClient.handle, hb, hf]

theorem handle_failed {σ X M A : Type} (c : RertryingClient σ X M A) (attempts : Int) (s : σ)
    (f : Error X) (hb : (c.backoffHandler.BackOff attempts s).1 = true)
    (hf : (c.retryFn (c.backoffHandler.BackOff attempts s).2).1.2 = some f) :
    c.handle attempts s =
      { shouldRetry :=
          (c.shouldRetryFn f (c.retryFn (c.backoffHandler.BackOff attempts s).2).2).1
        err := some f, client := c
        world := (c.shouldRetryFn f (c.retryFn (c.backoffHandler.BackOff attempts s).2).2).2
        trace := [Event.backOff attempts true, Event.factory (some f),
          Event.shouldRetry f
            (c.shouldRetryFn f (c.retryFn (c.backoffHandler.BackOff attempts s).2).2).1] } := by
  simp [RertryingClient.handle, hb, hf]

theorem handle_client {σ X M A : Type} (c : RertryingClient σ X M A) (attempts : Int) (s : σ) :
    (c.handle attempts s).client.retryFn = c.retryFn ∧
    (c.handle attempts s).client.shouldRetryFn = c.shouldRetryFn ∧
    (c.handle attempts s).client.backoffHandler = c.backoffHandler := by
  cases hb : (c.backoffHandler.BackOff attempts s).1
  · simp [handle_declined c attempts s hb]
  · cases hf : (c.retryFn (c.backoffHandler.BackOff attempts s).2).1.2
    · simp [handle_swapped c attempts s hb hf]
    · simp [handle_failed c attempts s _ hb hf]

/-- When `handle` answers that the call is not to be retried, its error is
`ErrRetriesExhausted`, or an error of the factory on which the predicate answered false. -/
theorem handle_stop {σ X M A : Type} (c : RertryingClient σ X M A) (p : Error X → Bool)
    (hdet : ∀ e s, (c.shouldRetryFn e s).1 = p e) (attempts : Int) (s : σ)
    (h : (c.handle attempts s).shouldRetry = false) :
    (c.handle attempts s).err = some Error.ErrRetriesExhausted ∨
    ∃ f, (c.handle attempts s).err = some f ∧ p f = false ∧
      Event.factory (some f) ∈ (c.handle attempts s).trace := by
  cases hb : (c.backoffHandler.BackOff attempts s).1
  · simp [handle_declined c attempts s hb]
  · cases hf : (c.retryFn (c.backoffHandler.BackOff attempts s).2).1.2
    · simp [handle_swapped c attempts s hb hf] at h
    · rename_i f
      rw [handle_failed c attempts s f hb hf] at h ⊢
      simp only [hdet] at h
      exact Or.inr ⟨f, rfl, h, by simp⟩

/-- One iteration of the loop of `Call`, by the outcome of the invocation. -/
theorem loop_succ {σ X M A : Type} (args : A) (fuel : Nat) (c : RertryingClient σ X M A)
    (attempts : Int) (s : σ) (tr : List (Event X M)) :
    RertryingClient.loop args (fuel + 1) c attempts s tr =
      match (c.wrappedClient.Call args s).1.2 with
      | some err =>
        if (c.shouldRetryFn err (c.wrappedClient.Call args s).2).1 then
          if (c.handle (attempts + 1) (c.shouldRetryFn err (c.wrappedClient.Call args s).2).2).shouldRetry
          then
            RertryingClient.loop args fuel
              (c.handle (attempts + 1) (c.shouldRetryFn err (c.wrappedClient.Call args s).2).2).client
              (attempts + 1)
              (c.handle (attempts + 1) (c.shouldRetryFn err (c.wrappedClient.Call args s).2).2).world
              (tr ++ [Event.invoke (c.wrappedClient.Call args s).1.1 (some err),
                  Event.shouldRetry err (c.shouldRetryFn err (c.wrappedClient.Call args s).2).1] ++
                (c.handle (attempts + 1)
                  (c.shouldRetryFn err (c.wrappedClient.Call args s).2).2).trace)
          else
            some
              { mt := (c.wrappedClient.Call args s).1.1
                err := (c.handle (attempts + 1)
                  (c.shouldRetryFn err (c.wrappedClient.Call args s).2).2).err
                client := (c.handle (attempts + 1)
                  (c.shouldRetryFn err (c.wrappedClient.Call args s).2).2).client
                world := (c.handle (attempts + 1)
                  (c.shouldRetryFn err (c.wrappedClient.Call args s).2).2).world
                trace := tr ++ [Event.invoke (c.wrappedClient.Call args s).1.1 (some err),
                    Event.shouldRetry err (c.shouldRetryFn err (c.wrappedClient.Call args s).2).1] ++
                  (c.handle (attempts + 1)
                    (c.shouldRetryFn err (c.wrappedClient.Call args s).2).2).trace }
        else
          some
            { mt := (c.wrappedClient.Call args s).1.1, err := some err, client := c
              world := (c.shouldRetryFn err (c.wrappedClient.Call args s).2).2
              trace := tr ++ [Event.invoke (c.wrappedClient.Call args s).1.1 (some err),
                Event.shouldRetry err (c.shouldRetryFn err (c.wrappedClient.Call args s).2).1] }
      | none =>
        some
          { mt := (c.wrappedClient.Call args s).1.1, err := none, client := c
            world := (c.wrappedClient.Call args s).2
            trace := tr ++ [Event.invoke (c.wrappedClient.Call args s).1.1 none] } := by
  rfl

theorem loop_success {σ X M A : Type} (args : A) (fuel : Nat) (c : RertryingClient σ X M A)
    (attempts : Int) (s : σ) (tr : List (Event X M))
    (hc : (c.wrappedClient.Call args s).1.2 = none) :
    RertryingClient.loop args (fuel + 1) c attempts s tr =
      some
        { mt := (c.wrappedClient.Call args s).1.1, err := none, client := c
          world := (c.wrappedClient.Call args s).2
          trace := tr ++ [Event.invoke (c.wrappedClient.Call args s).1.1 none] } := by
  rw [loop_succ, hc]

theorem loop_denied {σ X M A : Type} (args : A) (fuel : Nat) (c : RertryingClient σ X M A)
    (attempts : Int) (s : σ) (tr : List (Event X M)) (e : Error X)
    (hc : (c.wrappedClient.Call args s).1.2 = some e)
    (hp : (c.shouldRetryFn e (c.wrappedClient.Call args s).2).1 = false) :
    RertryingClient.loop args (fuel + 1) c attempts s tr =
      some
        { mt := (c.wrappedClient.Call args s).1.1, err := some e, client := c
          world := (c.shouldRetryFn e (c.wrappedClient.Call args s).2).2
          trace := tr ++ [Event.invoke (c.wrappedClient.Call args s).1.1 (some e),
            Event.shouldRetry e false] } := by
  rw [loop_succ, hc]
  simp [hp]

theorem loop_stop {σ X M A : Type} (args : A) (fuel : Nat) (c : RertryingClient σ X M A)
    (attempts : Int) (s : σ) (tr : List (Event X M)) (e : Error X)
    (hc : (c.wrappedClient.Call args s).1.2 = some e)
    (hp : (c.shouldRetryFn e (c.wrappedClient.Call args s).2).1 = true)
    (hh : (c.handle (attempts + 1)
      (c.shouldRetryFn e (c.wrappedClient.Call args s).2).2).shouldRetry = false) :
    RertryingClient.loop args (fuel + 1) c attempts s tr =
      some
        { mt := (c.wrappedClient.Call args s).1.1
          err := (c.handle (attempts + 1) (c.shouldRetryFn e (c.wrappedClient.Call args s).2).2).err
          client :=
            (c.handle (attempts + 1) (c.shouldRetryFn e (c.wrappedClient.Call args s).2).2).client
          world :=
            (c.handle (attempts + 1) (c.shouldRetryFn e (c.wrappedClient.Call args s).2).2).world
          trace := tr ++ [Event.invoke (c.wrappedClient.Call args s).1.1 (some e),
              Event.shouldRetry e true] ++
            (c.handle (attempts + 1) (c.shouldRetryFn e (c.wrappedClient.Call args s).2).2).trace
        } := by
  rw [loop_succ, hc]
  simp [hp, hh]

theorem loop_continue {σ X M A : Type} (args : A) (fuel : Nat) (c : RertryingClient σ X M A)
    (attempts : Int) (s : σ) (tr : List (Event X M)) (e : Error X)
    (hc : (c.wrappedClient.Call args s).1.2 = some e)
    (hp : (c.shouldRetryFn e (c.wrappedClient.Call args s).2).1 = true)
    (hh : (c.handle (attempts + 1)
      (c.shouldRetryFn e (c.wrappedClient.Call args s).2).2).shouldRetry = true) :
    RertryingClient.loop args (fuel + 1) c attempts s tr =
      RertryingClient.loop args fuel
        (c.handle (attempts + 1) (c.shouldRetryFn e (c.wrappedClient.Call args s).2).2).client
        (attempts + 1)
        (c.handle (attempts + 1) (c.shouldRetryFn e (c.wrappedClient.Call args s).2).2).world
        (tr ++ [Event.invoke (c.wrappedClient.Call args s).1.1 (some e),
            Event.shouldRetry e true] ++
          (c.handle (attempts + 1) (c.shouldRetryFn e (c.wrappedClient.Call args s).2).2).trace) := by
  rw [loop_succ, hc]
  simp [hp, hh]

/-- C6: when the first invocation of the current invoker returns an error `e` on which the
retry predicate answers false, `Call` (with any fuel of at least one iteration) returns `e`
and that invocation's metadata; the collaborator calls are that single invocation and the
question to the predicate, so the backoff handler and the factory are not called; the
client, and with it the current invoker, is unchanged. -/
theorem Call_nonretryable_error_returned_at_once {σ X M A : Type}
    (c : RertryingClient σ X M A) (fuel : Nat) (args : A) (s : σ) (e : Error X)
    (hc : (c.wrappedClient.Call args s).1.2 = some e)
    (hp : (c.shouldRetryFn e (c.wrappedClient.Call args s).2).1 = false) :
    ∃ r, c.Call (fuel + 1) args s = some r ∧
      r.err = some e ∧ r.mt = (c.wrappedClient.Call args s).1.1 ∧
      r.trace = [Event.invoke (c.wrappedClient.Call args s).1.1 (some e),
        Event.shouldRetry e false] ∧
      invocations r.trace = 1 ∧ consultations r.trace = [] ∧ factoryCalls r.trace = 0 ∧
      r.client = c ∧ r.client.wrappedClient = c.wrappedClient := by
  refine ⟨_, loop_denied args fuel c 0 s [] e hc hp, ?_⟩
  simp [invocations, consultations, factoryCalls]

/-- An instance of C6: the invoker of `deniedClient` fails with `denied`, which the predicate
does not retry; `Call` returns that error and metadata 7. -/
theorem Call_nonretryable_error_returned_at_once_witness :
    ((deniedClient.wrappedClient.Call () ((), Effects.mk "" [])).1.2 =
        some (Error.other "denied") ∧
      (deniedClient.shouldRetryFn (Error.other "denied")
        (deniedClient.wrappedClient.Call () ((), Effects.mk "" [])).2).1 = false) ∧
    (deniedClient.Call 1 () ((), Effects.mk "" [])).map (fun r => (r.mt, r.err, r.trace)) =
      some (7, some (Error.other "denied"),
        [Event.invoke 7 (some (Error.other "denied")),
          Event.shouldRetry (Error.other "denied") false]) := by
  refine ⟨⟨by decide, by decide⟩, ?_⟩
  obtain ⟨r, h, h1, h2, h3, _⟩ :=
    Call_nonretryable_error_returned_at_once deniedClient 0 () ((), Effects.mk "" [])
      (Error.other "denied") (by decide) (by decide)
  rw [h, Option.map_some', h1, h2, h3]
  rfl

theorem loop_outcome {σ X M A : Type} (args : A) (p : Error X → Bool) (fuel : Nat) :
    ∀ (c : RertryingClient σ X M A) (attempts : Int) (s : σ) (tr : List (Event X M))
      (r : CallResult σ X M A), (∀ e s, (c.shouldRetryFn e s).1 = p e) →
      RertryingClient.loop args fuel c attempts s tr = some r → Outcome p r := by
  induction fuel with
  | zero =>
    intro c attempts s tr r _ h
    simp [RertryingClient.loop] at h
  | succ fuel ih =>
    intro c attempts s tr r hdet h
    cases hc : (c.wrappedClient.Call args s).1.2 with
    | none =>
      rw [loop_success args fuel c attempts s tr hc, Option.some.injEq] at h
      subst h
      exact Or.inl ⟨rfl, by simp⟩
    | some e =>
      cases hp : (c.shouldRetryFn e (c.wrappedClient.Call args s).2).1 with
      | false =>
        rw [loop_denied args fuel c attempts s tr e hc hp, Option.some.injEq] at h
        subst h
        refine Or.inr (Or.inr ⟨e, rfl, ?_, Or.inl (by simp)⟩)
        rw [← hdet e (c.wrappedClient.Call args s).2, hp]
      | true =>
        cases hh : (c.handle (attempts + 1)
            (c.shouldRetryFn e (c.wrappedClient.Call args s).2).2).shouldRetry with
        | false =>
          rw [loop_stop args fuel c attempts s tr e hc hp hh, Option.some.injEq] at h
          subst h
          rcases handle_stop c p hdet _ _ hh with h1 | ⟨f, h1, h2, h3⟩
          · exact Or.inr (Or.inl h1)
          · exact Or.inr (Or.inr ⟨f, h1, h2, Or.inr (by simp [h3])⟩)
        | true =>
          rw [loop_continue args fuel c attempts s tr e hc hp hh] at h
          refine ih _ _ _ _ r ?_ h
          intro e1 s1
          rw [(handle_client c _ _).2.1]
          exact hdet e1 s1

/-- C7: when the retry predicate is a function `p` of the error and `Call` returns, it returns
success (no error, with the metadata of the last, successful invocation), or
`ErrRetriesExhausted`, or an error on which `p` is false and which the last invocation or the
factory returned, passed through unchanged. Hence an error returned to the caller, other than
`ErrRetriesExhausted`, is never one the predicate would retry. -/
theorem Call_outcome {σ X M A : Type} (c : RertryingClient σ X M A) (p : Error X → Bool)
    (hdet : ∀ e s, (c.shouldRetryFn e s).1 = p e) (fuel : Nat) (args : A) (s : σ)
    (r : CallResult σ X M A) (h : c.Call fuel args s = some r) :
    ((r.err = none ∧ r.trace.getLast? = some (Event.invoke r.mt none)) ∨
      r.err = some Error.ErrRetriesExhausted ∨
      ∃ e, r.err = some e ∧ p e = false ∧
        (Event.invoke r.mt (some e) ∈ r.trace ∨ Event.factory (some e) ∈ r.trace)) ∧
    ∀ e, r.err = some e → e ≠ Error.ErrRetriesExhausted → p e = false := by
  have ho : Outcome p r := loop_outcome args p fuel c 0 s [] r hdet h
  refine ⟨ho, fun e he hne => ?_⟩
  rcases ho with ⟨h1, _⟩ | h1 | ⟨f, h1, h2, _⟩
  · rw [h1] at he
    cases he
  · rw [h1, Option.some.injEq] at he
    exact absurd he.symm hne
  · rw [h1, Option.some.injEq] at he
    rw [← he]
    exact h2

/-- An instance of C7: the predicate of `deniedClient` is a function of the error, and the call
returns the error `denied`, on which it is false. -/
theorem Call_outcome_witness :
    (∀ e s, (deniedClient.shouldRetryFn e s).1 = decide (e = Error.other "reset")) ∧
    ∃ r, deniedClient.Call 1 () ((), Effects.mk "" []) = some r ∧
      ∀ e, r.err = some e → e ≠ Error.ErrRetriesExhausted →
        decide (e = Error.other "reset") = false :=
  ⟨fun _ _ => rfl, _,
    loop_denied () 0 deniedClient 0 ((), Effects.mk "" []) [] (Error.other "denied")
      (by decide) (by decide),
    (Call_outcome deniedClient (fun e => decide (e = Error.other "reset")) (fun _ _ => rfl) 1 ()
      ((), Effects.mk "" []) _
      (loop_denied () 0 deniedClient 0 ((), Effects.mk "" []) [] (Error.other "denied")
        (by decide) (by decide))).2⟩

theorem consultations_append {X M : Type} (a b : List (Event X M)) :
    consultations (a ++ b) = consultations a ++ consultations b := by
  simp [consultations]

theorem waits_append {X M : Type} (a b : List (Event X M)) :
    waits (a ++ b) = waits a + waits b := by
  simp [waits, consultations_append]

theorem invocations_append {X M : Type} (a b : List (Event X M)) :
    invocations (a ++ b) = invocations a + invocations b := by
  simp [invocations]

theorem factoryCalls_append {X M : Type} (a b : List (Event X M)) :
    factoryCalls (a ++ b) = factoryCalls a + factoryCalls b := by
  simp [factoryCalls]

/-- The method `BackOff` grants exactly the attempts up to `maxAttempts`. -/
theorem BackOff_fst {F : Type} (ops : FloatOps F) (e : ExponentialBackoff F) (attempt : Int)
    (w : Effects) : (e.BackOff ops attempt w).1 = decide (attempt ≤ e.maxAttempts) := by
  unfold ExponentialBackoff.BackOff
  split
  · rename_i h
    simp only [gt_iff_lt] at h
    simp [h]
  · rename_i h
    simp only [gt_iff_lt, not_lt] at h
    simp [h]

theorem handler_fst {F σ : Type} (ops : FloatOps F) (e : ExponentialBackoff F) (attempt : Int)
    (s : σ × Effects) :
    ((e.handler ops).BackOff attempt s).1 = decide (attempt ≤ e.maxAttempts) := by
  simp [ExponentialBackoff.handler, BackOff_fst]

/-- What one call of `handle` adds to the counts, by the answer of the backoff handler. -/
theorem handle_counts {σ X M A : Type} (c : RertryingClient σ X M A) (attempts : Int) (s : σ) :
    invocations (c.handle attempts s).trace = 0 ∧
    ((c.backoffHandler.BackOff attempts s).1 = false →
      (c.handle attempts s).shouldRetry = false ∧ waits (c.handle attempts s).trace = 0 ∧
        factoryCalls (c.handle attempts s).trace = 0) ∧
    ((c.backoffHandler.BackOff attempts s).1 = true →
      waits (c.handle attempts s).trace = 1 ∧ factoryCalls (c.handle attempts s).trace = 1) := by
  cases hb : (c.backoffHandler.BackOff attempts s).1
  · simp [handle_declined c attempts s hb, invocations, waits, consultations, factoryCalls]
  · cases hf : (c.retryFn (c.backoffHandler.BackOff attempts s).2).1.2
    · simp [handle_swapped c attempts s hb hf, invocations, waits, consultations, factoryCalls]
    · simp [handle_failed c attempts s _ hb hf, invocations, waits, consultations,
        factoryCalls]

/-- The counts of the two events of an iteration whose invocation failed. -/
theorem invoke_counts {X M : Type} (mt : M) (err : Error X) (b : Bool) :
    waits [Event.invoke mt (some err), Event.shouldRetry err b] = 0 ∧
    consultations [Event.invoke mt (some err), Event.shouldRetry err b] = [] ∧
    factoryCalls [Event.invoke mt (some err), Event.shouldRetry err b] = 0 ∧
    invocations [Event.invoke mt (some err), Event.shouldRetry err b] = 1 := by
  simp [waits, consultations, factoryCalls, invocations]

/-- With an `ExponentialBackoff` handler that still grants `k` attempts, the loop returns
within `k + 1` iterations and adds at most `k` waits, `k` factory calls and `k + 1`
invocations. -/
theorem loop_bounded {F σ X M A : Type} (ops : FloatOps F) (e : ExponentialBackoff F)
    (args : A) (k : Nat) :
    ∀ (c : RertryingClient (σ × Effects) X M A) (attempts : Int) (s : σ × Effects)
      (tr : List (Event X M)) (fuel : Nat),
      c.backoffHandler = e.handler ops → attempts + k = e.maxAttempts → k + 1 ≤ fuel →
      ∃ r, RertryingClient.loop args fuel c attempts s tr = some r ∧
        waits r.trace ≤ waits tr + k ∧ factoryCalls r.trace ≤ factoryCalls tr + k ∧
        invocations r.trace ≤ invocations tr + (k + 1) := by
  induction k with
  | zero =>
    intro c attempts s tr fuel hb ha hfuel
    obtain ⟨fuel, rfl⟩ : ∃ f, fuel = f + 1 := ⟨fuel - 1, by omega⟩
    cases hc : (c.wrappedClient.Call args s).1.2 with
    | none =>
      refine ⟨_, loop_success args fuel c attempts s tr hc, ?_⟩
      simp [waits_append, factoryCalls_append, invocations_append, waits, consultations,
        factoryCalls, invocations]
    | some err =>
      cases hp : (c.shouldRetryFn err (c.wrappedClient.Call args s).2).1 with
      | false =>
        refine ⟨_, loop_denied args fuel c attempts s tr err hc hp, ?_⟩
        simp [waits_append, factoryCalls_append, invocations_append, waits, consultations,
          factoryCalls, invocations]
      | true =>
        have hd : (c.backoffHandler.BackOff (attempts + 1)
            (c.shouldRetryFn err (c.wrappedClient.Call args s).2).2).1 = false := by
          rw [hb, handler_fst]
          simp only [decide_eq_false_iff_not, not_le]
          omega
        obtain ⟨h0, h1, _⟩ := handle_counts c (attempts + 1)
          (c.shouldRetryFn err (c.wrappedClient.Call args s).2).2
        obtain ⟨h2, h3, h4⟩ := h1 hd
        refine ⟨_, loop_stop args fuel c attempts s tr err hc hp h2, ?_⟩
        simp only [waits_append, factoryCalls_append, invocations_append, h0, h3, h4,
          invoke_counts]
        omega
  | succ k ih =>
    intro c attempts s tr fuel hb ha hfuel
    obtain ⟨fuel, rfl⟩ : ∃ f, fuel = f + 1 := ⟨fuel - 1, by omega⟩
    cases hc : (c.wrappedClient.Call args s).1.2 with
    | none =>
      refine ⟨_, loop_success args fuel c attempts s tr hc, ?_⟩
      simp only [waits_append, factoryCalls_append, invocations_append]
      simp [waits, consultations, factoryCalls, invocations]
    | some err =>
      cases hp : (c.shouldRetryFn err (c.wrappedClient.Call args s).2).1 with
      | false =>
        refine ⟨_, loop_denied args fuel c attempts s tr err hc hp, ?_⟩
        simp only [waits_append, factoryCalls_append, invocations_append]
        simp [waits, consultations, factoryCalls, invocations]
      | true =>
        have hg : (c.backoffHandler.BackOff (attempts + 1)
            (c.shouldRetryFn err (c.wrappedClient.Call args s).2).2).1 = true := by
          rw [hb, handler_fst]
          simp only [decide_eq_true_eq]
          push_cast at ha
          omega
        obtain ⟨h0, _, h1⟩ := handle_counts c (attempts + 1)
          (c.shouldRetryFn err (c.wrappedClient.Call args s).2).2
        obtain ⟨h3, h4⟩ := h1 hg
        cases hh : (c.handle (attempts + 1)
            (c.shouldRetryFn err (c.wrappedClient.Call args s).2).2).shouldRetry with
        | false =>
          refine ⟨_, loop_stop args fuel c attempts s tr err hc hp hh, ?_⟩
          simp only [waits_append, factoryCalls_append, invocations_append, h0, h3, h4, invoke_counts]
          omega
        | true =>
          rw [loop_continue args fuel c attempts s tr err hc hp hh]
          obtain ⟨r, hr, hw, hf, hi⟩ := ih
            (c.handle (attempts + 1) (c.shouldRetryFn err (c.wrappedClient.Call args s).2).2).client
            (attempts + 1)
            (c.handle (attempts + 1) (c.shouldRetryFn err (c.wrappedClient.Call args s).2).2).world
            (tr ++ [Event.invoke (c.wrappedClient.Call args s).1.1 (some err),
                Event.shouldRetry err true] ++
              (c.handle (attempts + 1)
                (c.shouldRetryFn err (c.wrappedClient.Call args s).2).2).trace)
            fuel (by rw [(handle_client c _ _).2.2, hb]) (by push_cast at ha; omega) (by omega)
          refine ⟨r, hr, ?_, ?_, ?_⟩
          · simp only [waits_append, h3, invoke_counts] at hw
            omega
          · simp only [factoryCalls_append, h4, invoke_counts] at hf
            omega
          · simp only [invocations_append, h0, invoke_counts] at hi
            omega

/-- C8: with an `ExponentialBackoff` handler whose `maxAttempts` is `n ≥ 0`, whatever the
invoker, the factory and the retry predicate do, `Call` returns within `n + 1` iterations of
its loop (any fuel of at least `n + 1` gives the result), after at most `n` granted
consultations of the handler (each one a sleep), at most `n` invocations of the factory and at
most `n + 1` invocations of the underlying invoker. -/
theorem Call_terminates_within_maxAttempts {F σ X M A : Type} (ops : FloatOps F)
    (e : ExponentialBackoff F) (n : Nat) (c : RertryingClient (σ × Effects) X M A)
    (hn : e.maxAttempts = (n : Int)) (hb : c.backoffHandler = e.handler ops) (fuel : Nat)
    (hfuel : n + 1 ≤ fuel) (args : A) (s : σ × Effects) :
    ∃ r, c.Call fuel args s = some r ∧ waits r.trace ≤ n ∧ factoryCalls r.trace ≤ n ∧
      invocations r.trace ≤ n + 1 := by
  obtain ⟨r, hr, hw, hf, hi⟩ := loop_bounded ops e args n c 0 s [] fuel hb
    (by rw [hn]; simp) hfuel
  refine ⟨r, hr, ?_, ?_, ?_⟩
  · simpa [waits, consultations] using hw
  · simpa [factoryCalls] using hf
  · simpa [invocations] using hi

/-- An instance of C8: `alwaysFailingClient 2` has an `ExponentialBackoff` handler with
`maxAttempts = 2`; with fuel 3 its `Call` returns within the bounds. -/
theorem Call_terminates_within_maxAttempts_witness :
    (NewExponentialBackoff (1000000 * 50) 2 (Frac.mk 2 1)).maxAttempts = ((2 : Nat) : Int) ∧
    (alwaysFailingClient 2).backoffHandler =
      (NewExponentialBackoff (1000000 * 50) 2 (Frac.mk 2 1)).handler exactOps ∧
    2 + 1 ≤ 3 ∧
    ∃ r, (alwaysFailingClient 2).Call 3 () ((), Effects.mk "" []) = some r ∧
      waits r.trace ≤ 2 ∧ factoryCalls r.trace ≤ 2 ∧ invocations r.trace ≤ 2 + 1 :=
  ⟨rfl, rfl, by decide,
    Call_terminates_within_maxAttempts exactOps
      (NewExponentialBackoff (1000000 * 50) 2 (Frac.mk 2 1)) 2 (alwaysFailingClient 2) rfl rfl 3
      (by decide) () ((), Effects.mk "" [])⟩

/-- With an `ExponentialBackoff` handler that has granted `a` attempts and still grants `k`,
invokers that always fail, a predicate that always retries and a factory that always
succeeds, the loop consults the handler `k + 1` more times and returns
`ErrRetriesExhausted`. -/
theorem loop_exhausts {F σ X M A : Type} (ops : FloatOps F) (e : ExponentialBackoff F)
    (args : A) (n k : Nat) :
    ∀ (c : RertryingClient (σ × Effects) X M A) (a : Nat) (s : σ × Effects)
      (tr : List (Event X M)) (fuel : Nat),
      e.maxAttempts = (n : Int) → c.backoffHandler = e.handler ops →
      (∀ err s, (c.shouldRetryFn err s).1 = true) → (∀ s, (c.retryFn s).1.2 = none) →
      (∀ s, (c.wrappedClient.Call args s).1.2 ≠ none) →
      (∀ s s1, ((c.retryFn s).1.1.Call args s1).1.2 ≠ none) →
      a + k = n → k + 1 ≤ fuel →
      ∃ r, RertryingClient.loop args fuel c (a : Int) s tr = some r ∧
        r.err = some Error.ErrRetriesExhausted ∧
        consultations r.trace = consultations tr ++
          (List.range' (a + 1) k).map (fun (i : Nat) => ((i : Int), true)) ++ [((n : Int) + 1, false)] ∧
        factoryCalls r.trace = factoryCalls tr + k ∧
        invocations r.trace = invocations tr + (k + 1) := by
  induction k with
  | zero =>
    intro c a s tr fuel hn hb hp hf hcur hnew ha hfuel
    obtain ⟨fuel, rfl⟩ : ∃ f, fuel = f + 1 := ⟨fuel - 1, by omega⟩
    cases hc : (c.wrappedClient.Call args s).1.2 with
    | none => exact absurd hc (hcur s)
    | some err =>
      have hd : (c.backoffHandler.BackOff ((a : Int) + 1)
          (c.shouldRetryFn err (c.wrappedClient.Call args s).2).2).1 = false := by
        rw [hb, handler_fst, hn]
        simp only [decide_eq_false_iff_not, not_le]
        omega
      have hs := handle_declined c ((a : Int) + 1) _ hd
      refine ⟨_, loop_stop args fuel c a s tr err hc (hp _ _) (by rw [hs]), ?_⟩
      have han : (n : Int) = (a : Int) := by omega
      simp only [hs, consultations_append, factoryCalls_append, invocations_append,
        invoke_counts, han]
      simp [consultations, factoryCalls, invocations]
  | succ k ih =>
    intro c a s tr fuel hn hb hp hf hcur hnew ha hfuel
    obtain ⟨fuel, rfl⟩ : ∃ f, fuel = f + 1 := ⟨fuel - 1, by omega⟩
    cases hc : (c.wrappedClient.Call args s).1.2 with
    | none => exact absurd hc (hcur s)
    | some err =>
      have hg : (c.backoffHandler.BackOff ((a : Int) + 1)
          (c.shouldRetryFn err (c.wrappedClient.Call args s).2).2).1 = true := by
        rw [hb, handler_fst, hn]
        simp only [decide_eq_true_eq]
        omega
      have hs := handle_swapped c ((a : Int) + 1) _ hg (hf _)
      rw [loop_continue args fuel c a s tr err hc (hp _ _) (by rw [hs]), hs]
      obtain ⟨r, hr, he, hcons, hfac, hinv⟩ := ih
        { c with wrappedClient := (c.retryFn (c.backoffHandler.BackOff ((a : Int) + 1)
            (c.shouldRetryFn err (c.wrappedClient.Call args s).2).2).2).1.1 }
        (a + 1) (c.retryFn (c.backoffHandler.BackOff ((a : Int) + 1)
            (c.shouldRetryFn err (c.wrappedClient.Call args s).2).2).2).2
        (tr ++ [Event.invoke (c.wrappedClient.Call args s).1.1 (some err),
            Event.shouldRetry err true] ++
          [Event.backOff ((a : Int) + 1) true, Event.factory none])
        fuel hn hb hp hf (fun s1 => hnew _ s1) hnew (by omega) (by omega)
      refine ⟨r, ?_, he, ?_, ?_, ?_⟩
      · rw [← hr]
        simp
      · rw [hcons]
        simp [consultations_append, invoke_counts, consultations, List.range'_succ]
      · rw [hfac]
        simp [factoryCalls_append, invoke_counts, factoryCalls]
        omega
      · rw [hinv]
        simp [invocations_append, invoke_counts, invocations]
        omega

/-- C5, the failing instance: with `maxAttempts = 2`, invokers that always fail, a predicate
that always retries and a factory that always succeeds, `Call` returns
`ErrRetriesExhausted` after three consultations of the backoff handler (attempts 1 and 2
granted, attempt 3 declined), not two. -/
theorem BackOff_consulted_three_times_for_maxAttempts_two :
    ((alwaysFailingClient 2).Call 3 () ((), Effects.mk "" [])).map
        (fun r => (r.err, consultations r.trace, (consultations r.trace).length)) =
      some (some Error.ErrRetriesExhausted, [(1, true), (2, true), (3, false)], 3) := by
  decide

/-- C5, amended: with an `ExponentialBackoff` whose `maxAttempts` is `n`, a predicate that
always retries, a factory that always succeeds and invokers whose `Call` always fails, `Call`
returns `ErrRetriesExhausted` after exactly `n + 1` consultations of the backoff handler: the
attempts `1, ..., n` are granted (`n` waits) and attempt `n + 1` is declined. The factory is
invoked `n` times and the invoker `n + 1` times. -/
theorem Call_exhausted_after_maxAttempts_plus_one_consultations {F σ X M A : Type}
    (ops : FloatOps F) (e : ExponentialBackoff F) (n : Nat)
    (c : RertryingClient (σ × Effects) X M A) (args : A)
    (hn : e.maxAttempts = (n : Int)) (hb : c.backoffHandler = e.handler ops)
    (hp : ∀ err s, (c.shouldRetryFn err s).1 = true) (hf : ∀ s, (c.retryFn s).1.2 = none)
    (hcur : ∀ s, (c.wrappedClient.Call args s).1.2 ≠ none)
    (hnew : ∀ s s1, ((c.retryFn s).1.1.Call args s1).1.2 ≠ none)
    (fuel : Nat) (hfuel : n + 1 ≤ fuel) (s : σ × Effects) :
    ∃ r, c.Call fuel args s = some r ∧ r.err = some Error.ErrRetriesExhausted ∧
      consultations r.trace =
        (List.range' 1 n).map (fun (i : Nat) => ((i : Int), true)) ++ [((n : Int) + 1, false)] ∧
      (consultations r.trace).length = n + 1 ∧ waits r.trace = n ∧
      factoryCalls r.trace = n ∧ invocations r.trace = n + 1 := by
  obtain ⟨r, hr, he, hcons, hfac, hinv⟩ := loop_exhausts ops e args n n c 0 s [] fuel hn hb hp hf
    hcur hnew (by omega) hfuel
  have hcons1 : consultations r.trace =
      (List.range' 1 n).map (fun (i : Nat) => ((i : Int), true)) ++ [((n : Int) + 1, false)] := by
    simpa [consultations] using hcons
  refine ⟨r, hr, he, hcons1, ?_, ?_, ?_, ?_⟩
  · simp [hcons1]
  · have hall : ∀ l : List Nat,
        List.countP ((fun cb : Int × Bool => cb.2) ∘ fun (i : Nat) => ((i : Int), true)) l =
          l.length := by
      intro l
      induction l with
      | nil => rfl
      | cons x xs ihx => simp [List.countP_cons, ihx]
    simp [waits, hcons1, List.countP_append, List.countP_map, hall]
  · simpa [factoryCalls] using hfac
  · simpa [invocations] using hinv

/-- An instance of the amended C5, at `maxAttempts = 2`. -/
theorem Call_exhausted_after_maxAttempts_plus_one_consultations_witness :
    ((NewExponentialBackoff (1000000 * 50) 2 (Frac.mk 2 1)).maxAttempts = ((2 : Nat) : Int) ∧
      (alwaysFailingClient 2).backoffHandler =
        (NewExponentialBackoff (1000000 * 50) 2 (Frac.mk 2 1)).handler exactOps ∧
      (∀ err s, ((alwaysFailingClient 2).shouldRetryFn err s).1 = true) ∧
      (∀ s, ((alwaysFailingClient 2).retryFn s).1.2 = none) ∧
      (∀ s, ((alwaysFailingClient 2).wrappedClient.Call () s).1.2 ≠ none) ∧
      (∀ s s1, (((alwaysFailingClient 2).retryFn s).1.1.Call () s1).1.2 ≠ none) ∧ 2 + 1 ≤ 3) ∧
    ∃ r, (alwaysFailingClient 2).Call 3 () ((), Effects.mk "" []) = some r ∧
      r.err = some Error.ErrRetriesExhausted ∧
      consultations r.trace =
        (List.range' 1 2).map (fun (i : Nat) => ((i : Int), true)) ++ [(((2 : Nat) : Int) + 1, false)] ∧
      (consultations r.trace).length = 2 + 1 ∧ waits r.trace = 2 ∧
      factoryCalls r.trace = 2 ∧ invocations r.trace = 2 + 1 :=
  ⟨⟨rfl, rfl, fun _ _ => rfl, fun _ => rfl, fun _ => by simp [alwaysFailingClient, constInvoker],
      fun _ _ => by simp [alwaysFailingClient, constInvoker], by decide⟩,
    Call_exhausted_after_maxAttempts_plus_one_consultations exactOps
      (NewExponentialBackoff (1000000 * 50) 2 (Frac.mk 2 1)) 2 (alwaysFailingClient 2) () rfl rfl
      (fun _ _ => rfl) (fun _ => rfl) (fun _ => by simp [alwaysFailingClient, constInvoker])
      (fun _ _ => by simp [alwaysFailingClient, constInvoker]) 3 (by decide)
      ((), Effects.mk "" [])⟩

/-- The loop of `Call` when the current invoker always fails, the predicate always retries,
the handler grants the attempts up to `k + 1`, and the factory, which has `j` failures left
(`left` reads them off the world), then returns an invoker that succeeds with `mt1`. -/
theorem loop_reconnects {σ X M A : Type} (c : RertryingClient σ X M A) (args : A) (k : Nat)
    (left : σ → Nat) (mt1 : M)
    (hcur : ∀ s, (c.wrappedClient.Call args s).1.2 ≠ none)
    (hp : ∀ err s, (c.shouldRetryFn err s).1 = true)
    (hb : ∀ (a : Int) s, 1 ≤ a → a ≤ (k : Int) + 1 → (c.backoffHandler.BackOff a s).1 = true)
    (hl1 : ∀ s, left (c.wrappedClient.Call args s).2 = left s)
    (hl2 : ∀ err s, left (c.shouldRetryFn err s).2 = left s)
    (hl3 : ∀ a s, left (c.backoffHandler.BackOff a s).2 = left s)
    (hfail : ∀ s, 0 < left s → (c.retryFn s).1.2 ≠ none ∧ left (c.retryFn s).2 = left s - 1)
    (hok : ∀ s, left s = 0 →
      (c.retryFn s).1.2 = none ∧ ∀ s1, ((c.retryFn s).1.1.Call args s1).1 = (mt1, none))
    (j : Nat) :
    ∀ (a : Nat) (s : σ) (tr : List (Event X M)) (fuel : Nat),
      left s = j → a + j = k → j + 2 ≤ fuel →
      ∃ r, RertryingClient.loop args fuel c (a : Int) s tr = some r ∧
        r.err = none ∧ r.mt = mt1 ∧
        consultations r.trace = consultations tr ++
          (List.range' (a + 1) (j + 1)).map (fun (i : Nat) => ((i : Int), true)) ∧
        factoryCalls r.trace = factoryCalls tr + (j + 1) ∧
        invocations r.trace = invocations tr + (j + 2) := by
  induction j with
  | zero =>
    intro a s tr fuel hl ha hfuel
    obtain ⟨fuel, rfl⟩ : ∃ f, fuel = f + 2 := ⟨fuel - 2, by omega⟩
    cases hc : (c.wrappedClient.Call args s).1.2 with
    | none => exact absurd hc (hcur s)
    | some err =>
      have hg := hb ((a : Int) + 1) (c.shouldRetryFn err (c.wrappedClient.Call args s).2).2
        (by omega) (by omega)
      have hl0 : left (c.backoffHandler.BackOff ((a : Int) + 1)
          (c.shouldRetryFn err (c.wrappedClient.Call args s).2).2).2 = 0 := by
        rw [hl3, hl2, hl1, hl]
      obtain ⟨hf, hnew⟩ := hok _ hl0
      have hs := handle_swapped c ((a : Int) + 1) _ hg hf
      rw [loop_continue args (fuel + 1) c a s tr err hc (hp _ _) (by rw [hs]), hs]
      have hnc := hnew (c.retryFn (c.backoffHandler.BackOff ((a : Int) + 1)
        (c.shouldRetryFn err (c.wrappedClient.Call args s).2).2).2).2
      refine ⟨_, loop_success args fuel _ _ _ _ (by rw [hnc]), rfl, by rw [hnc], ?_⟩
      simp only [consultations_append, factoryCalls_append, invocations_append, invoke_counts]
      simp [consultations, factoryCalls, invocations, List.range'_succ]
  | succ j ih =>
    intro a s tr fuel hl ha hfuel
    obtain ⟨fuel, rfl⟩ : ∃ f, fuel = f + 1 := ⟨fuel - 1, by omega⟩
    cases hc : (c.wrappedClient.Call args s).1.2 with
    | none => exact absurd hc (hcur s)
    | some err =>
      have hg := hb ((a : Int) + 1) (c.shouldRetryFn err (c.wrappedClient.Call args s).2).2
        (by omega) (by omega)
      have hl0 : left (c.backoffHandler.BackOff ((a : Int) + 1)
          (c.shouldRetryFn err (c.wrappedClient.Call args s).2).2).2 = j + 1 := by
        rw [hl3, hl2, hl1, hl]
      have hpos : 0 < left (c.backoffHandler.BackOff ((a : Int) + 1)
          (c.shouldRetryFn err (c.wrappedClient.Call args s).2).2).2 := by
        rw [hl0]
        omega
      obtain ⟨hf, hlf⟩ := hfail _ hpos
      cases hfe : (c.retryFn (c.backoffHandler.BackOff ((a : Int) + 1)
          (c.shouldRetryFn err (c.wrappedClient.Call args s).2).2).2).1.2 with
      | none => exact absurd hfe hf
      | some f =>
        have hs := handle_failed c ((a : Int) + 1) _ f hg hfe
        rw [loop_continue args fuel c a s tr err hc (hp _ _) (by rw [hs]; exact hp _ _), hs]
        obtain ⟨r, hr, he, hm, hcons, hfac, hinv⟩ := ih (a + 1)
          (c.shouldRetryFn f (c.retryFn (c.backoffHandler.BackOff ((a : Int) + 1)
            (c.shouldRetryFn err (c.wrappedClient.Call args s).2).2).2).2).2
          (tr ++ [Event.invoke (c.wrappedClient.Call args s).1.1 (some err),
              Event.shouldRetry err true] ++
            [Event.backOff ((a : Int) + 1) true, Event.factory (some f),
              Event.shouldRetry f (c.shouldRetryFn f (c.retryFn (c.backoffHandler.BackOff
                ((a : Int) + 1) (c.shouldRetryFn err
                  (c.wrappedClient.Call args s).2).2).2).2).1])
          fuel (by rw [hl2, hlf, hl0]; rfl) (by omega) (by omega)
        refine ⟨r, ?_, he, hm, ?_, ?_, ?_⟩
        · rw [← hr]
          simp
        · rw [hcons]
          simp [consultations_append, invoke_counts, consultations, List.range'_succ]
        · rw [hfac]
          simp [factoryCalls_append, invoke_counts, factoryCalls]
          omega
        · rw [hinv]
          simp [invocations_append, invoke_counts, invocations]
          omega

/-- C9: if the current invoker's `Call` always fails, the predicate always retries, the
backoff handler grants the attempts `1, ..., k + 1`, and the factory fails `k` times
(`left` reads the failures it has left off the world, which the other collaborators leave
alone) and then returns an invoker whose `Call` succeeds with metadata `mt1`, then `Call`
(with fuel for `k + 2` iterations) returns success with `mt1`; the factory was invoked exactly
`k + 1` times and the backoff handler was consulted with the attempts `1, 2, ..., k + 1`, all
granted, the last one being `k + 1`. -/
theorem Call_succeeds_after_factory_failures {σ X M A : Type} (c : RertryingClient σ X M A)
    (args : A) (k : Nat) (left : σ → Nat) (mt1 : M) (s : σ)
    (hcur : ∀ s, (c.wrappedClient.Call args s).1.2 ≠ none)
    (hp : ∀ err s, (c.shouldRetryFn err s).1 = true)
    (hb : ∀ (a : Int) s, 1 ≤ a → a ≤ (k : Int) + 1 → (c.backoffHandler.BackOff a s).1 = true)
    (hleft : left s = k)
    (hl1 : ∀ s, left (c.wrappedClient.Call args s).2 = left s)
    (hl2 : ∀ err s, left (c.shouldRetryFn err s).2 = left s)
    (hl3 : ∀ a s, left (c.backoffHandler.BackOff a s).2 = left s)
    (hfail : ∀ s, 0 < left s → (c.retryFn s).1.2 ≠ none ∧ left (c.retryFn s).2 = left s - 1)
    (hok : ∀ s, left s = 0 →
      (c.retryFn s).1.2 = none ∧ ∀ s1, ((c.retryFn s).1.1.Call args s1).1 = (mt1, none))
    (fuel : Nat) (hfuel : k + 2 ≤ fuel) :
    ∃ r, c.Call fuel args s = some r ∧ r.err = none ∧ r.mt = mt1 ∧
      factoryCalls r.trace = k + 1 ∧
      consultations r.trace =
        (List.range' 1 (k + 1)).map (fun (i : Nat) => ((i : Int), true)) ∧
      (consultations r.trace).getLast? = some ((k : Int) + 1, true) ∧
      invocations r.trace = k + 2 := by
  obtain ⟨r, hr, he, hm, hcons, hfac, hinv⟩ := loop_reconnects c args k left mt1 hcur hp hb hl1
    hl2 hl3 hfail hok k 0 s [] fuel hleft (by omega) hfuel
  have hcons1 : consultations r.trace =
      (List.range' 1 (k + 1)).map (fun (i : Nat) => ((i : Int), true)) := by
    simpa [consultations] using hcons
  refine ⟨r, hr, he, hm, ?_, hcons1, ?_, ?_⟩
  · simpa [factoryCalls] using hfac
  · rw [hcons1, List.range'_concat]
    simp
    omega
  · simpa [invocations] using hinv

/-- An instance of C9 at `k = 2`: the factory of `flakyFactoryClient 3` has two failures left
and the handler grants three attempts. -/
theorem Call_succeeds_after_factory_failures_witness :
    ((∀ s, ((flakyFactoryClient 3).wrappedClient.Call () s).1.2 ≠ none) ∧
      (∀ err s, ((flakyFactoryClient 3).shouldRetryFn err s).1 = true) ∧
      (∀ (a : Int) s, 1 ≤ a → a ≤ ((2 : Nat) : Int) + 1 →
        ((flakyFactoryClient 3).backoffHandler.BackOff a s).1 = true) ∧
      (∀ s, 0 < s → ((flakyFactoryClient 3).retryFn s).1.2 ≠ none ∧
        ((flakyFactoryClient 3).retryFn s).2 = s - 1) ∧
      (∀ s, s = 0 → ((flakyFactoryClient 3).retryFn s).1.2 = none ∧
        ∀ s1, (((flakyFactoryClient 3).retryFn s).1.1.Call () s1).1 = (9, none))) ∧
    ∃ r, (flakyFactoryClient 3).Call 4 () 2 = some r ∧ r.err = none ∧ r.mt = 9 ∧
      factoryCalls r.trace = 2 + 1 ∧
      consultations r.trace =
        (List.range' 1 (2 + 1)).map (fun (i : Nat) => ((i : Int), true)) ∧
      (consultations r.trace).getLast? = some (((2 : Nat) : Int) + 1, true) ∧
      invocations r.trace = 2 + 2 := by
  have h1 : ∀ s, ((flakyFactoryClient 3).wrappedClient.Call () s).1.2 ≠ none := by
    intro s
    simp [flakyFactoryClient, constInvoker]
  have h2 : ∀ (a : Int) (s : Nat), 1 ≤ a → a ≤ ((2 : Nat) : Int) + 1 →
      ((flakyFactoryClient 3).backoffHandler.BackOff a s).1 = true := by
    intro a s _ h
    simp only [flakyFactoryClient, decide_eq_true_eq]
    omega
  have h3 : ∀ s, 0 < s → ((flakyFactoryClient 3).retryFn s).1.2 ≠ none ∧
      ((flakyFactoryClient 3).retryFn s).2 = s - 1 := by
    intro s hs
    cases s with
    | zero => omega
    | succ j => simp [flakyFactoryClient]
  have h4 : ∀ s, s = 0 → ((flakyFactoryClient 3).retryFn s).1.2 = none ∧
      ∀ s1, (((flakyFactoryClient 3).retryFn s).1.1.Call () s1).1 = (9, none) := by
    intro s hs
    subst hs
    simp [flakyFactoryClient, constInvoker]
  exact ⟨⟨h1, fun _ _ => rfl, h2, h3, h4⟩,
    Call_succeeds_after_factory_failures (flakyFactoryClient 3) () 2 id 9 2 h1
      (fun _ _ => rfl) h2 rfl (fun _ => rfl) (fun _ _ => rfl) (fun _ _ => rfl) h3 h4 4
      (by decide)⟩

/-- C10: the delay of `BackOff` is not `s × b ^ (a + 1)` when the power has a fraction. With
start 100ms and base 1.5, `BackOff(1)` sleeps 200ms, since the power `1.5 ^ 2 = 2.25` becomes
the `time.Duration` 2 before the multiplication, while `s × b ^ (a + 1)` is 225ms; with base
0.5 the power `0.25` becomes 0 and `BackOff(1)` sleeps 0ms, while `s × b ^ (a + 1)` is 25ms. -/
theorem BackOff_truncates_the_power :
    (NewExponentialBackoff (1000000 * 100) 16 (Frac.mk 3 2)).BackOff exactOps 1
        (Effects.mk "" []) =
      (true, Effects.mk "attempt = 2, sleeping 200ms\n" [1000000 * 200]) ∧
    (1000000 * 100 : ℚ) * (3 / 2) ^ (1 + 1) = 1000000 * 225 ∧
    (NewExponentialBackoff (1000000 * 100) 16 (Frac.mk 1 2)).BackOff exactOps 1
        (Effects.mk "" []) =
      (true, Effects.mk "attempt = 2, sleeping 0ms\n" [0]) ∧
    (1000000 * 100 : ℚ) * (1 / 2) ^ (1 + 1) = 1000000 * 25 := by
  refine ⟨by decide, by norm_num, by decide, by norm_num⟩

/-- What `BackOff` does on a granted attempt: for every `ExponentialBackoff` (start `s`, base
`b`, `maxAttempts = n`) and every attempt `a ≤ n`, `BackOff(a)` returns true after printing
one line and sleeping once, for the duration `s × D` computed as an `int64` product, where
`D` is the power `math.Pow(b, a + 1)` (exponent attempt + 1) converted to a `time.Duration`,
an integer number of nanoseconds, before the multiplication. With the defaults (50ms, base
2.0) the first retry, `a = 1`, sleeps 200ms. -/
theorem BackOff_delay {F : Type} (ops : FloatOps F) (e : ExponentialBackoff F) (a : Int)
    (w : Effects) (ha : a ≤ e.maxAttempts) :
    e.BackOff ops a w =
      (true,
        { stdout := w.stdout ++ ("attempt = " ++ fmtD (a + 1) ++ ", sleeping " ++
            fmtD (Int.tdiv (wrapInt64 (e.startDuration *
              ops.toInt64 (ops.powInt e.base (a + 1)))) 1000000) ++ "ms\n")
          slept := w.slept ++
            [wrapInt64 (e.startDuration * ops.toInt64 (ops.powInt e.base (a + 1)))] }) ∧
    ((DefaultExponentialBackoff (Frac.mk 2 1)).BackOff exactOps 1 w).2.slept =
      w.slept ++ [1000000 * 200] := by
  constructor
  · unfold ExponentialBackoff.BackOff
    rw [if_neg (by simpa using ha)]
    rfl
  · simp [ExponentialBackoff.BackOff, DefaultExponentialBackoff, NewExponentialBackoff,
      ExponentialBackoff.delay, exactOps, wrapInt64]

/-- The default handler at the first retry: it sleeps 200ms. -/
theorem BackOff_delay_witness :
    (1 : Int) ≤ (DefaultExponentialBackoff (Frac.mk 2 1)).maxAttempts ∧
    (DefaultExponentialBackoff (Frac.mk 2 1)).BackOff exactOps 1 (Effects.mk "" []) =
      (true, Effects.mk "attempt = 2, sleeping 200ms\n" [1000000 * 200]) :=
  ⟨by decide,
    (BackOff_delay exactOps (DefaultExponentialBackoff (Frac.mk 2 1)) 1 (Effects.mk "" [])
      (by decide)).1.trans (by decide)⟩

/-- What `handle` records: a declined consultation and nothing else, or no declined
consultation at all. -/
theorem handle_trace_declined {σ X M A : Type} (c : RertryingClient σ X M A) (attempts : Int)
    (s : σ) :
    ((c.handle attempts s).trace = [Event.backOff attempts false] ∧
      (c.handle attempts s).shouldRetry = false ∧
      (c.handle attempts s).err = some Error.ErrRetriesExhausted) ∨
    ∀ b, Event.backOff b false ∉ (c.handle attempts s).trace := by
  cases hb : (c.backoffHandler.BackOff attempts s).1
  · exact Or.inl (by simp [handle_declined c attempts s hb])
  · cases hf : (c.retryFn (c.backoffHandler.BackOff attempts s).2).1.2
    · exact Or.inr (by simp [handle_swapped c attempts s hb hf])
    · exact Or.inr (by simp [handle_failed c attempts s _ hb hf])

/-- A declined consultation ends the loop: it is the last collaborator call of the trace, and
the loop returns `ErrRetriesExhausted`. -/
theorem loop_declined {σ X M A : Type} (args : A) (fuel : Nat) :
    ∀ (c : RertryingClient σ X M A) (attempts : Int) (s : σ) (tr : List (Event X M))
      (r : CallResult σ X M A), (∀ b, Event.backOff b false ∉ tr) →
      RertryingClient.loop args fuel c attempts s tr = some r →
      (∀ b, Event.backOff b false ∉ r.trace) ∨
      ∃ pre b, r.trace = pre ++ [Event.backOff b false] ∧
        (∀ b1, Event.backOff b1 false ∉ pre) ∧ r.err = some Error.ErrRetriesExhausted := by
  induction fuel with
  | zero =>
    intro c attempts s tr r _ h
    simp [RertryingClient.loop] at h
  | succ fuel ih =>
    intro c attempts s tr r htr h
    cases hc : (c.wrappedClient.Call args s).1.2 with
    | none =>
      rw [loop_success args fuel c attempts s tr hc, Option.some.injEq] at h
      subst h
      exact Or.inl (by simpa using htr)
    | some e =>
      have hpre : ∀ (b : Bool) (b1 : Int), Event.backOff b1 false ∉
          tr ++ [Event.invoke (c.wrappedClient.Call args s).1.1 (some e),
            Event.shouldRetry e b] := by
        intro b b1
        simpa using htr b1
      cases hp : (c.shouldRetryFn e (c.wrappedClient.Call args s).2).1 with
      | false =>
        rw [loop_denied args fuel c attempts s tr e hc hp, Option.some.injEq] at h
        subst h
        exact Or.inl (hpre false)
      | true =>
        cases hh : (c.handle (attempts + 1)
            (c.shouldRetryFn e (c.wrappedClient.Call args s).2).2).shouldRetry with
        | false =>
          rw [loop_stop args fuel c attempts s tr e hc hp hh, Option.some.injEq] at h
          subst h
          rcases handle_trace_declined c (attempts + 1)
            (c.shouldRetryFn e (c.wrappedClient.Call args s).2).2 with ⟨h1, _, h3⟩ | h1
          · exact Or.inr ⟨_, attempts + 1, by rw [h1], hpre true, h3⟩
          · refine Or.inl (fun b hb => ?_)
            rcases List.mem_append.1 hb with hb | hb
            · exact hpre true b hb
            · exact h1 b hb
        | true =>
          rw [loop_continue args fuel c attempts s tr e hc hp hh] at h
          refine ih _ _ _ _ r (fun b hb => ?_) h
          rcases List.mem_append.1 hb with hb | hb
          · exact hpre true b hb
          · rcases handle_trace_declined c (attempts + 1)
              (c.shouldRetryFn e (c.wrappedClient.Call args s).2).2 with ⟨_, h2, _⟩ | h1
            · rw [hh] at h2
              cases h2
            · exact h1 b hb

/-- C11: `BackOff(a)` returns false exactly when `a > maxAttempts`, and then it leaves the
world as it was (no sleep, nothing printed), while a granted attempt sleeps once. Whenever
the backoff handler (any handler) declines, `handle` returns at once with
`ErrRetriesExhausted`, the factory not invoked; and from every state of the loop of `Call`
in which the invocation fails with a retry-worthy error and the handler declines, the loop
returns with one iteration of fuel: the error is `ErrRetriesExhausted`, the client is
unchanged and the collaborator calls are the invocation, the question to the predicate and
the declined consultation, so neither the factory nor the invoker is invoked after it. In
particular `Call` returns so when the first consultation is declined. Moreover in every
result of `Call` a declined consultation is the last collaborator call of the trace. -/
theorem BackOff_declines_iff_and_Call_gives_up {F σ X M A : Type} (ops : FloatOps F)
    (e : ExponentialBackoff F) (a : Int) (w : Effects) (c : RertryingClient σ X M A)
    (args : A) :
    ((e.BackOff ops a w).1 = false ↔ a > e.maxAttempts) ∧
    (a > e.maxAttempts → e.BackOff ops a w = (false, w)) ∧
    (a ≤ e.maxAttempts → (e.BackOff ops a w).1 = true ∧
      (e.BackOff ops a w).2.slept.length = w.slept.length + 1) ∧
    (∀ (attempts : Int) (s : σ), (c.backoffHandler.BackOff attempts s).1 = false →
      c.handle attempts s =
        { shouldRetry := false, err := some Error.ErrRetriesExhausted, client := c
          world := (c.backoffHandler.BackOff attempts s).2
          trace := [Event.backOff attempts false] }) ∧
    (∀ (fuel : Nat) (attempts : Int) (s : σ) (tr : List (Event X M)) (err : Error X),
      (c.wrappedClient.Call args s).1.2 = some err →
      (c.shouldRetryFn err (c.wrappedClient.Call args s).2).1 = true →
      (c.backoffHandler.BackOff (attempts + 1)
        (c.shouldRetryFn err (c.wrappedClient.Call args s).2).2).1 = false →
      RertryingClient.loop args (fuel + 1) c attempts s tr =
        some
          { mt := (c.wrappedClient.Call args s).1.1
            err := some Error.ErrRetriesExhausted
            client := c
            world := (c.backoffHandler.BackOff (attempts + 1)
              (c.shouldRetryFn err (c.wrappedClient.Call args s).2).2).2
            trace := tr ++ [Event.invoke (c.wrappedClient.Call args s).1.1 (some err),
              Event.shouldRetry err true, Event.backOff (attempts + 1) false] }) ∧
    (∀ (fuel : Nat) (s : σ) (err : Error X),
      (c.wrappedClient.Call args s).1.2 = some err →
      (c.shouldRetryFn err (c.wrappedClient.Call args s).2).1 = true →
      (c.backoffHandler.BackOff 1
        (c.shouldRetryFn err (c.wrappedClient.Call args s).2).2).1 = false →
      c.Call (fuel + 1) args s =
        some
          { mt := (c.wrappedClient.Call args s).1.1
            err := some Error.ErrRetriesExhausted
            client := c
            world := (c.backoffHandler.BackOff 1
              (c.shouldRetryFn err (c.wrappedClient.Call args s).2).2).2
            trace := [Event.invoke (c.wrappedClient.Call args s).1.1 (some err),
              Event.shouldRetry err true, Event.backOff 1 false] }) ∧
    (∀ (fuel : Nat) (s : σ) (r : CallResult σ X M A) (b : Int),
      c.Call fuel args s = some r → Event.backOff b false ∈ r.trace →
      r.err = some Error.ErrRetriesExhausted ∧
      ∃ pre, r.trace = pre ++ [Event.backOff b false] ∧
        ∀ b1, Event.backOff b1 false ∉ pre) := by
  have hloop : ∀ (fuel : Nat) (attempts : Int) (s : σ) (tr : List (Event X M))
      (err : Error X), (c.wrappedClient.Call args s).1.2 = some err →
      (c.shouldRetryFn err (c.wrappedClient.Call args s).2).1 = true →
      (c.backoffHandler.BackOff (attempts + 1)
        (c.shouldRetryFn err (c.wrappedClient.Call args s).2).2).1 = false →
      RertryingClient.loop args (fuel + 1) c attempts s tr =
        some
          { mt := (c.wrappedClient.Call args s).1.1
            err := some Error.ErrRetriesExhausted
            client := c
            world := (c.backoffHandler.BackOff (attempts + 1)
              (c.shouldRetryFn err (c.wrappedClient.Call args s).2).2).2
            trace := tr ++ [Event.invoke (c.wrappedClient.Call args s).1.1 (some err),
              Event.shouldRetry err true, Event.backOff (attempts + 1) false] } := by
    intro fuel attempts s tr err hc hp hd
    have hs := handle_declined c (attempts + 1) _ hd
    rw [loop_stop args fuel c attempts s tr err hc hp (by rw [hs]), hs]
    simp
  refine ⟨?_, ?_, ?_, fun attempts s hd => handle_declined c attempts s hd, hloop, ?_, ?_⟩
  · rw [BackOff_fst]
    simp
  · intro ha
    simp [ExponentialBackoff.BackOff, ha]
  · intro ha
    refine ⟨by rw [BackOff_fst]; simpa using ha, ?_⟩
    unfold ExponentialBackoff.BackOff
    rw [if_neg (by simpa using ha)]
    simp
  · intro fuel s err hc hp hd
    have h := hloop fuel 0 s [] err hc hp (by simpa using hd)
    simpa [RertryingClient.Call] using h
  · intro fuel s r b h hd
    rcases loop_declined args fuel c 0 s [] r (by simp) h with h1 | ⟨pre, b2, h1, h2, h3⟩
    · exact absurd hd (h1 b)
    · refine ⟨h3, pre, ?_, h2⟩
      rw [h1] at hd
      rcases List.mem_append.1 hd with hd | hd
      · exact absurd hd (h2 b)
      · simp only [List.mem_singleton, Event.backOff.injEq, and_true] at hd
        rw [h1, hd]

/-- An instance of C11: the handler of `alwaysFailingClient 0` declines the first attempt, and
the call returns `ErrRetriesExhausted` after one invocation and no factory call. -/
theorem BackOff_declines_iff_and_Call_gives_up_witness :
    ((alwaysFailingClient 0).wrappedClient.Call () ((), Effects.mk "" [])).1.2 =
      some (Error.other "reset") ∧
    ((alwaysFailingClient 0).Call 1 () ((), Effects.mk "" [])).map
        (fun r => (r.mt, r.err, r.trace, r.world)) =
      some (0, some Error.ErrRetriesExhausted,
        [Event.invoke 0 (some (Error.other "reset")),
          Event.shouldRetry (Error.other "reset") true, Event.backOff 1 false],
        ((), Effects.mk "" [])) :=
  ⟨rfl, by
    rw [(BackOff_declines_iff_and_Call_gives_up exactOps
      (DefaultExponentialBackoff (Frac.mk 2 1)) 17 (Effects.mk "" []) (alwaysFailingClient 0)
      ()).2.2.2.2.2.1 0 ((), Effects.mk "" []) (Error.other "reset") rfl rfl (by decide)]
    rfl⟩

/-- A `push` whose item renders returns a tracer over the same wrapped protocol state. -/
theorem push_next {P : Type} (fmt : Fmt) (l : LoggingProtocol P) (item : thriftItem)
    (h : (renderItem fmt item).isSome = true) :
    ∃ l1, l.push fmt item = some l1 ∧ l1.next = l.next := by
  cases hpush : l.push fmt item with
  | none =>
    obtain ⟨x, hx⟩ := Option.isSome_iff_exists.1 h
    simp [LoggingProtocol.push, hx] at hpush
  | some l1 => exact ⟨l1, rfl, (push_frame fmt l l1 item hpush).1⟩

/-- Every item the calls other than the two byte calls hand to `push` renders. -/
theorem renderItem_isSome (fmt : Fmt) (name : String) :
    (renderItem fmt { thriftType := .MESSAGE, name := name }).isSome = true ∧
    (renderItem fmt { thriftType := .STRUCT, name := name }).isSome = true ∧
    (renderItem fmt { thriftType := .FIELD, name := name }).isSome = true := by
  refine ⟨?_, ?_, rfl⟩ <;> (simp only [renderItem]; split <;> rfl)

/-- The tracer is transparent on every call but `WriteByte` and `ReadByte`: it returns what the
wrapped protocol returns, and the wrapped protocol has made exactly that call; on the two
byte calls it panics. -/
theorem call_eq {P E T : Type} (p : TProtocol P E T) (fmt : Fmt)
    (ctx : Context) (l : LoggingProtocol P) (op : Op) :
    (l.call p fmt ctx op).map (fun r => (r.1, r.2.next)) =
      if op.isByte then none else some (p.call ctx op l.next) := by
  cases op
  case WriteByte v =>
    simp [LoggingProtocol.call, Op.isByte, LoggingProtocol.WriteByte, LoggingProtocol.push,
      renderItem]
  case ReadByte =>
    simp [LoggingProtocol.call, Op.isByte, LoggingProtocol.ReadByte, LoggingProtocol.push,
      renderItem]
  case WriteMessageBegin name typeId seqid =>
    obtain ⟨l1, h1, h2⟩ := push_next fmt l { thriftType := .MESSAGE, name := name } (renderItem_isSome fmt name).1
    simp [LoggingProtocol.call, LoggingProtocol.WriteMessageBegin, TProtocol.call, Op.isByte, h1, h2]
  case WriteStructBegin name =>
    obtain ⟨l1, h1, h2⟩ := push_next fmt l { thriftType := .STRUCT, name := name } (renderItem_isSome fmt name).2.1
    simp [LoggingProtocol.call, LoggingProtocol.WriteStructBegin, TProtocol.call, Op.isByte, h1, h2]
  case WriteFieldBegin name typeId id =>
    obtain ⟨l1, h1, h2⟩ := push_next fmt l { thriftType := .FIELD, name := name } rfl
    simp [LoggingProtocol.call, LoggingProtocol.WriteFieldBegin, TProtocol.call, Op.isByte, h1, h2]
  case WriteMapBegin keyType valueType size =>
    obtain ⟨l1, h1, h2⟩ := push_next fmt l { thriftType := .MAP } rfl
    simp [LoggingProtocol.call, LoggingProtocol.WriteMapBegin, TProtocol.call, Op.isByte, h1, h2]
  case WriteListBegin elemType size =>
    obtain ⟨l1, h1, h2⟩ := push_next fmt l { thriftType := .LIST } rfl
    simp [LoggingProtocol.call, LoggingProtocol.WriteListBegin, TProtocol.call, Op.isByte, h1, h2]
  case WriteSetBegin elemType size =>
    obtain ⟨l1, h1, h2⟩ := push_next fmt l { thriftType := .SET } rfl
    simp [LoggingProtocol.call, LoggingProtocol.WriteSetBegin, TProtocol.call, Op.isByte, h1, h2]
  case WriteBool value =>
    obtain ⟨l1, h1, h2⟩ := push_next fmt l { thriftType := .BOOL, value := .bool value } rfl
    simp [LoggingProtocol.call, LoggingProtocol.WriteBool, TProtocol.call, Op.isByte, h1, h2]
  case WriteI16 value =>
    obtain ⟨l1, h1, h2⟩ := push_next fmt l { thriftType := .I16, value := .int16 value } rfl
    simp [LoggingProtocol.call, LoggingProtocol.WriteI16, TProtocol.call, Op.isByte, h1, h2]
  case WriteI32 value =>
    obtain ⟨l1, h1, h2⟩ := push_next fmt l { thriftType := .I32, value := .int32 value } rfl
    simp [LoggingProtocol.call, LoggingProtocol.WriteI32, TProtocol.call, Op.isByte, h1, h2]
  case WriteI64 value =>
    obtain ⟨l1, h1, h2⟩ := push_next fmt l { thriftType := .I64, value := .int64 value } rfl
    simp [LoggingProtocol.call, LoggingProtocol.WriteI64, TProtocol.call, Op.isByte, h1, h2]
  case WriteDouble value =>
    obtain ⟨l1, h1, h2⟩ := push_next fmt l { thriftType := .DOUBLE, value := .float64 value } rfl
    simp [LoggingProtocol.call, LoggingProtocol.WriteDouble, TProtocol.call, Op.isByte, h1, h2]
  case WriteString value =>
    obtain ⟨l1, h1, h2⟩ := push_next fmt l { thriftType := .STRING, value := .string value } rfl
    simp [LoggingProtocol.call, LoggingProtocol.WriteString, TProtocol.call, Op.isByte, h1, h2]
  case WriteBinary value =>
    obtain ⟨l1, h1, h2⟩ := push_next fmt l { thriftType := .BINARY, value := .bytes value } rfl
    simp [LoggingProtocol.call, LoggingProtocol.WriteBinary, TProtocol.call, Op.isByte, h1, h2]
  case WriteUUID value =>
    obtain ⟨l1, h1, h2⟩ := push_next fmt l { thriftType := .UUID, value := .tuuid value } rfl
    simp [LoggingProtocol.call, LoggingProtocol.WriteUUID, TProtocol.call, Op.isByte, h1, h2]
  case ReadMessageBegin =>
    obtain ⟨l1, h1, h2⟩ := push_next fmt
      { l with next := (p.ReadMessageBegin ctx l.next).2 }
      { thriftType := .MESSAGE, name := (p.ReadMessageBegin ctx l.next).1.1.1 } (renderItem_isSome fmt _).1
    simp only [] at h2
    simp [LoggingProtocol.call, LoggingProtocol.ReadMessageBegin, TProtocol.call, Op.isByte, h1, h2]
  case ReadStructBegin =>
    obtain ⟨l1, h1, h2⟩ := push_next fmt
      { l with next := (p.ReadStructBegin ctx l.next).2 }
      { thriftType := .STRUCT, name := (p.ReadStructBegin ctx l.next).1.1 } (renderItem_isSome fmt _).2.1
    simp only [] at h2
    simp [LoggingProtocol.call, LoggingProtocol.ReadStructBegin, TProtocol.call, Op.isByte, h1, h2]
  case ReadMapBegin =>
    obtain ⟨l1, h1, h2⟩ := push_next fmt
      { l with next := (p.ReadMapBegin ctx l.next).2 }
      { thriftType := .MAP } rfl
    simp only [] at h2
    simp [LoggingProtocol.call, LoggingProtocol.ReadMapBegin, TProtocol.call, Op.isByte, h1, h2]
  case ReadListBegin =>
    obtain ⟨l1, h1, h2⟩ := push_next fmt
      { l with next := (p.ReadListBegin ctx l.next).2 }
      { thriftType := .LIST } rfl
    simp only [] at h2
    simp [LoggingProtocol.call, LoggingProtocol.ReadListBegin, TProtocol.call, Op.isByte, h1, h2]
  case ReadSetBegin =>
    obtain ⟨l1, h1, h2⟩ := push_next fmt
      { l with next := (p.ReadSetBegin ctx l.next).2 }
      { thriftType := .SET } rfl
    simp only [] at h2
    simp [LoggingProtocol.call, LoggingProtocol.ReadSetBegin, TProtocol.call, Op.isByte, h1, h2]
  case ReadBool =>
    obtain ⟨l1, h1, h2⟩ := push_next fmt
      { l with next := (p.ReadBool ctx l.next).2 }
      { thriftType := .BOOL, value := .bool (p.ReadBool ctx l.next).1.1 } rfl
    simp only [] at h2
    simp [LoggingProtocol.call, LoggingProtocol.ReadBool, TProtocol.call, Op.isByte, h1, h2]
  case ReadI16 =>
    obtain ⟨l1, h1, h2⟩ := push_next fmt
      { l with next := (p.ReadI16 ctx l.next).2 }
      { thriftType := .I16, value := .int16 (p.ReadI16 ctx l.next).1.1 } rfl
    simp only [] at h2
    simp [LoggingProtocol.call, LoggingProtocol.ReadI16, TProtocol.call, Op.isByte, h1, h2]
  case ReadI32 =>
    obtain ⟨l1, h1, h2⟩ := push_next fmt
      { l with next := (p.ReadI32 ctx l.next).2 }
      { thriftType := .I32, value := .int32 (p.ReadI32 ctx l.next).1.1 } rfl
    simp only [] at h2
    simp [LoggingProtocol.call, LoggingProtocol.ReadI32, TProtocol.call, Op.isByte, h1, h2]
  case ReadI64 =>
    obtain ⟨l1, h1, h2⟩ := push_next fmt
      { l with next := (p.ReadI64 ctx l.next).2 }
      { thriftType := .I64, value := .int64 (p.ReadI64 ctx l.next).1.1 } rfl
    simp only [] at h2
    simp [LoggingProtocol.call, LoggingProtocol.ReadI64, TProtocol.call, Op.isByte, h1, h2]
  case ReadDouble =>
    obtain ⟨l1, h1, h2⟩ := push_next fmt
      { l with next := (p.ReadDouble ctx l.next).2 }
      { thriftType := .DOUBLE, value := .float64 (p.ReadDouble ctx l.next).1.1 } rfl
    simp only [] at h2
    simp [LoggingProtocol.call, LoggingProtocol.ReadDouble, TProtocol.call, Op.isByte, h1, h2]
  case ReadString =>
    obtain ⟨l1, h1, h2⟩ := push_next fmt
      { l with next := (p.ReadString ctx l.next).2 }
      { thriftType := .STRING, value := .string (p.ReadString ctx l.next).1.1 } rfl
    simp only [] at h2
    simp [LoggingProtocol.call, LoggingProtocol.ReadString, TProtocol.call, Op.isByte, h1, h2]
  case ReadBinary =>
    obtain ⟨l1, h1, h2⟩ := push_next fmt
      { l with next := (p.ReadBinary ctx l.next).2 }
      { thriftType := .BINARY, value := .bytes (p.ReadBinary ctx l.next).1.1 } rfl
    simp only [] at h2
    simp [LoggingProtocol.call, LoggingProtocol.ReadBinary, TProtocol.call, Op.isByte, h1, h2]
  case ReadUUID =>
    obtain ⟨l1, h1, h2⟩ := push_next fmt
      { l with next := (p.ReadUUID ctx l.next).2 }
      { thriftType := .UUID, value := .tuuid (p.ReadUUID ctx l.next).1.1 } rfl
    simp only [] at h2
    simp [LoggingProtocol.call, LoggingProtocol.ReadUUID, TProtocol.call, Op.isByte, h1, h2]
  all_goals simp [LoggingProtocol.call, TProtocol.call, Op.isByte, LoggingProtocol.WriteMessageEnd,
    LoggingProtocol.WriteStructEnd, LoggingProtocol.WriteFieldEnd, LoggingProtocol.WriteFieldStop,
    LoggingProtocol.WriteMapEnd, LoggingProtocol.WriteListEnd, LoggingProtocol.WriteSetEnd,
    LoggingProtocol.ReadMessageEnd, LoggingProtocol.ReadStructEnd, LoggingProtocol.ReadFieldBegin,
    LoggingProtocol.ReadFieldEnd, LoggingProtocol.ReadMapEnd, LoggingProtocol.ReadListEnd,
    LoggingProtocol.ReadSetEnd, LoggingProtocol.Skip, LoggingProtocol.Flush, (pop_frame l).1]

/-- A sequence of calls without `WriteByte` and `ReadByte` returns through the tracer what it
returns on the bare protocol, and leaves the wrapped protocol in the same state. -/
theorem callAll_transparent {P E T : Type} (p : TProtocol P E T) (fmt : Fmt)
    (ops : List (Context × Op)) (hops : ∀ x ∈ ops, x.2.isByte = false) :
    ∀ l : LoggingProtocol P, (l.callAll p fmt ops).map (fun r => (r.1, r.2.next)) =
      some (p.callAll ops l.next) := by
  induction ops with
  | nil =>
    intro l
    rfl
  | cons x ops ih =>
    intro l
    obtain ⟨ctx, op⟩ := x
    have h1 := call_eq p fmt ctx l op
    rw [hops (ctx, op) (List.mem_cons_self _ _)] at h1
    cases hc : l.call p fmt ctx op with
    | none => simp [hc] at h1
    | some r =>
      rw [hc] at h1
      simp only [Option.map_some', Bool.false_eq_true, if_false, Option.some.injEq] at h1
      have h2 := ih (fun y hy => hops y (List.mem_cons_of_mem _ hy)) r.2
      cases hr : LoggingProtocol.callAll p fmt ops r.2 with
      | none => simp [hr] at h2
      | some rest =>
        rw [hr] at h2
        simp only [Option.map_some', Option.some.injEq] at h2
        simp only [LoggingProtocol.callAll, hc, hr, TProtocol.callAll, Option.map_some',
          Option.some.injEq]
        rw [← h1, ← h2]

/-- C12: on every tracer state and every call of the protocol surface except `WriteByte` and
`ReadByte`, the tracer returns exactly the values and error of the wrapped protocol, whose
state afterwards is that of making the same call once with the same arguments; `Transport`
is the wrapped protocol's transport. On `WriteByte` and `ReadByte` the tracer panics: on a
fresh tracer `WriteByte(0)` returns nothing, while the bare protocol returns its nil error. -/
theorem tracer_transparent_except_byte {P E T : Type} (p : TProtocol P E T) (fmt : Fmt)
    (ctx : Context) (l : LoggingProtocol P) (op : Op) :
    (l.call p fmt ctx op).map (fun r => (r.1, r.2.next)) =
      (if op.isByte then none else some (p.call ctx op l.next)) ∧
    l.Transport p = p.Transport l.next ∧
    ((NewLoggingProtocol ()).call (testProtocol "" none) testFmt (Context.mk 0)
        (Op.WriteByte 0)).map (fun r => (r.1, r.2.next)) = none ∧
    (testProtocol "" none).call (Context.mk 0) (Op.WriteByte 0) () = (([], none), ()) :=
  ⟨call_eq p fmt ctx l op, rfl, by decide, by decide⟩

/-! ## Theorems: rendering -/

theorem writeLn_w {P : Type} (l : LoggingProtocol P) (msg : String) (h : l.indent = true) :
    (l.writeLn msg).w = l.w ++ tabs l.stack.length ++ (msg ++ "\n") := by
  simp [LoggingProtocol.writeLn, write_w l _ h]

/-- A `push` of an item that renders as a line: the line is appended after the indentation
of the current depth, and the kind is pushed if it is a parent kind. -/
theorem push_line {P : Type} (fmt : Fmt) (l : LoggingProtocol P) (item : thriftItem)
    (msg : String) (hr : renderItem fmt item = some (msg, true)) (hi : l.indent = true) :
    l.push fmt item =
      some { next := l.next, w := l.w ++ tabs l.stack.length ++ (msg ++ "\n"), indent := true
             stack := if item.thriftType.isParent then l.stack ++ [item.thriftType]
               else l.stack } := by
  have h1 := writeLn_frame l msg
  have h2 := writeLn_w l msg hi
  simp only [LoggingProtocol.push, hr, if_true, Option.some.injEq]
  generalize l.writeLn msg = l1 at h1 h2
  cases l1
  simp only at h1 h2
  split <;> simp [h1, h2, hi]

/-- A `pop` with a frame of kind `k` on top of the stack: the frame is removed, and the
closing token of a composite kind is appended as a line at the depth below it. -/
theorem pop_top {P : Type} (l : LoggingProtocol P) (st : List thriftType) (k : thriftType)
    (hs : l.stack = st ++ [k]) (hi : l.indent = true) :
    l.pop =
      { next := l.next
        w := if k.isComposite then l.w ++ tabs st.length ++ (closeText k ++ "\n") else l.w
        indent := true, stack := st } := by
  cases l with
  | mk nx w ind stk =>
    simp only at hs hi
    subst hs hi
    cases k <;>
      simp [LoggingProtocol.pop, LoggingProtocol.writeLn, LoggingProtocol.write,
        LoggingProtocol.indentWriter, thriftType.isComposite, closeText, String.append_assoc]

theorem renderItem_composite (fmt : Fmt) (k : thriftType) (name : String)
    (hk : k.isComposite = true) :
    renderItem fmt { thriftType := k, name := name } = some (openText k name, true) := by
  cases k <;> simp [thriftType.isComposite] at hk <;> simp only [renderItem, openText] <;>
    split <;> rfl

/-- A composite begin, in either direction: the opening line is appended at the current depth
and a frame of the kind is pushed. -/
theorem step_begin {P E T : Type} (p : TProtocol P E T) (fmt : Fmt) (ctx : Context)
    (l : LoggingProtocol P) (op : Op) (k : thriftType) (hk : op.opens = some k)
    (hi : l.indent = true) :
    l.step p fmt ctx op =
      some { next := (p.call ctx op l.next).2
             w := l.w ++ tabs l.stack.length ++ (openText k (op.beginName p ctx l.next) ++ "\n")
             indent := true, stack := l.stack ++ [k] } := by
  cases op <;> simp only [Op.opens, Option.some.injEq, reduceCtorEq] at hk <;> subst hk
  case WriteMessageBegin name typeId seqid =>
    simp [LoggingProtocol.step, LoggingProtocol.WriteMessageBegin, TProtocol.call, Op.beginName,
      push_line fmt l _ _ (renderItem_composite fmt .MESSAGE name rfl) hi, thriftType.isParent]
  case WriteStructBegin name =>
    simp [LoggingProtocol.step, LoggingProtocol.WriteStructBegin, TProtocol.call, Op.beginName,
      push_line fmt l _ _ (renderItem_composite fmt .STRUCT name rfl) hi, thriftType.isParent]
  case WriteMapBegin keyType valueType size =>
    simp [LoggingProtocol.step, LoggingProtocol.WriteMapBegin, TProtocol.call, Op.beginName,
      push_line fmt l _ _ (renderItem_composite fmt .MAP "" rfl) hi, thriftType.isParent]
  case WriteListBegin elemType size =>
    simp [LoggingProtocol.step, LoggingProtocol.WriteListBegin, TProtocol.call, Op.beginName,
      push_line fmt l _ _ (renderItem_composite fmt .LIST "" rfl) hi, thriftType.isParent]
  case WriteSetBegin elemType size =>
    simp [LoggingProtocol.step, LoggingProtocol.WriteSetBegin, TProtocol.call, Op.beginName,
      push_line fmt l _ _ (renderItem_composite fmt .SET "" rfl) hi, thriftType.isParent]
  case ReadMessageBegin =>
    simp [LoggingProtocol.step, LoggingProtocol.ReadMessageBegin, TProtocol.call, Op.beginName,
      push_line fmt { l with next := (p.ReadMessageBegin ctx l.next).2 } _ _
        (renderItem_composite fmt .MESSAGE (p.ReadMessageBegin ctx l.next).1.1.1 rfl) hi,
      thriftType.isParent]
  case ReadStructBegin =>
    simp [LoggingProtocol.step, LoggingProtocol.ReadStructBegin, TProtocol.call, Op.beginName,
      push_line fmt { l with next := (p.ReadStructBegin ctx l.next).2 } _ _
        (renderItem_composite fmt .STRUCT (p.ReadStructBegin ctx l.next).1.1 rfl) hi,
      thriftType.isParent]
  case ReadMapBegin =>
    simp [LoggingProtocol.step, LoggingProtocol.ReadMapBegin, TProtocol.call, Op.beginName,
      push_line fmt { l with next := (p.ReadMapBegin ctx l.next).2 } _ _
        (renderItem_composite fmt .MAP "" rfl) hi,
      thriftType.isParent]
  case ReadListBegin =>
    simp [LoggingProtocol.step, LoggingProtocol.ReadListBegin, TProtocol.call, Op.beginName,
      push_line fmt { l with next := (p.ReadListBegin ctx l.next).2 } _ _
        (renderItem_composite fmt .LIST "" rfl) hi,
      thriftType.isParent]
  case ReadSetBegin =>
    simp [LoggingProtocol.step, LoggingProtocol.ReadSetBegin, TProtocol.call, Op.beginName,
      push_line fmt { l with next := (p.ReadSetBegin ctx l.next).2 } _ _
        (renderItem_composite fmt .SET "" rfl) hi,
      thriftType.isParent]

/-- A composite end, in either direction, with a frame of its kind on top of the stack: the
frame is popped and the closing line is appended at the depth below it. -/
theorem step_end {P E T : Type} (p : TProtocol P E T) (fmt : Fmt) (ctx : Context)
    (l : LoggingProtocol P) (op : Op) (k : thriftType) (st : List thriftType)
    (hk : op.closes = some k) (hs : l.stack = st ++ [k]) (hi : l.indent = true) :
    l.step p fmt ctx op =
      some { next := (p.call ctx op l.next).2
             w := l.w ++ tabs st.length ++ (closeText k ++ "\n")
             indent := true, stack := st } := by
  cases op <;> simp only [Op.closes, Option.some.injEq, reduceCtorEq] at hk <;> subst hk <;>
    simp [LoggingProtocol.step, LoggingProtocol.WriteMessageEnd, LoggingProtocol.WriteStructEnd,
      LoggingProtocol.WriteMapEnd, LoggingProtocol.WriteListEnd, LoggingProtocol.WriteSetEnd,
      LoggingProtocol.ReadMessageEnd, LoggingProtocol.ReadStructEnd, LoggingProtocol.ReadMapEnd,
      LoggingProtocol.ReadListEnd, LoggingProtocol.ReadSetEnd, TProtocol.call,
      pop_top l st _ hs hi, thriftType.isComposite]

/-- The indentation of depth `n` is `2 * n` spaces. -/
theorem tabs_data (n : Nat) : (tabs n).data = List.replicate (2 * n) ' ' := by
  induction n with
  | zero => rfl
  | succ n ih =>
    rw [tabs, String.data_append, ih]
    have h : 2 * (n + 1) = 2 * n + 2 := by ring
    rw [h, List.replicate_add]
    rfl

theorem tabs_eq (n : Nat) : tabs n = String.mk (List.replicate (2 * n) ' ') :=
  String.ext (tabs_data n)

/-- The tracer renders a well-nested sequence of composite begins and ends as the
specification's lines, from any state with `indent` set. -/
theorem run_nested {P E T : Type} (p : TProtocol P E T) (fmt : Fmt)
    (ops : List (Context × Op)) :
    ∀ (l : LoggingProtocol P) (toks : List (Nat × String)) (st : List thriftType),
      l.indent = true → nestedTokens p ops l.stack l.next = some (toks, st) →
      ∃ l1, LoggingProtocol.run p fmt ops l = some l1 ∧ l1.stack = st ∧
        l1.w = l.w ++ joinLines (toks.map renderLine) ∧ toks.length = ops.length := by
  induction ops with
  | nil =>
    intro l toks st _ h
    simp only [nestedTokens, Option.some.injEq, Prod.mk.injEq] at h
    obtain ⟨rfl, rfl⟩ := h
    exact ⟨l, rfl, rfl, by simp [joinLines], rfl⟩
  | cons x ops ih =>
    intro l toks st hi h
    obtain ⟨ctx, op⟩ := x
    simp only [nestedTokens] at h
    cases ho : op.opens with
    | some k =>
      simp only [ho, Option.map_eq_some'] at h
      obtain ⟨r, hr, hl⟩ := h
      obtain ⟨l1, h1, h2, h3, h4⟩ := ih
        { next := (p.call ctx op l.next).2
          w := l.w ++ tabs l.stack.length ++ (openText k (op.beginName p ctx l.next) ++ "\n")
          indent := true, stack := l.stack ++ [k] } r.1 r.2 rfl hr
      simp only [Prod.mk.injEq] at hl
      obtain ⟨rfl, rfl⟩ := hl
      refine ⟨l1, ?_, h2, ?_, by simp [h4]⟩
      · simp only [LoggingProtocol.run, step_begin p fmt ctx l op k ho hi]
        exact h1
      · rw [h3]
        simp [joinLines, renderLine, tabs_eq, String.append_assoc]
    | none =>
      simp only [ho] at h
      cases hc : op.closes with
      | none => simp [hc] at h
      | some k =>
        simp only [hc] at h
        split at h
        · rename_i hlast
          have hs : l.stack = l.stack.dropLast ++ [k] := by
            rcases List.eq_nil_or_concat l.stack with hnil | ⟨st0, x0, hx⟩
            · simp [hnil] at hlast
            · rw [hx] at hlast ⊢
              simp at hlast
              subst hlast
              simp
          simp only [Option.map_eq_some'] at h
          obtain ⟨r, hr, hl⟩ := h
          obtain ⟨l1, h1, h2, h3, h4⟩ := ih
            { next := (p.call ctx op l.next).2
              w := l.w ++ tabs l.stack.dropLast.length ++ (closeText k ++ "\n")
              indent := true, stack := l.stack.dropLast } r.1 r.2 rfl hr
          simp only [Prod.mk.injEq] at hl
          obtain ⟨rfl, rfl⟩ := hl
          refine ⟨l1, ?_, h2, ?_, by simp [h4]⟩
          · simp only [LoggingProtocol.run, step_end p fmt ctx l op k _ hc hs hi]
            exact h1
          · rw [h3]
            simp [joinLines, renderLine, tabs_eq, String.append_assoc]
        · simp at h

theorem opens_isComposite (op : Op) (k : thriftType) (h : op.opens = some k) :
    k.isComposite = true := by
  cases op <;> simp only [Op.opens, Option.some.injEq, reduceCtorEq] at h <;> subst h <;> rfl

theorem closes_isComposite (op : Op) (k : thriftType) (h : op.closes = some k) :
    k.isComposite = true := by
  cases op <;> simp only [Op.closes, Option.some.injEq, reduceCtorEq] at h <;> subst h <;> rfl

/-- The opening token of a composite kind is not empty, does not start with a space, and holds
no newline when the name holds none. -/
theorem openText_token (k : thriftType) (name : String) (hk : k.isComposite = true)
    (hn : '\n' ∉ name.data) :
    '\n' ∉ (openText k name).data ∧ (openText k name).data.head? ≠ some ' ' ∧
      (openText k name).data ≠ [] := by
  cases k <;> simp [thriftType.isComposite] at hk
  case MAP =>
    simp only [openText]
    decide
  case LIST =>
    simp only [openText]
    decide
  case SET =>
    simp only [openText]
    decide
  case MESSAGE =>
    simp only [openText]
    split
    · decide
    · have h1 : ("message (name='" ++ name ++ "') \x7b").data =
          'm' :: ("essage (name='".data ++ name.data ++ "') \x7b".data) := by
        simp only [String.data_append]
        rfl
      rw [h1]
      refine ⟨?_, by simp, by simp⟩
      simp only [List.mem_cons, List.mem_append, not_or]
      exact ⟨by decide, ⟨by decide, hn⟩, by decide⟩
  case STRUCT =>
    simp only [openText]
    split
    · decide
    · have h1 : ("struct (name='" ++ name ++ "') \x7b").data =
          's' :: ("truct (name='".data ++ name.data ++ "') \x7b".data) := by
        simp only [String.data_append]
        rfl
      rw [h1]
      refine ⟨?_, by simp, by simp⟩
      simp only [List.mem_cons, List.mem_append, not_or]
      exact ⟨by decide, ⟨by decide, hn⟩, by decide⟩

/-- The closing token of a composite kind is not empty and holds neither a space nor a
newline. -/
theorem closeText_token (k : thriftType) (hk : k.isComposite = true) :
    '\n' ∉ (closeText k).data ∧ (closeText k).data.head? ≠ some ' ' ∧
      (closeText k).data ≠ [] := by
  cases k <;> simp [thriftType.isComposite] at hk <;> decide

/-- The tokens of a well-nested sequence whose names hold no newline: none is empty, none
starts with a space, none holds a newline. -/
theorem nestedTokens_tokens {P E T : Type} (p : TProtocol P E T) (ops : List (Context × Op)) :
    ∀ (st st1 : List thriftType) (s : P) (toks : List (Nat × String)),
      nestedTokens p ops st s = some (toks, st1) →
      (∀ n ∈ beginNames p ops s, '\n' ∉ n.data) →
      ∀ dt ∈ toks, '\n' ∉ dt.2.data ∧ dt.2.data.head? ≠ some ' ' ∧ dt.2.data ≠ [] := by
  induction ops with
  | nil =>
    intro st st1 s toks h _ dt hdt
    simp only [nestedTokens, Option.some.injEq, Prod.mk.injEq] at h
    rw [← h.1] at hdt
    cases hdt
  | cons x ops ih =>
    intro st st1 s toks h hn dt hdt
    obtain ⟨ctx, op⟩ := x
    have hn0 : '\n' ∉ (op.beginName p ctx s).data :=
      hn _ (by simp [beginNames])
    have hn1 : ∀ n ∈ beginNames p ops (p.call ctx op s).2, '\n' ∉ n.data :=
      fun n hmem => hn n (by simp [beginNames, hmem])
    simp only [nestedTokens] at h
    cases ho : op.opens with
    | some k =>
      simp only [ho, Option.map_eq_some'] at h
      obtain ⟨r, hr, hl⟩ := h
      simp only [Prod.mk.injEq] at hl
      obtain ⟨rfl, rfl⟩ := hl
      rcases List.mem_cons.1 hdt with rfl | hdt
      · exact openText_token k _ (opens_isComposite op k ho) hn0
      · exact ih _ _ _ _ hr hn1 dt hdt
    | none =>
      simp only [ho] at h
      cases hc : op.closes with
      | none => simp [hc] at h
      | some k =>
        simp only [hc] at h
        split at h
        · simp only [Option.map_eq_some'] at h
          obtain ⟨r, hr, hl⟩ := h
          simp only [Prod.mk.injEq] at hl
          obtain ⟨rfl, rfl⟩ := hl
          rcases List.mem_cons.1 hdt with rfl | hdt
          · exact closeText_token k (closes_isComposite op k hc)
          · exact ih _ _ _ _ hr hn1 dt hdt
        · simp at h

/-- C15, the failing instance: a message whose name holds a newline is begun and ended on a
fresh tracer; the two calls render three lines (the buffer holds three newlines), the second
of which is not indented text of the tracer but the rest of the name. -/
theorem newline_in_name_renders_two_lines :
    (LoggingProtocol.run (testProtocol "" none) testFmt
        [(Context.mk 0, Op.WriteMessageBegin "a\nb" 1 7), (Context.mk 0, Op.WriteMessageEnd)]
        (NewLoggingProtocol ())).map (fun l => (l.w, l.stack, l.w.data.count '\n')) =
      some ("message (name='a\nb') \x7b\n\x7d\n", [], 3) := by
  decide

/-- C15, amended: for every well-nested sequence of composite begin/end calls (message,
struct, map, list, set; in either direction) issued on a freshly constructed tracer, whose
message and struct names hold no newline, the run succeeds, the nesting stack is empty
afterwards, and the buffer is the concatenation of one line per call. The line of a call is
`2 * d` spaces, its token and a newline, where `d` is the number of composites open when the
call is made (the one being opened or closed not counted) and the token, which is not empty,
does not start with a space and holds no newline, is the opening render of the kind for a
begin and the closing token of the kind being closed for an end. -/
theorem nested_sequence_rendering {P E T : Type} (p : TProtocol P E T) (fmt : Fmt) (wraps : P)
    (ops : List (Context × Op)) (toks : List (Nat × String))
    (h : nestedTokens p ops [] wraps = some (toks, []))
    (hn : ∀ n ∈ beginNames p ops wraps, '\n' ∉ n.data) :
    ∃ l, LoggingProtocol.run p fmt ops (NewLoggingProtocol wraps) = some l ∧ l.stack = [] ∧
      l.w = joinLines (toks.map renderLine) ∧ toks.length = ops.length ∧
      ∀ dt ∈ toks,
        (renderLine dt).data = List.replicate (2 * dt.1) ' ' ++ dt.2.data ++ ['\n'] ∧
        '\n' ∉ dt.2.data ∧ dt.2.data.head? ≠ some ' ' ∧ dt.2.data ≠ [] ∧
        (renderLine dt).data.count '\n' = 1 := by
  obtain ⟨l, h1, h2, h3, h4⟩ := run_nested p fmt ops (NewLoggingProtocol wraps) toks [] rfl h
  refine ⟨l, h1, h2, ?_, h4, fun dt hdt => ?_⟩
  · rw [h3]
    simp [NewLoggingProtocol]
  · obtain ⟨k1, k2, k3⟩ := nestedTokens_tokens p ops [] [] wraps toks h hn dt hdt
    have hd : (renderLine dt).data = List.replicate (2 * dt.1) ' ' ++ dt.2.data ++ ['\n'] := by
      simp [renderLine, String.data_append]
    refine ⟨hd, k1, k2, k3, ?_⟩
    rw [hd, List.count_append, List.count_append, List.count_eq_zero_of_not_mem k1,
      List.count_replicate]
    simp

/-- An instance of the amended C15: a message with a struct holding a list, written and
read. -/
theorem nested_sequence_rendering_witness :
    (nestedTokens (testProtocol "x" none)
        [(Context.mk 0, Op.WriteMessageBegin "ping" 1 7), (Context.mk 0, Op.WriteStructBegin ""),
          (Context.mk 0, Op.ReadListBegin), (Context.mk 0, Op.ReadListEnd),
          (Context.mk 0, Op.WriteStructEnd), (Context.mk 0, Op.WriteMessageEnd)] [] () =
      some ([(0, "message (name='ping') \x7b"), (1, "struct \x7b"), (2, "list ["), (2, "]"),
        (1, "\x7d"), (0, "\x7d")], []) ∧
      ∀ n ∈ beginNames (testProtocol "x" none)
        [(Context.mk 0, Op.WriteMessageBegin "ping" 1 7), (Context.mk 0, Op.WriteStructBegin ""),
          (Context.mk 0, Op.ReadListBegin), (Context.mk 0, Op.ReadListEnd),
          (Context.mk 0, Op.WriteStructEnd), (Context.mk 0, Op.WriteMessageEnd)] (),
        '\n' ∉ n.data) ∧
    ∃ l, LoggingProtocol.run (testProtocol "x" none) testFmt
        [(Context.mk 0, Op.WriteMessageBegin "ping" 1 7), (Context.mk 0, Op.WriteStructBegin ""),
          (Context.mk 0, Op.ReadListBegin), (Context.mk 0, Op.ReadListEnd),
          (Context.mk 0, Op.WriteStructEnd), (Context.mk 0, Op.WriteMessageEnd)]
        (NewLoggingProtocol ()) = some l ∧ l.stack = [] ∧
      l.w = "message (name='ping') \x7b\n  struct \x7b\n    list [\n    ]\n  \x7d\n\x7d\n" :=
  ⟨⟨by decide, by decide⟩,
    (nested_sequence_rendering (testProtocol "x" none) testFmt ()
      [(Context.mk 0, Op.WriteMessageBegin "ping" 1 7), (Context.mk 0, Op.WriteStructBegin ""),
        (Context.mk 0, Op.ReadListBegin), (Context.mk 0, Op.ReadListEnd),
        (Context.mk 0, Op.WriteStructEnd), (Context.mk 0, Op.WriteMessageEnd)]
      [(0, "message (name='ping') \x7b"), (1, "struct \x7b"), (2, "list ["), (2, "]"),
        (1, "\x7d"), (0, "\x7d")] (by decide) (by decide)).imp
      (fun l hl => ⟨hl.1, hl.2.1, hl.2.2.1.trans (by decide)⟩)⟩

/-- C16: on every tracer state of depth `d` (with `indent` set, as on every state the tracer
reaches) and for every composite kind `k`, a begin of `k` appends its opening line indented
`2 * d` spaces and pushes a frame of kind `k`, so the depth is `d + 1`; an end of `k` issued
with that frame on top of the stack pops it and appends the closing token (`]` for list and
set, the closing brace for message, struct and map) as a line indented by the same `2 * d`
spaces, leaving the stack as it was before the begin. -/
theorem composite_begin_end {P E T : Type} (p : TProtocol P E T) (fmt : Fmt)
    (ctx1 ctx2 : Context) (l : LoggingProtocol P) (b e : Op) (k : thriftType)
    (hb : b.opens = some k) (he : e.closes = some k) (hi : l.indent = true) :
    (∃ l1, l.step p fmt ctx1 b = some l1 ∧
      l1.w = l.w ++ tabs l.stack.length ++ (openText k (b.beginName p ctx1 l.next) ++ "\n") ∧
      l1.stack = l.stack ++ [k] ∧ l1.stack.length = l.stack.length + 1) ∧
    (∀ l2 : LoggingProtocol P, l2.indent = true → l2.stack = l.stack ++ [k] →
      ∃ l3, l2.step p fmt ctx2 e = some l3 ∧
        l3.w = l2.w ++ tabs l.stack.length ++ (closeText k ++ "\n") ∧ l3.stack = l.stack) ∧
    (tabs l.stack.length).data = List.replicate (2 * l.stack.length) ' ' ∧
    closeText k = (if k = thriftType.LIST ∨ k = thriftType.SET then "]" else "\x7d") := by
  refine ⟨⟨_, step_begin p fmt ctx1 l b k hb hi, rfl, rfl, by simp⟩, ?_, tabs_data _, ?_⟩
  · intro l2 hi2 hs2
    exact ⟨_, step_end p fmt ctx2 l2 e k l.stack he hs2 hi2, rfl, rfl⟩
  · have hk := opens_isComposite b k hb
    cases k <;> simp [thriftType.isComposite] at hk <;> simp [closeText]

/-- An instance of C16: a list is begun and ended inside an open struct. -/
theorem composite_begin_end_witness :
    (Op.ReadListBegin.opens = some thriftType.LIST ∧
      Op.ReadListEnd.closes = some thriftType.LIST ∧
      ({ next := (), w := "struct \x7b\n", indent := true, stack := [thriftType.STRUCT] } :
        LoggingProtocol Unit).indent = true) ∧
    ∃ l1, ({ next := (), w := "struct \x7b\n", indent := true, stack := [thriftType.STRUCT] } :
        LoggingProtocol Unit).step (testProtocol "x" none) testFmt (Context.mk 0)
          Op.ReadListBegin = some l1 ∧
      l1.w = "struct \x7b\n" ++ tabs 1 ++ ("list [" ++ "\n") ∧
      l1.stack = [thriftType.STRUCT] ++ [thriftType.LIST] ∧ l1.stack.length = 1 + 1 :=
  ⟨⟨rfl, rfl, rfl⟩,
    (composite_begin_end (testProtocol "x" none) testFmt (Context.mk 0) (Context.mk 1)
      { next := (), w := "struct \x7b\n", indent := true, stack := [thriftType.STRUCT] }
      Op.ReadListBegin Op.ReadListEnd thriftType.LIST rfl rfl rfl).1⟩

/-- A scalar call whose item renders: the rendering is appended as one line at the current
depth, and the stack is left as it was. -/
theorem step_scalar {P E T : Type} (p : TProtocol P E T) (fmt : Fmt) (ctx : Context)
    (l : LoggingProtocol P) (op : Op) (item : thriftItem) (msg : String)
    (hitem : op.scalarItem p ctx l.next = some item)
    (hr : renderItem fmt item = some (msg, true)) (hi : l.indent = true) :
    l.step p fmt ctx op =
      some { next := (p.call ctx op l.next).2
             w := l.w ++ tabs l.stack.length ++ (msg ++ "\n")
             indent := true, stack := l.stack } := by
  cases op <;> simp only [Op.scalarItem, Option.some.injEq, reduceCtorEq] at hitem <;>
    subst hitem
  case WriteBool value =>
    simp [LoggingProtocol.step, LoggingProtocol.WriteBool, TProtocol.call,
      push_line fmt l _ _ hr hi, thriftType.isParent]
  case WriteByte value =>
    simp [LoggingProtocol.step, LoggingProtocol.WriteByte, TProtocol.call,
      push_line fmt l _ _ hr hi, thriftType.isParent]
  case WriteI16 value =>
    simp [LoggingProtocol.step, LoggingProtocol.WriteI16, TProtocol.call,
      push_line fmt l _ _ hr hi, thriftType.isParent]
  case WriteI32 value =>
    simp [LoggingProtocol.step, LoggingProtocol.WriteI32, TProtocol.call,
      push_line fmt l _ _ hr hi, thriftType.isParent]
  case WriteI64 value =>
    simp [LoggingProtocol.step, LoggingProtocol.WriteI64, TProtocol.call,
      push_line fmt l _ _ hr hi, thriftType.isParent]
  case WriteDouble value =>
    simp [LoggingProtocol.step, LoggingProtocol.WriteDouble, TProtocol.call,
      push_line fmt l _ _ hr hi, thriftType.isParent]
  case WriteString value =>
    simp [LoggingProtocol.step, LoggingProtocol.WriteString, TProtocol.call,
      push_line fmt l _ _ hr hi, thriftType.isParent]
  case WriteBinary value =>
    simp [LoggingProtocol.step, LoggingProtocol.WriteBinary, TProtocol.call,
      push_line fmt l _ _ hr hi, thriftType.isParent]
  case WriteUUID value =>
    simp [LoggingProtocol.step, LoggingProtocol.WriteUUID, TProtocol.call,
      push_line fmt l _ _ hr hi, thriftType.isParent]
  case ReadBool =>
    simp [LoggingProtocol.step, LoggingProtocol.ReadBool, TProtocol.call,
      push_line fmt { l with next := (p.ReadBool ctx l.next).2 } _ _ hr hi,
      thriftType.isParent]
  case ReadByte =>
    simp [LoggingProtocol.step, LoggingProtocol.ReadByte, TProtocol.call,
      push_line fmt { l with next := (p.ReadByte ctx l.next).2 } _ _ hr hi,
      thriftType.isParent]
  case ReadI16 =>
    simp [LoggingProtocol.step, LoggingProtocol.ReadI16, TProtocol.call,
      push_line fmt { l with next := (p.ReadI16 ctx l.next).2 } _ _ hr hi,
      thriftType.isParent]
  case ReadI32 =>
    simp [LoggingProtocol.step, LoggingProtocol.ReadI32, TProtocol.call,
      push_line fmt { l with next := (p.ReadI32 ctx l.next).2 } _ _ hr hi,
      thriftType.isParent]
  case ReadI64 =>
    simp [LoggingProtocol.step, LoggingProtocol.ReadI64, TProtocol.call,
      push_line fmt { l with next := (p.ReadI64 ctx l.next).2 } _ _ hr hi,
      thriftType.isParent]
  case ReadDouble =>
    simp [LoggingProtocol.step, LoggingProtocol.ReadDouble, TProtocol.call,
      push_line fmt { l with next := (p.ReadDouble ctx l.next).2 } _ _ hr hi,
      thriftType.isParent]
  case ReadString =>
    simp [LoggingProtocol.step, LoggingProtocol.ReadString, TProtocol.call,
      push_line fmt { l with next := (p.ReadString ctx l.next).2 } _ _ hr hi,
      thriftType.isParent]
  case ReadBinary =>
    simp [LoggingProtocol.step, LoggingProtocol.ReadBinary, TProtocol.call,
      push_line fmt { l with next := (p.ReadBinary ctx l.next).2 } _ _ hr hi,
      thriftType.isParent]
  case ReadUUID =>
    simp [LoggingProtocol.step, LoggingProtocol.ReadUUID, TProtocol.call,
      push_line fmt { l with next := (p.ReadUUID ctx l.next).2 } _ _ hr hi,
      thriftType.isParent]

/-- C17: for every string `s` and every tracer state (with `indent` set, as on every state the
tracer reaches), `WriteString(s)` appends, after the indentation of the current depth, a
double quote, `s` with every double quote replaced by backslash, double quote and nothing
else changed, a double quote and a newline, and leaves the stack alone; `ReadString` does the
same with the string the wrapped protocol returns, which it returns to its caller. For
`he said "hi"` the rendered value is `"he said \"hi\""`. -/
theorem string_rendering {P E T : Type} (p : TProtocol P E T) (fmt : Fmt) (ctx : Context)
    (l : LoggingProtocol P) (s : String) (hi : l.indent = true) :
    (∃ r, l.WriteString p fmt ctx s = some r ∧
      r.2.w = l.w ++ tabs l.stack.length ++ ("\"" ++ escapeQuotes s ++ "\"" ++ "\n") ∧
      r.2.stack = l.stack) ∧
    (∃ r, l.ReadString p fmt ctx = some r ∧ r.1 = (p.ReadString ctx l.next).1 ∧
      r.2.w = l.w ++ tabs l.stack.length ++
        ("\"" ++ escapeQuotes (p.ReadString ctx l.next).1.1 ++ "\"" ++ "\n") ∧
      r.2.stack = l.stack) ∧
    (escapeQuotes s).data = s.data.flatMap (fun c => if c = '"' then ['\\', '"'] else [c]) ∧
    "\"" ++ escapeQuotes "he said \"hi\"" ++ "\"" = "\"he said \\\"hi\\\"\"" := by
  have hw := push_line fmt l { thriftType := .STRING, value := .string s } _ rfl hi
  have hr := push_line fmt { l with next := (p.ReadString ctx l.next).2 }
    { thriftType := .STRING, value := .string (p.ReadString ctx l.next).1.1 } _ rfl hi
  refine ⟨⟨_, by rw [LoggingProtocol.WriteString, hw]; rfl, rfl, rfl⟩,
    ⟨_, by simp only [LoggingProtocol.ReadString, hr]; rfl, rfl, rfl, rfl⟩, rfl,
    by decide⟩

/-- An instance of C17: the string `he said "hi"` is written inside an open list. -/
theorem string_rendering_witness :
    ({ next := (), w := "list [\n", indent := true, stack := [thriftType.LIST] } :
      LoggingProtocol Unit).indent = true ∧
    ∃ r, ({ next := (), w := "list [\n", indent := true, stack := [thriftType.LIST] } :
        LoggingProtocol Unit).WriteString (testProtocol "" none) testFmt (Context.mk 0)
          "he said \"hi\"" = some r ∧
      r.2.w = "list [\n" ++ tabs 1 ++ ("\"" ++ escapeQuotes "he said \"hi\"" ++ "\"" ++ "\n") ∧
      r.2.stack = [thriftType.LIST] :=
  ⟨rfl, (string_rendering (testProtocol "" none) testFmt (Context.mk 0)
    { next := (), w := "list [\n", indent := true, stack := [thriftType.LIST] }
    "he said \"hi\"" rfl).1⟩

/-- C19: a field begin followed by a scalar write does not render the value inline: after the
key prefix the scalar's line starts with the indentation of depth `d + 1`, since the field
frame is on the stack and `indent` is never cleared. On a tracer of depth `d` with buffer
`w`, `WriteFieldBegin(name)` then `WriteI32(v)` leave `w`, `2 * d` spaces, the key prefix,
`2 * (d + 1)` spaces, the decimal rendering and a newline. On a fresh tracer, field `id` with
value 42 renders as `"id" =   42`, with two spaces between the prefix and the value. -/
theorem field_value_indented_after_prefix {P E T : Type} (p : TProtocol P E T) (fmt : Fmt)
    (ctx : Context) (nx : P) (w : String) (st : List thriftType) (name : String)
    (typeId id v : Int) :
    (LoggingProtocol.run p fmt [(ctx, Op.WriteFieldBegin name typeId id), (ctx, Op.WriteI32 v)]
        { next := nx, w := w, indent := true, stack := st }).map (fun l => l.w) =
      some (w ++ tabs st.length ++ ("\"" ++ name ++ "\" = ") ++ tabs (st.length + 1) ++
        (fmtD v ++ "\n")) ∧
    (LoggingProtocol.run (testProtocol "" none) testFmt
        [(Context.mk 0, Op.WriteFieldBegin "id" 8 1), (Context.mk 0, Op.WriteI32 42)]
        (NewLoggingProtocol ())).map (fun l => l.w) = some "\"id\" =   42\n" := by
  refine ⟨?_, by decide⟩
  have h1 : LoggingProtocol.step p fmt ctx { next := nx, w := w, indent := true, stack := st }
      (Op.WriteFieldBegin name typeId id) =
      some { next := (p.WriteFieldBegin ctx name typeId id nx).2
             w := w ++ tabs st.length ++ ("\"" ++ name ++ "\" = ")
             indent := true, stack := st ++ [thriftType.FIELD] } := by
    simp [LoggingProtocol.step, LoggingProtocol.WriteFieldBegin, push_field,
      LoggingProtocol.write, LoggingProtocol.indentWriter, String.append_assoc]
  simp only [LoggingProtocol.run, h1]
  rw [step_scalar p fmt ctx _ (Op.WriteI32 v) _ _ rfl rfl rfl]
  simp

/-! ## Theorems: the logging middleware -/

/-- The whole of `Process`: it is the handler's outcome, with the emitter applied once to the
world the handler left. -/
theorem Process_map {Pi Po E W : Type} (l : loggingMiddleware Pi Po E W) (clock : W → Int)
    (ctx : Context) (seqId : Int) (inp : Pi) (out : Po) (w : W) :
    l.Process clock ctx seqId inp out w =
      (l.next ctx seqId (NewLoggingProtocol inp) (NewLoggingProtocol out) w).map fun r =>
        (r.1, l.emit
          { Name := l.name, Input := r.2.1.w, Output := r.2.2.1.w
            Duration := clock r.2.2.2 - clock w, Err := none } r.2.2.2) := by
  cases h : l.next ctx seqId (NewLoggingProtocol inp) (NewLoggingProtocol out) w with
  | none => simp [loggingMiddleware.Process, h]
  | some r =>
    obtain ⟨⟨outBool, outErr⟩, i1, o1, w1⟩ := r
    simp [loggingMiddleware.Process, h, LoggingProtocol.String]

/-- C13: `Process` invokes the wrapped handler with the same context and sequence id (on the
two fresh tracers) and returns exactly the pair of continue-flag and error the handler
returned (and panics exactly when the handler does); the pair does not depend on the emitter:
replacing the emitter by any other leaves it unchanged. -/
theorem Process_returns_handler_result {Pi Po E W : Type} (l : loggingMiddleware Pi Po E W)
    (clock : W → Int) (ctx : Context) (seqId : Int) (inp : Pi) (out : Po) (w : W)
    (em : Call E → W → W) :
    (l.Process clock ctx seqId inp out w).map Prod.fst =
      (l.next ctx seqId (NewLoggingProtocol inp) (NewLoggingProtocol out) w).map Prod.fst ∧
    ({ l with emit := em }.Process clock ctx seqId inp out w).map Prod.fst =
      (l.Process clock ctx seqId inp out w).map Prod.fst := by
  simp only [Process_map, Option.map_map]
  exact ⟨rfl, rfl⟩

/-- C14: the middleware `Log` builds for the handler registered under `name` runs `Process`
as follows: the handler is invoked on the two fresh tracers, and when it returns (with or
without an error) the emitter (the configured one, or `StdoutLogger` for a nil emitter) is
applied exactly once, to the world the handler left, before `Process` returns the handler's
results. The record it is given has `Name = name`, `Input` the text in the buffer of the
tracer around the inbound protocol, `Output` that of the tracer around the outbound protocol,
and the elapsed time. -/
theorem Process_emits_one_record {Pi Po E W : Type} (stdoutLogger : Call E → W → W)
    (processor : List (String × (Context → Int → LoggingProtocol Pi → LoggingProtocol Po → W →
      Option ((Bool × Option E) × LoggingProtocol Pi × LoggingProtocol Po × W))))
    (emitter : Option (Call E → W → W)) (clock : W → Int) (ctx : Context) (seqId : Int)
    (inp : Pi) (out : Po) (w : W) :
    Log stdoutLogger processor emitter =
      processor.map (fun nf =>
        (nf.1, { emit := emitter.getD stdoutLogger, name := nf.1, next := nf.2 })) ∧
    ∀ x ∈ Log stdoutLogger processor emitter,
      x.2.name = x.1 ∧ x.2.emit = emitter.getD stdoutLogger ∧
      x.2.Process clock ctx seqId inp out w =
        (x.2.next ctx seqId (NewLoggingProtocol inp) (NewLoggingProtocol out) w).map fun r =>
          (r.1, (emitter.getD stdoutLogger)
            { Name := x.1, Input := r.2.1.w, Output := r.2.2.1.w
              Duration := clock r.2.2.2 - clock w, Err := none } r.2.2.2) := by
  have hlog : Log stdoutLogger processor emitter =
      processor.map (fun nf =>
        (nf.1, { emit := emitter.getD stdoutLogger, name := nf.1, next := nf.2 })) := by
    cases emitter <;> rfl
  refine ⟨hlog, fun x hx => ?_⟩
  rw [hlog, List.mem_map] at hx
  obtain ⟨nf, _, rfl⟩ := hx
  exact ⟨rfl, rfl, Process_map _ clock ctx seqId inp out w⟩

/-! ## Theorems: the invoker reference -/

/-- The client `handle` leaves: the client it was given, unless the backoff was granted and the
factory returned an invoker without error, which then is the new `wrappedClient`. -/
theorem handle_client_cases {σ X M A : Type} (c : RertryingClient σ X M A) (attempts : Int)
    (s : σ) :
    ((c.handle attempts s).client = c ∧ Event.factory none ∉ (c.handle attempts s).trace) ∨
    ((c.backoffHandler.BackOff attempts s).1 = true ∧
      (c.retryFn (c.backoffHandler.BackOff attempts s).2).1.2 = none ∧
      (c.handle attempts s).client =
        { c with wrappedClient := (c.retryFn (c.backoffHandler.BackOff attempts s).2).1.1 } ∧
      (c.handle attempts s).shouldRetry = true ∧
      Event.factory none ∈ (c.handle attempts s).trace) := by
  cases hb : (c.backoffHandler.BackOff attempts s).1
  · exact Or.inl (by simp [handle_declined c attempts s hb])
  · cases hf : (c.retryFn (c.backoffHandler.BackOff attempts s).2).1.2
    · exact Or.inr (by simp [handle_swapped c attempts s hb hf])
    · exact Or.inl (by simp [handle_failed c attempts s _ hb hf])

theorem loop_trace_prefix {σ X M A : Type} (args : A) (fuel : Nat) :
    ∀ (c : RertryingClient σ X M A) (attempts : Int) (s : σ) (tr : List (Event X M))
      (r : CallResult σ X M A), RertryingClient.loop args fuel c attempts s tr = some r →
      ∃ suf, r.trace = tr ++ suf := by
  induction fuel with
  | zero =>
    intro c attempts s tr r h
    simp [RertryingClient.loop] at h
  | succ fuel ih =>
    intro c attempts s tr r h
    cases hc : (c.wrappedClient.Call args s).1.2 with
    | none =>
      rw [loop_success args fuel c attempts s tr hc, Option.some.injEq] at h
      exact ⟨_, by rw [← h]⟩
    | some e =>
      cases hp : (c.shouldRetryFn e (c.wrappedClient.Call args s).2).1 with
      | false =>
        rw [loop_denied args fuel c attempts s tr e hc hp, Option.some.injEq] at h
        exact ⟨_, by rw [← h]⟩
      | true =>
        cases hh : (c.handle (attempts + 1)
            (c.shouldRetryFn e (c.wrappedClient.Call args s).2).2).shouldRetry with
        | false =>
          rw [loop_stop args fuel c attempts s tr e hc hp hh, Option.some.injEq] at h
          exact ⟨_, by rw [← h, List.append_assoc]⟩
        | true =>
          rw [loop_continue args fuel c attempts s tr e hc hp hh] at h
          obtain ⟨suf, hsuf⟩ := ih _ _ _ _ r h
          exact ⟨_, by rw [hsuf, List.append_assoc, List.append_assoc]⟩

/-- The client `Call` leaves: its factory, predicate and handler are those it had; its invoker
is the one it had or one the factory returned without error, and it is the one it had when no
factory call of the trace succeeded. -/
theorem loop_client {σ X M A : Type} (args : A) (fuel : Nat) :
    ∀ (c : RertryingClient σ X M A) (attempts : Int) (s : σ) (tr : List (Event X M))
      (r : CallResult σ X M A), RertryingClient.loop args fuel c attempts s tr = some r →
      r.client.retryFn = c.retryFn ∧ r.client.shouldRetryFn = c.shouldRetryFn ∧
      r.client.backoffHandler = c.backoffHandler ∧
      (r.client.wrappedClient = c.wrappedClient ∨
        ∃ s1, (c.retryFn s1).1.2 = none ∧ r.client.wrappedClient = (c.retryFn s1).1.1) ∧
      (Event.factory none ∉ r.trace → r.client = c) := by
  induction fuel with
  | zero =>
    intro c attempts s tr r h
    simp [RertryingClient.loop] at h
  | succ fuel ih =>
    intro c attempts s tr r h
    cases hc : (c.wrappedClient.Call args s).1.2 with
    | none =>
      rw [loop_success args fuel c attempts s tr hc, Option.some.injEq] at h
      subst h
      exact ⟨rfl, rfl, rfl, Or.inl rfl, fun _ => rfl⟩
    | some e =>
      cases hp : (c.shouldRetryFn e (c.wrappedClient.Call args s).2).1 with
      | false =>
        rw [loop_denied args fuel c attempts s tr e hc hp, Option.some.injEq] at h
        subst h
        exact ⟨rfl, rfl, rfl, Or.inl rfl, fun _ => rfl⟩
      | true =>
        obtain ⟨k1, k2, k3⟩ := handle_client c (attempts + 1)
          (c.shouldRetryFn e (c.wrappedClient.Call args s).2).2
        have hcases := handle_client_cases c (attempts + 1)
          (c.shouldRetryFn e (c.wrappedClient.Call args s).2).2
        cases hh : (c.handle (attempts + 1)
            (c.shouldRetryFn e (c.wrappedClient.Call args s).2).2).shouldRetry with
        | false =>
          rw [loop_stop args fuel c attempts s tr e hc hp hh, Option.some.injEq] at h
          subst h
          refine ⟨k1, k2, k3, ?_, fun hn => ?_⟩
          · rcases hcases with ⟨h1, _⟩ | ⟨_, h2, h3, _, _⟩
            · exact Or.inl (by rw [h1])
            · exact Or.inr ⟨_, h2, by rw [h3]⟩
          · rcases hcases with ⟨h1, _⟩ | ⟨_, _, _, _, h5⟩
            · exact h1
            · exact absurd (List.mem_append_right _ h5) hn
        | true =>
          rw [loop_continue args fuel c attempts s tr e hc hp hh] at h
          obtain ⟨i1, i2, i3, i4, i5⟩ := ih _ _ _ _ r h
          obtain ⟨suf, hsuf⟩ := loop_trace_prefix args fuel _ _ _ _ r h
          refine ⟨i1.trans k1, i2.trans k2, i3.trans k3, ?_, fun hn => ?_⟩
          · rcases i4 with i4 | ⟨s1, j1, j2⟩
            · rcases hcases with ⟨h1, _⟩ | ⟨_, h2, h3, _, _⟩
              · exact Or.inl (by rw [i4, h1])
              · exact Or.inr ⟨_, h2, by rw [i4, h3]⟩
            · rw [k1] at j1 j2
              exact Or.inr ⟨s1, j1, j2⟩
          · rcases hcases with ⟨h1, _⟩ | ⟨_, _, _, _, h5⟩
            · rw [i5 hn, h1]
            · refine absurd ?_ hn
              rw [hsuf]
              exact List.mem_append_left _ (List.mem_append_right _ h5)

/-- C18: the invoker reference changes by a successful reconnect and by nothing else.
In `handle`, when the backoff is granted and the factory returns an invoker without error,
the client's `wrappedClient` becomes that invoker (the other fields stay) and the call is
retried; when the factory returns an error, or the backoff is declined, the client is left
as it was. `Call` is its loop started on the client itself, and every iteration of the loop
invokes the current invoker and then: returns the client it ran on when the invocation
succeeds, when the error is not retry-worthy, or when `handle` ends the call; continues on
the same client when the factory failed with a retry-worthy error; continues on the client
with the new invoker after a swap. Hence, when the first invocation fails, the backoff is
granted, the factory returns `c1` and the invocation of `c1` succeeds, `Call` returns the
result of `c1` and leaves the client with `c1` as its invoker, and a later `Call` on that
client invokes `c1` and leaves it in place. In every result of `Call` the client has the
factory, predicate and handler it had, its invoker is the one it had or one the factory
returned without error, and it is unchanged when no factory call of the call succeeded. -/
theorem invoker_replaced_only_by_successful_reconnect {σ X M A : Type}
    (c : RertryingClient σ X M A) (attempts : Int) (s : σ) (args : A) :
    ((c.backoffHandler.BackOff attempts s).1 = true →
      (c.retryFn (c.backoffHandler.BackOff attempts s).2).1.2 = none →
      (c.handle attempts s).client =
        { c with wrappedClient := (c.retryFn (c.backoffHandler.BackOff attempts s).2).1.1 } ∧
      (c.handle attempts s).shouldRetry = true) ∧
    ((c.backoffHandler.BackOff attempts s).1 = true →
      (c.retryFn (c.backoffHandler.BackOff attempts s).2).1.2 ≠ none →
      (c.handle attempts s).client = c) ∧
    ((c.backoffHandler.BackOff attempts s).1 = false → (c.handle attempts s).client = c) ∧
    (∀ fuel : Nat, c.Call fuel args s = RertryingClient.loop args fuel c 0 s []) ∧
    (∀ (n : Nat) (tr : List (Event X M)), (c.wrappedClient.Call args s).1.2 = none →
      RertryingClient.loop args (n + 1) c attempts s tr =
        some
          { mt := (c.wrappedClient.Call args s).1.1, err := none, client := c
            world := (c.wrappedClient.Call args s).2
            trace := tr ++ [Event.invoke (c.wrappedClient.Call args s).1.1 none] }) ∧
    (∀ (n : Nat) (tr : List (Event X M)) (e : Error X), (c.wrappedClient.Call args s).1.2 = some e →
      (c.shouldRetryFn e (c.wrappedClient.Call args s).2).1 = false →
      (RertryingClient.loop args (n + 1) c attempts s tr).map (fun r => r.client) = some c) ∧
    (∀ (n : Nat) (tr : List (Event X M)) (e : Error X), (c.wrappedClient.Call args s).1.2 = some e →
      (c.shouldRetryFn e (c.wrappedClient.Call args s).2).1 = true →
      (c.handle (attempts + 1) (c.shouldRetryFn e (c.wrappedClient.Call args s).2).2).shouldRetry = false →
      (RertryingClient.loop args (n + 1) c attempts s tr).map (fun r => r.client) = some c) ∧
    (∀ (n : Nat) (tr : List (Event X M)) (e f : Error X), (c.wrappedClient.Call args s).1.2 = some e →
      (c.shouldRetryFn e (c.wrappedClient.Call args s).2).1 = true →
      (c.backoffHandler.BackOff (attempts + 1) (c.shouldRetryFn e (c.wrappedClient.Call args s).2).2).1 = true →
      (c.retryFn (c.backoffHandler.BackOff (attempts + 1) (c.shouldRetryFn e (c.wrappedClient.Call args s).2).2).2).1.2 = some f →
      (c.shouldRetryFn f (c.retryFn (c.backoffHandler.BackOff (attempts + 1) (c.shouldRetryFn e (c.wrappedClient.Call args s).2).2).2).2).1 = true →
      RertryingClient.loop args (n + 1) c attempts s tr =
        RertryingClient.loop args n c (attempts + 1)
          (c.shouldRetryFn f (c.retryFn (c.backoffHandler.BackOff (attempts + 1) (c.shouldRetryFn e (c.wrappedClient.Call args s).2).2).2).2).2
          (tr ++ [Event.invoke (c.wrappedClient.Call args s).1.1 (some e), Event.shouldRetry e true] ++
            [Event.backOff (attempts + 1) true, Event.factory (some f),
              Event.shouldRetry f true])) ∧
    (∀ (n : Nat) (tr : List (Event X M)) (e : Error X), (c.wrappedClient.Call args s).1.2 = some e →
      (c.shouldRetryFn e (c.wrappedClient.Call args s).2).1 = true →
      (c.backoffHandler.BackOff (attempts + 1) (c.shouldRetryFn e (c.wrappedClient.Call args s).2).2).1 = true →
      (c.retryFn (c.backoffHandler.BackOff (attempts + 1) (c.shouldRetryFn e (c.wrappedClient.Call args s).2).2).2).1.2 = none →
      RertryingClient.loop args (n + 1) c attempts s tr =
        RertryingClient.loop args n
          { c with wrappedClient := (c.retryFn (c.backoffHandler.BackOff (attempts + 1) (c.shouldRetryFn e (c.wrappedClient.Call args s).2).2).2).1.1 }
          (attempts + 1)
          (c.retryFn (c.backoffHandler.BackOff (attempts + 1) (c.shouldRetryFn e (c.wrappedClient.Call args s).2).2).2).2
          (tr ++ [Event.invoke (c.wrappedClient.Call args s).1.1 (some e), Event.shouldRetry e true] ++
            [Event.backOff (attempts + 1) true, Event.factory none])) ∧
    (∀ (n : Nat) (e : Error X), (c.wrappedClient.Call args s).1.2 = some e →
      (c.shouldRetryFn e (c.wrappedClient.Call args s).2).1 = true →
      (c.backoffHandler.BackOff 1 (c.shouldRetryFn e (c.wrappedClient.Call args s).2).2).1 = true →
      (c.retryFn (c.backoffHandler.BackOff 1 (c.shouldRetryFn e (c.wrappedClient.Call args s).2).2).2).1.2 = none →
      ((c.retryFn (c.backoffHandler.BackOff 1 (c.shouldRetryFn e (c.wrappedClient.Call args s).2).2).2).1.1.Call args (c.retryFn (c.backoffHandler.BackOff 1 (c.shouldRetryFn e (c.wrappedClient.Call args s).2).2).2).2).1.2 = none →
      c.Call (n + 2) args s =
        some
          { mt := ((c.retryFn (c.backoffHandler.BackOff 1 (c.shouldRetryFn e (c.wrappedClient.Call args s).2).2).2).1.1.Call args (c.retryFn (c.backoffHandler.BackOff 1 (c.shouldRetryFn e (c.wrappedClient.Call args s).2).2).2).2).1.1
            err := none
            client := { c with wrappedClient := (c.retryFn (c.backoffHandler.BackOff 1 (c.shouldRetryFn e (c.wrappedClient.Call args s).2).2).2).1.1 }
            world := ((c.retryFn (c.backoffHandler.BackOff 1 (c.shouldRetryFn e (c.wrappedClient.Call args s).2).2).2).1.1.Call args (c.retryFn (c.backoffHandler.BackOff 1 (c.shouldRetryFn e (c.wrappedClient.Call args s).2).2).2).2).2
            trace := [Event.invoke (c.wrappedClient.Call args s).1.1 (some e), Event.shouldRetry e true,
              Event.backOff 1 true, Event.factory none,
              Event.invoke ((c.retryFn (c.backoffHandler.BackOff 1 (c.shouldRetryFn e (c.wrappedClient.Call args s).2).2).2).1.1.Call args (c.retryFn (c.backoffHandler.BackOff 1 (c.shouldRetryFn e (c.wrappedClient.Call args s).2).2).2).2).1.1 none] } ∧
      ∀ (n2 : Nat) (s2 : σ), ((c.retryFn (c.backoffHandler.BackOff 1 (c.shouldRetryFn e (c.wrappedClient.Call args s).2).2).2).1.1.Call args s2).1.2 = none →
        RertryingClient.Call { c with wrappedClient := (c.retryFn (c.backoffHandler.BackOff 1 (c.shouldRetryFn e (c.wrappedClient.Call args s).2).2).2).1.1 } (n2 + 1) args s2 =
          some
            { mt := ((c.retryFn (c.backoffHandler.BackOff 1 (c.shouldRetryFn e (c.wrappedClient.Call args s).2).2).2).1.1.Call args s2).1.1
              err := none
              client := { c with wrappedClient := (c.retryFn (c.backoffHandler.BackOff 1 (c.shouldRetryFn e (c.wrappedClient.Call args s).2).2).2).1.1 }
              world := ((c.retryFn (c.backoffHandler.BackOff 1 (c.shouldRetryFn e (c.wrappedClient.Call args s).2).2).2).1.1.Call args s2).2
              trace := [Event.invoke ((c.retryFn (c.backoffHandler.BackOff 1 (c.shouldRetryFn e (c.wrappedClient.Call args s).2).2).2).1.1.Call args s2).1.1 none] }) ∧
    (∀ (fuel : Nat) (s0 : σ) (r : CallResult σ X M A), c.Call fuel args s0 = some r →
      r.client.retryFn = c.retryFn ∧ r.client.shouldRetryFn = c.shouldRetryFn ∧
      r.client.backoffHandler = c.backoffHandler ∧
      (r.client.wrappedClient = c.wrappedClient ∨
        ∃ s1, (c.retryFn s1).1.2 = none ∧ r.client.wrappedClient = (c.retryFn s1).1.1) ∧
      (Event.factory none ∉ r.trace → r.client = c)) := by
  refine ⟨fun hb hf => ?_, fun hb hf => ?_, fun hb => ?_, fun fuel => rfl,
    fun n tr hc => loop_success args n c attempts s tr hc, fun n tr e hc hp => ?_,
    fun n tr e hc hp hh => ?_, fun n tr e f hc hp hb hf hq => ?_,
    fun n tr e hc hp hb hf => ?_, fun n e hc hp hb hf hc1 => ?_,
    fun fuel s0 r h => loop_client args fuel c 0 s0 [] r h⟩
  · simp [handle_swapped c attempts s hb hf]
  · cases hfe : (c.retryFn (c.backoffHandler.BackOff attempts s).2).1.2 with
    | none => exact absurd hfe hf
    | some f => simp [handle_failed c attempts s f hb hfe]
  · simp [handle_declined c attempts s hb]
  · rw [loop_denied args n c attempts s tr e hc hp]
    rfl
  · rw [loop_stop args n c attempts s tr e hc hp hh, Option.map_some']
    rcases handle_client_cases c (attempts + 1) (c.shouldRetryFn e (c.wrappedClient.Call args s).2).2 with
      ⟨h1, _⟩ | ⟨_, _, _, h4, _⟩
    · rw [h1]
    · rw [hh] at h4
      cases h4
  · have hs := handle_failed c (attempts + 1) _ f hb hf
    rw [loop_continue args n c attempts s tr e hc hp (by rw [hs]; exact hq), hs]
    simp only [hq]
  · have hs := handle_swapped c (attempts + 1) _ hb hf
    rw [loop_continue args n c attempts s tr e hc hp (by rw [hs]), hs]
  · have hb0 : (c.backoffHandler.BackOff (0 + 1) (c.shouldRetryFn e (c.wrappedClient.Call args s).2).2).1 = true := by
      simpa using hb
    have hf0 : (c.retryFn (c.backoffHandler.BackOff (0 + 1) (c.shouldRetryFn e (c.wrappedClient.Call args s).2).2).2).1.2 = none := by
      simpa using hf
    have hs := handle_swapped c (0 + 1) _ hb0 hf0
    refine ⟨?_, fun n2 s2 hc2 => ?_⟩
    · show RertryingClient.loop args (n + 1 + 1) c 0 s [] = _
      rw [loop_continue args (n + 1) c 0 s [] e hc hp (by rw [hs]), hs]
      simp only [Int.zero_add] at hc1 ⊢
      rw [loop_success args n _ _ _ _ hc1]
      simp
    · exact loop_success args n2 _ 0 s2 [] hc2

/-- An instance of C18: the factory of `flakyFactoryClient 3` succeeds at once (no failures
left), so after the first failed invocation the invoker is replaced, the second invocation
succeeds on the new invoker with metadata 9, the client left behind holds the new invoker,
and a later call on that client is answered by the new invoker. -/
theorem invoker_replaced_only_by_successful_reconnect_witness :
    ((flakyFactoryClient 3).Call 2 () 0).map
        (fun r => (r.mt, r.err, r.trace, (r.client.wrappedClient.Call () 0).1)) =
      some (9, none,
        [Event.invoke 0 (some (Error.other "reset")),
          Event.shouldRetry (Error.other "reset") true, Event.backOff 1 true,
          Event.factory none, Event.invoke 9 none],
        (9, none)) ∧
    (((flakyFactoryClient 3).Call 2 () 0).bind
        (fun r => (r.client.Call 1 () 0).map (fun r2 => (r2.mt, r2.err, r2.trace)))) =
      some (9, none, [Event.invoke 9 none]) :=
  ⟨by
    rw [((invoker_replaced_only_by_successful_reconnect (flakyFactoryClient 3) 0 0
      ()).2.2.2.2.2.2.2.2.2.1 0 (Error.other "reset") rfl rfl rfl rfl rfl).1]
    rfl, by
    rw [((invoker_replaced_only_by_successful_reconnect (flakyFactoryClient 3) 0 0
      ()).2.2.2.2.2.2.2.2.2.1 0 (Error.other "reset") rfl rfl rfl rfl rfl).1]
    rfl⟩

/-! ## Theorems: tracing and the outcome of the wrapped call -/

/-- The buffer and stack after a `push` are a function of the buffer, stack and `indent` before
it and of the item: the wrapped protocol does not enter. -/
theorem push_w_stack {P : Type} (fmt : Fmt) (l : LoggingProtocol P) (item : thriftItem) :
    (l.push fmt item).map (fun l1 => (l1.w, l1.stack)) =
      (renderItem fmt item).map (fun x =>
        (l.w ++ (if l.indent then tabs l.stack.length else "") ++
            (if x.2 then x.1 ++ "\n" else x.1),
          if item.thriftType.isParent then l.stack ++ [item.thriftType] else l.stack)) := by
  cases l with
  | mk nx w ind stk =>
    cases hr : renderItem fmt item with
    | none => simp [LoggingProtocol.push, hr]
    | some x =>
      obtain ⟨msg, ln⟩ := x
      cases ln <;> cases ind <;> cases hp : item.thriftType.isParent <;>
        simp [LoggingProtocol.push, hr, hp, LoggingProtocol.writeLn, LoggingProtocol.write,
          LoggingProtocol.indentWriter, String.append_assoc]

/-- The buffer and stack a call leaves depend on the wrapped protocol only through the values
it returns: two wrapped protocols that return the same values on a call, with whatever
errors and next states, leave the same buffer and stack. -/
theorem step_w_stack_values {P E T : Type} (p q : TProtocol P E T) (fmt : Fmt) (ctx : Context)
    (l : LoggingProtocol P) (op : Op)
    (hv : (q.call ctx op l.next).1.1 = (p.call ctx op l.next).1.1) :
    (l.step q fmt ctx op).map (fun l1 => (l1.w, l1.stack)) =
      (l.step p fmt ctx op).map (fun l1 => (l1.w, l1.stack)) := by
  cases op <;>
    simp only [TProtocol.call, List.cons.injEq, Value.string.injEq, Value.int64.injEq,
      Value.bool.injEq, Value.int8.injEq, Value.int16.injEq, Value.int32.injEq,
      Value.float64.injEq, Value.bytes.injEq, Value.tuuid.injEq, and_true] at hv <;>
    simp only [LoggingProtocol.step, LoggingProtocol.WriteMessageBegin,
      LoggingProtocol.WriteMessageEnd, LoggingProtocol.WriteStructBegin,
      LoggingProtocol.WriteStructEnd, LoggingProtocol.WriteFieldBegin,
      LoggingProtocol.WriteFieldEnd, LoggingProtocol.WriteFieldStop,
      LoggingProtocol.WriteMapBegin, LoggingProtocol.WriteMapEnd,
      LoggingProtocol.WriteListBegin, LoggingProtocol.WriteListEnd,
      LoggingProtocol.WriteSetBegin, LoggingProtocol.WriteSetEnd, LoggingProtocol.WriteBool,
      LoggingProtocol.WriteByte, LoggingProtocol.WriteI16, LoggingProtocol.WriteI32,
      LoggingProtocol.WriteI64, LoggingProtocol.WriteDouble, LoggingProtocol.WriteString,
      LoggingProtocol.WriteBinary, LoggingProtocol.WriteUUID, LoggingProtocol.ReadMessageBegin,
      LoggingProtocol.ReadMessageEnd, LoggingProtocol.ReadStructBegin,
      LoggingProtocol.ReadStructEnd, LoggingProtocol.ReadFieldBegin,
      LoggingProtocol.ReadFieldEnd, LoggingProtocol.ReadMapBegin, LoggingProtocol.ReadMapEnd,
      LoggingProtocol.ReadListBegin, LoggingProtocol.ReadListEnd, LoggingProtocol.ReadSetBegin,
      LoggingProtocol.ReadSetEnd, LoggingProtocol.ReadBool, LoggingProtocol.ReadByte,
      LoggingProtocol.ReadI16, LoggingProtocol.ReadI32, LoggingProtocol.ReadI64,
      LoggingProtocol.ReadDouble, LoggingProtocol.ReadString, LoggingProtocol.ReadBinary,
      LoggingProtocol.ReadUUID, LoggingProtocol.Skip, LoggingProtocol.Flush,
      Option.map_map, Option.map_some', Function.comp_def, push_w_stack]
  all_goals first
    | rw [hv]
    | rw [hv.1]

/-- C20, the failing instance: on a fresh tracer over a protocol whose `ReadFieldBegin` returns
the name `x` together with the error `eof`, the tracer returns both to its caller, appends no
rendering and pushes no frame. -/
theorem ReadFieldBegin_error_renders_nothing :
    ((NewLoggingProtocol ()).ReadFieldBegin (testProtocol "x" (some "eof")) (Context.mk 0)).1 =
      (("x", 0, 0), some "eof") ∧
    ((NewLoggingProtocol ()).ReadFieldBegin (testProtocol "x" (some "eof")) (Context.mk 0)).2.w =
      "" ∧
    ((NewLoggingProtocol ()).ReadFieldBegin (testProtocol "x" (some "eof"))
      (Context.mk 0)).2.stack = [] := by
  decide

/-- The tracer a call leaves is the second component of what the call returns. -/
theorem step_eq_call {P E T : Type} (p : TProtocol P E T) (fmt : Fmt) (ctx : Context)
    (l : LoggingProtocol P) (op : Op) :
    l.step p fmt ctx op = (l.call p fmt ctx op).map Prod.snd := by
  cases op <;>
    simp [LoggingProtocol.step, LoggingProtocol.call, Option.map_map, Function.comp_def]

/-- Every call but the two byte calls returns: the tracer does not panic on it. -/
theorem step_isSome {P E T : Type} (p : TProtocol P E T) (fmt : Fmt) (ctx : Context)
    (l : LoggingProtocol P) (op : Op) (hb : op.isByte = false) :
    (l.step p fmt ctx op).isSome = true := by
  have h := call_eq p fmt ctx l op
  rw [hb] at h
  cases hc : l.call p fmt ctx op with
  | none => simp [hc] at h
  | some r => simp [step_eq_call, hc]

/-- The item of every scalar call but the two byte calls has a rendering, which ends its
line. -/
theorem scalarItem_renders {P E T : Type} (p : TProtocol P E T) (fmt : Fmt) (ctx : Context)
    (s : P) (op : Op) (item : thriftItem) (hitem : op.scalarItem p ctx s = some item)
    (hb : op.isByte = false) : ∃ msg, renderItem fmt item = some (msg, true) := by
  cases op <;> simp only [Op.scalarItem, Option.some.injEq, reduceCtorEq] at hitem <;>
    simp only [Op.isByte, reduceCtorEq] at hb <;> subst hitem <;> exact ⟨_, rfl⟩

/-- C20, amended: tracing is independent of the wrapped call's outcome. On a tracer whose
`indent` flag is set (every tracer that `NewLoggingProtocol` builds, at any later time) and
for every call `op` over a wrapped protocol `p`:
(1) a wrapped protocol `q` that returns the same values as `p` on this call, with whatever
error and next state, leaves the tracer with the same buffer and stack;
(2) for a call of the write direction this holds for any `q1` at all, the rendering being
done before the call is forwarded;
(3) every call other than `WriteByte` and `ReadByte` returns (no panic);
(4) every scalar call other than `WriteByte` and `ReadByte` has an item that renders, and
appends that rendering as one line at the current depth, built from the value the wrapped
protocol returned for a read, whatever error came with it, leaving the stack as it was;
(5) every composite begin, of either direction, appends its opening line and pushes its
frame, whatever the outcome;
(6) every composite end, of either direction, with a frame of its kind on top, pops it and
appends the closing line, whatever the outcome;
(7) `ReadFieldBegin` and `ReadFieldEnd` return and leave the buffer and the stack as they
were, whatever the outcome;
(8) a failing `ReadString` that returns the empty string appends the line `""`, and a
failing `ReadMessageBegin` that returns the name `ping` appends its opening line and pushes
a `MESSAGE` frame. -/
theorem tracing_independent_of_outcome {P E T : Type} (p : TProtocol P E T) (fmt : Fmt)
    (ctx : Context) (l : LoggingProtocol P) (op : Op) (hi : l.indent = true) :
    (∀ q : TProtocol P E T, (q.call ctx op l.next).1.1 = (p.call ctx op l.next).1.1 →
      (l.step q fmt ctx op).map (fun l1 => (l1.w, l1.stack)) =
        (l.step p fmt ctx op).map (fun l1 => (l1.w, l1.stack))) ∧
    (op.isWrite = true → ∀ q1 : TProtocol P E T,
      (l.step q1 fmt ctx op).map (fun l1 => (l1.w, l1.stack)) =
        (l.step p fmt ctx op).map (fun l1 => (l1.w, l1.stack))) ∧
    (op.isByte = false → (l.step p fmt ctx op).isSome = true) ∧
    (∀ item, op.scalarItem p ctx l.next = some item → op.isByte = false →
      ∃ msg l1, renderItem fmt item = some (msg, true) ∧ l.step p fmt ctx op = some l1 ∧
        l1.w = l.w ++ tabs l.stack.length ++ (msg ++ "\n") ∧ l1.stack = l.stack) ∧
    (∀ k, op.opens = some k →
      ∃ l1, l.step p fmt ctx op = some l1 ∧
        l1.w = l.w ++ tabs l.stack.length ++ (openText k (op.beginName p ctx l.next) ++ "\n") ∧
        l1.stack = l.stack ++ [k]) ∧
    (∀ k st, op.closes = some k → l.stack = st ++ [k] →
      ∃ l1, l.step p fmt ctx op = some l1 ∧
        l1.w = l.w ++ tabs st.length ++ (closeText k ++ "\n") ∧ l1.stack = st) ∧
    (op = Op.ReadFieldBegin ∨ op = Op.ReadFieldEnd →
      ∃ l1, l.step p fmt ctx op = some l1 ∧ l1.w = l.w ∧ l1.stack = l.stack) ∧
    ((NewLoggingProtocol ()).step (testProtocol "" (some "eof")) testFmt (Context.mk 0)
        Op.ReadString).map (fun l1 => (l1.w, l1.stack)) = some ("\"\"\n", []) ∧
    ((NewLoggingProtocol ()).step (testProtocol "ping" (some "eof")) testFmt (Context.mk 0)
        Op.ReadMessageBegin).map (fun l1 => (l1.w, l1.stack)) =
      some ("message (name='ping') \x7b\n", [thriftType.MESSAGE]) := by
  refine ⟨fun q hv => step_w_stack_values p q fmt ctx l op hv, fun hw q1 => ?_,
    step_isSome p fmt ctx l op, fun item h1 hb => ?_, fun k hk => ?_, fun k st hk hs => ?_,
    fun h => ?_, by decide, by decide⟩
  · exact step_w_stack_values p q1 fmt ctx l op
      (by cases op <;> simp [Op.isWrite] at hw <;> rfl)
  · obtain ⟨msg, h2⟩ := scalarItem_renders p fmt ctx l.next op item h1 hb
    exact ⟨msg, _, h2, step_scalar p fmt ctx l op item msg h1 h2 hi, rfl, rfl⟩
  · exact ⟨_, step_begin p fmt ctx l op k hk hi, rfl, rfl⟩
  · exact ⟨_, step_end p fmt ctx l op k st hk hs hi, rfl, rfl⟩
  · rcases h with h | h <;> subst h
    · exact ⟨_, rfl, rfl, rfl⟩
    · exact ⟨_, rfl, rfl, rfl⟩

/-- An instance of the amended C20: `ReadString` on a fresh tracer, over a protocol that
returns the empty string without error and over one that returns it with the error `eof`;
both leave the same buffer and stack. -/
theorem tracing_independent_of_outcome_witness :
    (NewLoggingProtocol ()).indent = true ∧
    ((testProtocol "" (some "eof")).call (Context.mk 0) Op.ReadString
        (NewLoggingProtocol ()).next).1.1 =
      ((testProtocol "" none).call (Context.mk 0) Op.ReadString
        (NewLoggingProtocol ()).next).1.1 ∧
    ((NewLoggingProtocol ()).step (testProtocol "" (some "eof")) testFmt (Context.mk 0)
        Op.ReadString).map (fun l1 => (l1.w, l1.stack)) =
      ((NewLoggingProtocol ()).step (testProtocol "" none) testFmt (Context.mk 0)
        Op.ReadString).map (fun l1 => (l1.w, l1.stack)) :=
  ⟨rfl, rfl,
    (tracing_independent_of_outcome (testProtocol "" none) testFmt (Context.mk 0)
      (NewLoggingProtocol ()) Op.ReadString rfl).1 (testProtocol "" (some "eof")) rfl⟩

end ThriftUtils
